import Mathlib

/-!
# bankapp: ledger, credit and card services

A shallow embedding of `internal/services/bank.go`, `internal/services/auth.go`
and the repositories under `internal/repo`, followed by theorems about them.

Conventions of the embedding

* The relational store is a record of tables (lists of rows).  A repository
  call that goes through `r.db` reads or writes the committed store; a call
  that goes through a `TxContext` writes the working copy of the open unit of
  work.  `WithTx` commits the working copy or discards it.
* Every store statement of a call carries a label; `Env.fault n` says whether
  the statement labelled `n` fails with a driver error.
* The declarations of the tables are not part of the sources.  Whether the
  column `hmac` of `cards` has a uniqueness constraint is the parameter
  `Env.cardsHMACUnique`.
* `decimal.Decimal` (arbitrary precision, exact `Add`, `Sub`, `Mul`, `Cmp`) is
  embedded as `ℚ`.  `Div` rounds the quotient to `DivisionPrecision = 16`
  places and `Round` rounds to the given places, both half away from zero.
* `uuid.New()`, `time.Now()`, the random digit source, the rate source and the
  cryptographic primitives are read from the environment `Env` of the call.
-/

namespace BankApp

/-! ## Basic types -/

/-- Row identifier (`uuid.UUID`). -/
abbrev UUID := ℕ

/-- Value of a `decimal.Decimal`. -/
abbrev Decimal := ℚ

/-- Rounding of `x` to `places` decimal places, halves away from zero: the
rounding of `Decimal.Round` and of `Decimal.DivRound`. -/
def Decimal.Round (x : Decimal) (places : ℕ) : Decimal :=
  let s := x * (10 : ℚ) ^ places
  if 0 ≤ s then ((⌊s + 1 / 2⌋ : ℤ) : ℚ) / (10 : ℚ) ^ places
  else ((⌈s - 1 / 2⌉ : ℤ) : ℚ) / (10 : ℚ) ^ places

/-- The package variable `decimal.DivisionPrecision`. -/
def DivisionPrecision : ℕ := 16

/-- Quotient `d / d2` as `Decimal.Div` gives it: rounded to
`DivisionPrecision` places; `none` stands for the division-by-zero panic. -/
def Decimal.Div (d d2 : Decimal) : Option Decimal :=
  if d2 = 0 then none else some (Decimal.Round (d / d2) DivisionPrecision)

/-- Power `d.Pow(decimal.NewFromInt(n))` for the exponents the code passes
(`n > 0`): repeated exact multiplication. -/
def Decimal.Pow (d : Decimal) (n : ℤ) : Decimal := d ^ n.toNat

/-- Civil time of a `time.Time`: calendar date and nanoseconds since midnight. -/
structure Time where
  year : ℕ
  month : ℕ
  day : ℕ
  nsec : ℕ
deriving DecidableEq, Repr

/-- Leap years of the Gregorian calendar. -/
def isLeap (y : ℕ) : Bool :=
  y % 4 = 0 && (y % 100 != 0 || y % 400 = 0)

/-- Number of days of month `m` of year `y`. -/
def daysIn (y m : ℕ) : ℕ :=
  if m = 2 then (if isLeap y then 29 else 28)
  else if m = 4 ∨ m = 6 ∨ m = 9 ∨ m = 11 then 30
  else 31

/-- A date that exists in the calendar. -/
def Time.Valid (t : Time) : Prop :=
  1 ≤ t.month ∧ t.month ≤ 12 ∧ 1 ≤ t.day ∧ t.day ≤ daysIn t.year t.month

instance (t : Time) : Decidable t.Valid := by
  unfold Time.Valid
  infer_instance

/-- The call `t.AddDate(years, months, 0)`: the month count is carried into
the year, and a day past the end of the resulting month is carried into the
following month (January 31 plus one month is March 3, or March 2 in a leap
year). -/
def Time.AddDate (t : Time) (years months : ℕ) : Time :=
  let m0 := t.month - 1 + months
  let y := t.year + years + m0 / 12
  let m := m0 % 12 + 1
  if t.day ≤ daysIn y m then { t with year := y, month := m }
  else { t with year := y, month := m + 1, day := t.day - daysIn y m }

/-- Strict chronological order (`a.Before(b)`). -/
def Time.Before (a b : Time) : Prop :=
  a.year < b.year ∨ (a.year = b.year ∧ (a.month < b.month ∨ (a.month = b.month ∧
    (a.day < b.day ∨ (a.day = b.day ∧ a.nsec < b.nsec)))))

instance (a b : Time) : Decidable (a.Before b) := by
  unfold Time.Before
  infer_instance

/-! ## Rows (`internal/models/models.go`)

The `created_at` columns are filled by the database and never read by the
services; they are left out, as is `credits.start_at`, which the code never
sets. -/

/-- Row of `accounts`. -/
structure Account where
  ID : UUID
  UserID : UUID
  Number : String
  Balance : Decimal
deriving DecidableEq, Repr

/-- Row of `cards`. -/
structure Card where
  ID : UUID
  AccountID : UUID
  NumberEnc : String
  ExpiryEnc : String
  CVVHash : String
  HMAC : String
deriving DecidableEq, Repr

/-- Row of `transactions`. -/
structure Transaction where
  ID : UUID
  From : Option UUID
  To : Option UUID
  Amount : Decimal
  /-- The Go field `Type` (column `transaction_type`). -/
  TransactionType : String
  Note : String
deriving DecidableEq, Repr

/-- Row of `credits`. -/
structure Credit where
  ID : UUID
  UserID : UUID
  AccountID : UUID
  Principal : Decimal
  AnnualRate : Decimal
  TermMonths : ℤ
  Remaining : Decimal
deriving DecidableEq, Repr

/-- Row of `payment_schedules`. -/
structure PaymentSchedule where
  ID : UUID
  CreditID : UUID
  DueDate : Time
  Amount : Decimal
  Principal : Decimal
  Interest : Decimal
  Paid : Bool
deriving DecidableEq, Repr

/-- Request body of `POST /payments`. -/
structure PaymentRequest where
  CardNumber : String
  Amount : Decimal
  Merchant : String
deriving DecidableEq, Repr

/-- Request body of `POST /transfers`. -/
structure TransferRequest where
  FromAccountID : UUID
  ToAccountID : UUID
  Amount : Decimal
deriving DecidableEq, Repr

/-- Request body of `POST /deposits`. -/
structure DepositRequest where
  ToAccountID : UUID
  Amount : Decimal
deriving DecidableEq, Repr

/-- Request body of `POST /credits`. -/
structure ApplyCreditRequest where
  AccountID : UUID
  Principal : Decimal
  TermMonths : ℤ
deriving DecidableEq, Repr

/-- The tables of the database. -/
structure Store where
  accounts : List Account
  cards : List Card
  transactions : List Transaction
  credits : List Credit
  schedules : List PaymentSchedule
deriving DecidableEq, Repr

/-- Errors returned by the services.  The Go code returns `errors.New` values
told apart by their message; each message is a constructor here. -/
inductive Err where
  /-- The message "сумма должна быть >0". -/
  | amountNotPositive
  /-- The message "карта не найдена". -/
  | cardNotFound
  /-- The message "недостаточно средств". -/
  | insufficientFunds
  /-- The message "невозможно перевести на тот же счёт". -/
  | sameAccount
  /-- The value `sql.ErrNoRows`. -/
  | noRows
  /-- The message "сумма кредита должна быть >0". -/
  | principalNotPositive
  /-- The message "срок должен быть >0 месяцев". -/
  | termNotPositive
  /-- The message "счёт ... не найден" of `GenerateCard`. -/
  | accountNotFound
  /-- Driver error of the store statement with the given label. -/
  | store (stmt : ℕ)
  /-- Driver error of the store statement with the given label that the store
  refuses because a uniqueness constraint of the table does not hold. -/
  | duplicateKey (stmt : ℕ)
  /-- Failure of `EncryptPGP` or `HashCVV`. -/
  | crypto
  /-- The panic of `decimal.Decimal.Div` on a zero divisor. -/
  | divisionByZero
deriving DecidableEq, Repr

/-- An e-mail handed to `sendEmailNotification`. -/
structure Mail where
  UserID : UUID
  Subject : String
  Merchant : String
  Amount : Decimal
deriving DecidableEq, Repr

/-- Effects of a call outside the database: started notification goroutines
and log lines. -/
inductive Effect where
  /-- The goroutine `go func() ... sendEmailNotification ...` was started. -/
  | mail (m : Mail)
  /-- The line `logrus.Warnf("нехватка средств для графика %s", sch.ID)`. -/
  | warnInsufficient (scheduleID : UUID)
  /-- The line `logrus.Errorf("ошибка шедулера: %v", err)`. -/
  | logError (e : Err)
deriving DecidableEq, Repr

/-- Everything a call reads from outside the database. -/
structure Env where
  /-- Whether the store statement with this label fails. -/
  fault : ℕ → Bool
  /-- Whether the column `hmac` of the table `cards` has a uniqueness
  constraint.  The declaration of the table is not part of the sources; the
  specification says that the lookup digest is unique per card record. -/
  cardsHMACUnique : Bool
  /-- The identifier drawn by the `n`-th `uuid.New()` of the call. -/
  newID : ℕ → UUID
  /-- The value of `time.Now()`. -/
  now : Time
  /-- The configuration value `cfg.HMACSecret`. -/
  HMACSecret : String
  /-- The configuration value `cfg.PGPPublicKeyPath`. -/
  PGPPublicKeyPath : String
  /-- The function `ComputeHMAC(data, secret)` of `crypto.go` (HMAC-SHA256, hex). -/
  ComputeHMAC : String → String → String
  /-- The function `EncryptPGP(plainText, publicKeyPath)` of `crypto.go`. -/
  EncryptPGP : String → String → Except Err String
  /-- The function `HashCVV(cvv)` of `crypto.go` (bcrypt). -/
  HashCVV : String → Except Err String
  /-- The `n`-th draw `rand.Int(rand.Reader, big.NewInt(10))` of the call. -/
  rand : ℕ → ℕ
  /-- The rate source `fetchCBRRate`, which is not part of the sources: its
  float result is carried as the decimal `decimal.NewFromFloat` makes of it
  (the two have the same sign). -/
  fetchCBRRate : Time → Except Err Decimal

/-- Result of a service call: the returned error, the committed store after
the call and the effects outside the database. -/
structure Outcome where
  err : Option Err
  store : Store
  effects : List Effect
deriving DecidableEq, Repr

/-- Equality of results is decidable, for evaluating the services on sample
data. -/
instance instDecidableEqExcept {ε α : Type} [DecidableEq ε] [DecidableEq α] :
    DecidableEq (Except ε α)
  | .error a, .error b =>
    if h : a = b then isTrue (by rw [h]) else isFalse (fun h2 => h (Except.error.inj h2))
  | .ok a, .ok b =>
    if h : a = b then isTrue (by rw [h]) else isFalse (fun h2 => h (Except.ok.inj h2))
  | .error _, .ok _ => isFalse (fun h => Except.noConfusion h)
  | .ok _, .error _ => isFalse (fun h => Except.noConfusion h)

/-! ## Repositories (`internal/repo`) -/

/-- The method `AccountRepo.GetByID`: the first row of `accounts` with the
given id; `sql.ErrNoRows` when there is none. -/
def AccountRepo.GetByID (env : Env) (n : ℕ) (db : Store) (id : UUID) : Except Err Account :=
  if env.fault n then .error (.store n)
  else match db.accounts.find? (fun a => a.ID = id) with
    | none => .error .noRows
    | some a => .ok a

/-- The method `AccountRepo.UpdateBalanceTx`:
`UPDATE accounts SET balance=$2 WHERE id=$1` inside the unit of work. -/
def AccountRepo.UpdateBalanceTx (env : Env) (n : ℕ) (tx : Store) (id : UUID)
    (newBalance : Decimal) : Except Err Store :=
  if env.fault n then .error (.store n)
  else .ok { tx with
    accounts := tx.accounts.map (fun a => if a.ID = id then { a with Balance := newBalance } else a) }

/-- The method `TransactionRepo.CreateTx`: the row gets the `k`-th fresh
identifier of the call and is appended to `transactions`. -/
def TransactionRepo.CreateTx (env : Env) (n k : ℕ) (tx : Store) (t : Transaction) :
    Except Err Store :=
  if env.fault n then .error (.store n)
  else .ok { tx with transactions := tx.transactions ++ [{ t with ID := env.newID k }] }

/-- The method `CardRepo.GetByHMAC`: the first card with the given digest. -/
def CardRepo.GetByHMAC (env : Env) (n : ℕ) (db : Store) (hmacHex : String) : Except Err Card :=
  if env.fault n then .error (.store n)
  else match db.cards.find? (fun c => c.HMAC = hmacHex) with
    | none => .error .noRows
    | some c => .ok c

/-- The method `CardRepo.Create`: the card gets a fresh identifier and is
inserted, outside any unit of work.  The `INSERT` compares nothing itself;
when the column `hmac` has a uniqueness constraint the store refuses a row
whose digest is that of a stored row, and the error of the driver is
returned. -/
def CardRepo.Create (env : Env) (n k : ℕ) (db : Store) (c : Card) : Except Err (Store × Card) :=
  if env.fault n then .error (.store n)
  else if env.cardsHMACUnique && db.cards.any (fun x => x.HMAC = c.HMAC) then
    .error (.duplicateKey n)
  else
    let c1 := { c with ID := env.newID k }
    .ok ({ db with cards := db.cards ++ [c1] }, c1)

/-- The method `CreditRepo.GetByID`: the first credit with the given id; the
driver error (`sql.ErrNoRows` when there is none) is returned as it is. -/
def CreditRepo.GetByID (env : Env) (n : ℕ) (db : Store) (id : UUID) : Except Err Credit :=
  if env.fault n then .error (.store n)
  else match db.credits.find? (fun c => c.ID = id) with
    | none => .error .noRows
    | some c => .ok c

/-- The method `CreditRepo.CreateTx`: the credit gets the `k`-th fresh
identifier of the call and is inserted. -/
def CreditRepo.CreateTx (env : Env) (n k : ℕ) (tx : Store) (c : Credit) :
    Except Err (Store × Credit) :=
  if env.fault n then .error (.store n)
  else
    let c1 := { c with ID := env.newID k }
    .ok ({ tx with credits := tx.credits ++ [c1] }, c1)

/-- The method `ScheduleRepo.CreateTx`: the row gets the `k`-th fresh
identifier of the call and is inserted; the column `paid` is not in the
statement and takes the value of the struct, `false`. -/
def ScheduleRepo.CreateTx (env : Env) (n k : ℕ) (tx : Store) (s : PaymentSchedule) :
    Except Err (Store × PaymentSchedule) :=
  if env.fault n then .error (.store n)
  else
    let s1 := { s with ID := env.newID k }
    .ok ({ tx with schedules := tx.schedules ++ [s1] }, s1)

/-- The method `ScheduleRepo.GetDueSchedules`:
`WHERE due_date <= $1 AND paid = false`, in table order. -/
def ScheduleRepo.GetDueSchedules (env : Env) (n : ℕ) (db : Store) (before : Time) :
    Except Err (List PaymentSchedule) :=
  if env.fault n then .error (.store n)
  else .ok (db.schedules.filter (fun s => decide (¬ before.Before s.DueDate) && !s.Paid))

/-- The method `ScheduleRepo.UpdatePaidTx`:
`UPDATE payment_schedules SET paid = $2 WHERE id = $1`. -/
def ScheduleRepo.UpdatePaidTx (env : Env) (n : ℕ) (tx : Store) (id : UUID) (paid : Bool) :
    Except Err Store :=
  if env.fault n then .error (.store n)
  else .ok { tx with
    schedules := tx.schedules.map (fun s => if s.ID = id then { s with Paid := paid } else s) }

/-- The method `AccountRepo.WithTx`: `Beginx` (label `nBegin`), the body on
the working copy, then `Rollback` when the body returns an error and `Commit`
(label `nCommit`) otherwise.  A failed commit leaves the store as it was. -/
def AccountRepo.WithTx (env : Env) (nBegin nCommit : ℕ) (db : Store)
    (fn : Store → Except Err (Store × List Effect)) : Outcome :=
  if env.fault nBegin then ⟨some (.store nBegin), db, []⟩
  else match fn db with
    | .error e => ⟨some e, db, []⟩
    | .ok (tx, effects) =>
      if env.fault nCommit then ⟨some (.store nCommit), db, effects⟩
      else ⟨none, tx, effects⟩

/-- The method `CreditRepo.WithTx`, the same code as `AccountRepo.WithTx`.
The values the body leaves in the variables it captures are the value `α` of
the body here; the caller reads them only when `WithTx` returns no error. -/
def CreditRepo.WithTx {α : Type} (env : Env) (nBegin nCommit : ℕ) (db : Store)
    (fn : Store → Except Err (Store × α)) : Except Err α × Store :=
  if env.fault nBegin then (.error (.store nBegin), db)
  else match fn db with
    | .error e => (.error e, db)
    | .ok (tx, a) =>
      if env.fault nCommit then (.error (.store nCommit), db)
      else (.ok a, tx)

/-! ## Ledger operations (`internal/services/bank.go`) -/

/-- The body of the unit of work of `PayWithCard` (lines 197-231); reads go
to the committed store `db`, writes to the working copy `tx`. -/
def PayWithCard.body (env : Env) (db : Store) (card : Card) (req : PaymentRequest)
    (tx : Store) : Except Err (Store × List Effect) :=
  match AccountRepo.GetByID env 2 db card.AccountID with
  | .error e => .error e
  | .ok acc =>
    if acc.Balance < req.Amount then .error .insufficientFunds
    else
      let newBal := acc.Balance - req.Amount
      match AccountRepo.UpdateBalanceTx env 3 tx acc.ID newBal with
      | .error e => .error e
      | .ok tx1 =>
        let tr : Transaction :=
          { ID := 0, From := some acc.ID, To := none, Amount := req.Amount,
            TransactionType := "payment", Note := "оплата " ++ req.Merchant }
        match TransactionRepo.CreateTx env 4 0 tx1 tr with
        | .error e => .error e
        | .ok tx2 =>
          .ok (tx2, [Effect.mail ⟨acc.UserID, "Успешная оплата", req.Merchant, req.Amount⟩])

/-- The method `BankService.PayWithCard`.  Statement labels: 0 `GetByHMAC`,
1 `Beginx`, 2 `GetByID`, 3 `UpdateBalanceTx`, 4 `CreateTx`, 5 `Commit`. -/
def PayWithCard (env : Env) (db : Store) (req : PaymentRequest) : Outcome :=
  if req.Amount ≤ 0 then ⟨some .amountNotPositive, db, []⟩
  else
    let hmacHex := env.ComputeHMAC req.CardNumber env.HMACSecret
    match CardRepo.GetByHMAC env 0 db hmacHex with
    | .error _ => ⟨some .cardNotFound, db, []⟩
    | .ok card => AccountRepo.WithTx env 1 5 db (PayWithCard.body env db card req)

/-- The body of the unit of work of `Transfer` (lines 242-271). -/
def Transfer.body (env : Env) (db : Store) (req : TransferRequest) (tx : Store) :
    Except Err (Store × List Effect) :=
  match AccountRepo.GetByID env 1 db req.FromAccountID with
  | .error e => .error e
  | .ok fromAcc =>
    match AccountRepo.GetByID env 2 db req.ToAccountID with
    | .error e => .error e
    | .ok toAcc =>
      if fromAcc.Balance < req.Amount then .error .insufficientFunds
      else
        match AccountRepo.UpdateBalanceTx env 3 tx fromAcc.ID (fromAcc.Balance - req.Amount) with
        | .error e => .error e
        | .ok tx1 =>
          match AccountRepo.UpdateBalanceTx env 4 tx1 toAcc.ID (toAcc.Balance + req.Amount) with
          | .error e => .error e
          | .ok tx2 =>
            let tr : Transaction :=
              { ID := 0, From := some fromAcc.ID, To := some toAcc.ID, Amount := req.Amount,
                TransactionType := "transfer", Note := "внутренний перевод" }
            match TransactionRepo.CreateTx env 5 0 tx2 tr with
            | .error e => .error e
            | .ok tx3 => .ok (tx3, [])

/-- The method `BankService.Transfer`.  Statement labels: 0 `Beginx`,
1 and 2 `GetByID` of source and destination, 3 and 4 `UpdateBalanceTx` of
source and destination, 5 `CreateTx`, 6 `Commit`. -/
def Transfer (env : Env) (db : Store) (req : TransferRequest) : Outcome :=
  if req.Amount ≤ 0 then ⟨some .amountNotPositive, db, []⟩
  else if req.FromAccountID = req.ToAccountID then ⟨some .sameAccount, db, []⟩
  else AccountRepo.WithTx env 0 6 db (Transfer.body env db req)

/-- The body of the unit of work of `Deposit` (lines 279-297). -/
def Deposit.body (env : Env) (db : Store) (req : DepositRequest) (tx : Store) :
    Except Err (Store × List Effect) :=
  match AccountRepo.GetByID env 1 db req.ToAccountID with
  | .error e => .error e
  | .ok acc =>
    let newBal := acc.Balance + req.Amount
    match AccountRepo.UpdateBalanceTx env 2 tx acc.ID newBal with
    | .error e => .error e
    | .ok tx1 =>
      let tr : Transaction :=
        { ID := 0, From := none, To := some acc.ID, Amount := req.Amount,
          TransactionType := "deposit", Note := "пополнение счёта" }
      match TransactionRepo.CreateTx env 3 0 tx1 tr with
      | .error e => .error e
      | .ok tx2 => .ok (tx2, [])

/-- The method `BankService.Deposit`.  Statement labels: 0 `Beginx`,
1 `GetByID`, 2 `UpdateBalanceTx`, 3 `CreateTx`, 4 `Commit`. -/
def Deposit (env : Env) (db : Store) (req : DepositRequest) : Outcome :=
  if req.Amount ≤ 0 then ⟨some .amountNotPositive, db, []⟩
  else AccountRepo.WithTx env 0 4 db (Deposit.body env db req)

/-! ## Collector (`ProcessScheduledPayments`) -/

/-- The body of the unit of work of one due row (lines 381-414), with
statement labels counted from `base`; `k` is the position of the row in the
due list. -/
def ProcessScheduledPayments.body (env : Env) (base k : ℕ) (db : Store) (sch : PaymentSchedule)
    (tx : Store) : Except Err (Store × List Effect) :=
  match CreditRepo.GetByID env (base + 1) db sch.CreditID with
  | .error e => .error e
  | .ok cr =>
    match AccountRepo.GetByID env (base + 2) db cr.AccountID with
    | .error e => .error e
    | .ok acc =>
      if acc.Balance < sch.Amount then .ok (tx, [Effect.warnInsufficient sch.ID])
      else
        let newBal := acc.Balance - sch.Amount
        match AccountRepo.UpdateBalanceTx env (base + 3) tx acc.ID newBal with
        | .error e => .error e
        | .ok tx1 =>
          let tr : Transaction :=
            { ID := 0, From := some acc.ID, To := none, Amount := sch.Amount,
              TransactionType := "credit_payment",
              Note := "очередной платёж по кредиту " ++ toString sch.CreditID }
          match TransactionRepo.CreateTx env (base + 4) k tx1 tr with
          | .error e => .error e
          | .ok tx2 =>
            match ScheduleRepo.UpdatePaidTx env (base + 5) tx2 sch.ID true with
            | .error e => .error e
            | .ok tx3 => .ok (tx3, [])

/-- One iteration of the loop over the due rows (lines 380-418): the unit of
work of row `k`, whose statements have the labels `1 + 7 * k` (`Beginx`) to
`1 + 7 * k + 6` (`Commit`); an error is logged and dropped. -/
def ProcessScheduledPayments.row (env : Env) (k : ℕ) (db : Store) (sch : PaymentSchedule) :
    Store × List Effect :=
  let o := AccountRepo.WithTx env (1 + 7 * k) (1 + 7 * k + 6) db
    (ProcessScheduledPayments.body env (1 + 7 * k) k db sch)
  match o.err with
  | some e => (o.store, o.effects ++ [Effect.logError e])
  | none => (o.store, o.effects)

/-- The loop `for _, sch := range dueList`, from row `k` on. -/
def ProcessScheduledPayments.loop (env : Env) :
    ℕ → List PaymentSchedule → Store → List Effect → Store × List Effect
  | _, [], db, effects => (db, effects)
  | k, sch :: rest, db, effects =>
    let r := ProcessScheduledPayments.row env k db sch
    ProcessScheduledPayments.loop env (k + 1) rest r.1 (effects ++ r.2)

/-- The method `BankService.ProcessScheduledPayments`.  Statement label 0 is
the query `GetDueSchedules`. -/
def ProcessScheduledPayments (env : Env) (db : Store) : Outcome :=
  match ScheduleRepo.GetDueSchedules env 0 db env.now with
  | .error e => ⟨some e, db, []⟩
  | .ok dueList =>
    let r := ProcessScheduledPayments.loop env 0 dueList db []
    ⟨none, r.1, r.2⟩

/-! ## Card issuance (`auth.go`, `GenerateCard`) -/

/-- The 15 digits `base` of `generateAccountNumber`: "400000" followed by nine
draws of the random source. -/
def accountBase (rand : ℕ → ℕ) : List ℕ :=
  [4, 0, 0, 0, 0, 0] ++ (List.range 9).map (fun i => rand i % 10)

/-- The loop `for i, c := range base` of `generateAccountNumber`, from index
`i` on: digits at even indices are doubled, 9 is subtracted from a result
above 9, and everything is summed. -/
def checksumFrom : ℕ → List ℕ → ℕ
  | _, [] => 0
  | i, d :: ds =>
    (if i % 2 = 0 then (if 2 * d > 9 then 2 * d - 9 else 2 * d) else d) + checksumFrom (i + 1) ds

/-- The digits of the result of `generateAccountNumber`: `base` and the check
digit `(10 - sum%10) % 10`. -/
def accountDigits (rand : ℕ → ℕ) : List ℕ :=
  let base := accountBase rand
  let sum := checksumFrom 0 base
  base ++ [(10 - sum % 10) % 10]

/-- Decimal rendering of a list of digits. -/
def renderDigits (ds : List ℕ) : String :=
  String.mk (ds.map Nat.digitChar)

/-- The function `generateAccountNumber`. -/
def generateAccountNumber (rand : ℕ → ℕ) : String :=
  renderDigits (accountDigits rand)

/-- The function `generateCardNumber`: `generateAccountNumber()[:16]`. -/
def generateCardNumber (rand : ℕ → ℕ) : String :=
  renderDigits ((accountDigits rand).take 16)

/-- The function `generateExpiryDate`: month and year of `now` plus 3 years. -/
def generateExpiryDate (now : Time) : ℕ × ℕ :=
  let t := now.AddDate 3 0
  (t.month, t.year)

/-- The function `generateCVV`: three draws of the random source, which are
the draws 9, 10 and 11 of a `GenerateCard` call. -/
def generateCVV (rand : ℕ → ℕ) : String :=
  renderDigits ((List.range 3).map (fun i => rand (9 + i) % 10))

/-- The format verb `%02d` on a natural number. -/
def fmt02d (n : ℕ) : String :=
  if n < 10 then "0" ++ toString n else toString n

/-- The method `BankService.GenerateCard`.  Statement labels: 0 `GetByID`,
1 `CardRepo.Create`. -/
def GenerateCard (env : Env) (db : Store) (accountID : UUID) : Except Err Card × Store :=
  match AccountRepo.GetByID env 0 db accountID with
  | .error _ => (.error .accountNotFound, db)
  | .ok _ =>
    let cardNum := generateCardNumber env.rand
    let (expM, expY) := generateExpiryDate env.now
    let cvv := generateCVV env.rand
    match env.EncryptPGP cardNum env.PGPPublicKeyPath with
    | .error e => (.error e, db)
    | .ok numEnc =>
      let expiryStr := fmt02d expM ++ "/" ++ fmt02d (expY % 100)
      match env.EncryptPGP expiryStr env.PGPPublicKeyPath with
      | .error e => (.error e, db)
      | .ok expEnc =>
        match env.HashCVV cvv with
        | .error e => (.error e, db)
        | .ok cvvHash =>
          let hmacHex := env.ComputeHMAC (cardNum ++ expiryStr) env.HMACSecret
          let card : Card :=
            { ID := 0, AccountID := accountID, NumberEnc := numEnc, ExpiryEnc := expEnc,
              CVVHash := cvvHash, HMAC := hmacHex }
          match CardRepo.Create env 1 0 db card with
          | .error e => (.error e, db)
          | .ok (db1, card1) => (.ok { card1 with CVVHash := "***" }, db1)

/-! ## Credit origination (`ApplyCredit`) -/

/-- The annual rate of `ApplyCredit` (lines 308-312): the rate of the source,
or 0.12 when the source fails or gives a rate that is not positive. -/
def annualRate (env : Env) : Decimal :=
  match env.fetchCBRRate env.now with
  | .error _ => 0.12
  | .ok rateF => if rateF ≤ 0 then 0.12 else rateF

/-- The loop `for i := 0; i < req.TermMonths; i++` of `ApplyCredit` (lines
338-354) with `count` iterations left, at index `i`.  The insert of row `i`
has the label `2 + i` and draws the identifier `1 + i`. -/
def ApplyCredit.loop (env : Env) (creditID : UUID) (annuity monthlyRate : Decimal) :
    ℕ → ℕ → Decimal → Time → Store → List PaymentSchedule →
      Except Err (Store × List PaymentSchedule)
  | 0, _, _, _, tx, schedules => .ok (tx, schedules)
  | count + 1, i, remaining, nextDue, tx, schedules =>
    let interest := Decimal.Round (remaining * monthlyRate) 2
    let principalPart := Decimal.Round (annuity - interest) 2
    let remaining1 := Decimal.Round (remaining - principalPart) 2
    let sched : PaymentSchedule :=
      { ID := 0, CreditID := creditID, DueDate := nextDue, Amount := annuity,
        Principal := principalPart, Interest := interest, Paid := false }
    match ScheduleRepo.CreateTx env (2 + i) (1 + i) tx sched with
    | .error e => .error e
    | .ok (tx1, sched1) =>
      ApplyCredit.loop env creditID annuity monthlyRate count (i + 1) remaining1
        (nextDue.AddDate 0 1) tx1 (schedules ++ [sched1])

/-- The unit of work of `ApplyCredit` (lines 334-356): the credit row, then
the schedule rows.  The insert of the credit has the label 1 and draws the
identifier 0. -/
def ApplyCredit.body (env : Env) (credit : Credit) (annuity monthlyRate : Decimal)
    (tx : Store) : Except Err (Store × Credit × List PaymentSchedule) :=
  match CreditRepo.CreateTx env 1 0 tx credit with
  | .error e => .error e
  | .ok (tx1, credit1) =>
    match ApplyCredit.loop env credit1.ID annuity monthlyRate credit.TermMonths.toNat 0
        credit.Principal (env.now.AddDate 0 1) tx1 [] with
    | .error e => .error e
    | .ok (tx2, schedules) => .ok (tx2, credit1, schedules)

/-- The installment of `ApplyCredit` (lines 313-318) for a principal, the
monthly rate and a term; `none` is the division-by-zero panic. -/
def annuityOf (principal monthlyRate : Decimal) (termMonths : ℤ) : Option Decimal :=
  let pow := Decimal.Pow (monthlyRate + 1) termMonths
  let num := principal * monthlyRate * pow
  let den := pow - 1
  match Decimal.Div num den with
  | none => none
  | some q => some (Decimal.Round q 2)

/-- The method `BankService.ApplyCredit`: the returned credit and schedule, or
the error, and the committed store after the call.  Statement labels:
0 `Beginx`, 1 the insert of the credit, `2 + i` the insert of schedule row
`i`, `2 + TermMonths` `Commit`. -/
def ApplyCredit (env : Env) (db : Store) (userID : UUID) (req : ApplyCreditRequest) :
    Except Err (Credit × List PaymentSchedule) × Store :=
  if req.Principal ≤ 0 then (.error .principalNotPositive, db)
  else if req.TermMonths ≤ 0 then (.error .termNotPositive, db)
  else
    let annual := annualRate env
    match Decimal.Div annual 12 with
    | none => (.error .divisionByZero, db)
    | some monthlyRate =>
      match annuityOf req.Principal monthlyRate req.TermMonths with
      | none => (.error .divisionByZero, db)
      | some annuity =>
        let credit : Credit :=
          { ID := 0, UserID := userID, AccountID := req.AccountID, Principal := req.Principal,
            AnnualRate := annual, TermMonths := req.TermMonths, Remaining := req.Principal }
        CreditRepo.WithTx env 0 (2 + req.TermMonths.toNat) db
          (ApplyCredit.body env credit annuity monthlyRate)

/-! ## Sequences of ledger calls and the ledger invariants -/

/-- A call of one of the four balance-changing entry points, with the
environment it runs in. -/
inductive Op where
  | pay (env : Env) (req : PaymentRequest)
  | transfer (env : Env) (req : TransferRequest)
  | deposit (env : Env) (req : DepositRequest)
  | collect (env : Env)

/-- The committed store after one call. -/
def Op.run (db : Store) : Op → Store
  | .pay env req => (PayWithCard env db req).store
  | .transfer env req => (Transfer env db req).store
  | .deposit env req => (Deposit env db req).store
  | .collect env => (ProcessScheduledPayments env db).store

/-- The committed store after a sequence of calls, one after another. -/
def runAll (db : Store) (ops : List Op) : Store :=
  ops.foldl Op.run db

/-- Sum of the amounts of the transactions whose destination is `id`. -/
def credited (txs : List Transaction) (id : UUID) : Decimal :=
  (txs.map (fun t => if t.To = some id then t.Amount else 0)).sum

/-- Sum of the amounts of the transactions whose source is `id`. -/
def debited (txs : List Transaction) (id : UUID) : Decimal :=
  (txs.map (fun t => if t.From = some id then t.Amount else 0)).sum

/-- Every account balance equals what the transaction log implies. -/
def Reconciled (s : Store) : Prop :=
  ∀ a ∈ s.accounts, a.Balance = credited s.transactions a.ID - debited s.transactions a.ID

instance (s : Store) : Decidable (Reconciled s) := by
  unfold Reconciled
  infer_instance

/-- No account balance is negative. -/
def NonNegative (s : Store) : Prop :=
  ∀ a ∈ s.accounts, 0 ≤ a.Balance

instance (s : Store) : Decidable (NonNegative s) := by
  unfold NonNegative
  infer_instance

/-- The balance of the account `id`, as `AccountRepo.GetByID` reads it. -/
def balanceOf (s : Store) (id : UUID) : Option Decimal :=
  (s.accounts.find? (fun a => a.ID = id)).map (fun a => a.Balance)

/-- An environment in which no store statement fails. -/
def Env.NoFault (env : Env) : Prop := ∀ n, env.fault n = false

/-! ## Sample data -/

/-- An environment in which every store statement succeeds, with a
uniqueness constraint on the lookup digest of the cards, stand-ins for the
cryptographic primitives and a rate source that gives 12%. -/
def demoEnv : Env :=
  { fault := fun _ => false
    cardsHMACUnique := true
    newID := fun n => 1000 + n
    now := ⟨2025, 2, 1, 0⟩
    HMACSecret := "k"
    PGPPublicKeyPath := "keys/pub.asc"
    ComputeHMAC := fun data secret => secret ++ ":" ++ data
    EncryptPGP := fun plain _ => .ok ("pgp:" ++ plain)
    HashCVV := fun cvv => .ok ("bcrypt:" ++ cvv)
    rand := fun n => n + 3
    fetchCBRRate := fun _ => .ok 0.12 }

/-- Two fresh accounts (balance 0, no transactions), a card of account 1
stored under the digest of its number, and a credit of account 1 with one
unpaid schedule row of 40 due on 2025-01-15. -/
def demoStore : Store :=
  { accounts := [⟨1, 10, "4000001234567899", 0⟩, ⟨2, 11, "4000009876543210", 0⟩]
    cards := [⟨3, 1, "", "", "", "k:4000001111111111"⟩]
    transactions := []
    credits := [⟨5, 10, 1, 100, 0.12, 1, 100⟩]
    schedules := [⟨6, 5, ⟨2025, 1, 15, 0⟩, 40, 39, 1, false⟩] }

/-- The environment `demoEnv` for the `k`-th call of a sequence: its fresh
identifiers differ from those of the other calls. -/
def demoEnvAt (k : ℕ) : Env :=
  { demoEnv with newID := fun n => 1000 + 10 * k + n }

/-- A deposit of 100, a payment of 30, a transfer of 20, a collector run, a
payment that exceeds the balance and a transfer whose log append fails. -/
def demoOps : List Op :=
  [ .deposit (demoEnvAt 0) ⟨1, 100⟩,
    .pay (demoEnvAt 1) ⟨"4000001111111111", 30, "shop"⟩,
    .transfer (demoEnvAt 2) ⟨1, 2, 20⟩,
    .collect (demoEnvAt 3),
    .pay (demoEnvAt 4) ⟨"4000001111111111", 500, "shop"⟩,
    .transfer { demoEnvAt 5 with fault := fun n => n == 5 } ⟨2, 1, 5⟩ ]

/-- The sample store with 50 on account 1. -/
def demoStoreFunded : Store :=
  { demoStore with
    accounts := [⟨1, 10, "4000001234567899", 50⟩, ⟨2, 11, "4000009876543210", 0⟩] }

/-! ## The credit schedule as the specification words it -/

/-- The installment of the specification: with `r = a / 12`, the value
`P * r * (1+r)^n / ((1+r)^n - 1)` rounded once to 2 decimal places, halves
away from zero. -/
def installmentSpec (P a : ℚ) (n : ℕ) : ℚ :=
  let r := a / 12
  Decimal.Round (P * r * (1 + r) ^ n / ((1 + r) ^ n - 1)) 2

/-- The remaining principal `rem_i` of the specification after `i` rows:
`rem_0 = P` and `rem_(i+1) = round2(rem_i - Principal)` for the principal part
`Principal = round2(A - round2(rem_i * r))` of the row. -/
def remainingAfter (P A r : ℚ) : ℕ → ℚ
  | 0 => P
  | i + 1 =>
    Decimal.Round
      (remainingAfter P A r i
        - Decimal.Round (A - Decimal.Round (remainingAfter P A r i * r) 2) 2) 2

/-- The interest of the row that follows `i` rows: `round2(rem_i * r)`. -/
def interestOf (P A r : ℚ) (i : ℕ) : ℚ :=
  Decimal.Round (remainingAfter P A r i * r) 2

/-- The principal part of the row that follows `i` rows:
`round2(A - Interest)`. -/
def principalOf (P A r : ℚ) (i : ℕ) : ℚ :=
  Decimal.Round (A - interestOf P A r i) 2

/-- The date `k` calendar months after `t`, one month at a time. -/
def dueAt (t : Time) : ℕ → Time
  | 0 => t
  | k + 1 => (dueAt t k).AddDate 0 1

/-- The schedule row that follows `i` rows, as the specification words it. -/
def scheduleRow (env : Env) (creditID : UUID) (P A r : ℚ) (i : ℕ) : PaymentSchedule :=
  { ID := env.newID (1 + i), CreditID := creditID, DueDate := dueAt env.now (i + 1), Amount := A,
    Principal := principalOf P A r i, Interest := interestOf P A r i, Paid := false }

/-- The sample environment with a rate source that gives 10%. -/
def demoEnvTenPercent : Env :=
  { demoEnv with fetchCBRRate := fun _ => .ok 0.1 }

/-! ## The collector as the specification words it -/

/-- The rows the query of the collector selects at the time `now`: due and
unpaid, in table order. -/
def dueRows (now : Time) (db : Store) : List PaymentSchedule :=
  db.schedules.filter (fun s => decide (¬ now.Before s.DueDate) && !s.Paid)

/-- The store after the due row `sch` has been settled against the account
`acc`: the balance of the account lowered by the amount of the row, one
`credit_payment` transaction with the identifier `trID` appended, the row
marked paid. -/
def settled (db : Store) (sch : PaymentSchedule) (acc : Account) (trID : UUID) : Store :=
  { db with
    accounts := db.accounts.map
      (fun a => if a.ID = acc.ID then { a with Balance := acc.Balance - sch.Amount } else a),
    transactions := db.transactions ++
      [{ ID := trID, From := some acc.ID, To := none, Amount := sch.Amount,
         TransactionType := "credit_payment",
         Note := "очередной платёж по кредиту " ++ toString sch.CreditID }],
    schedules := db.schedules.map
      (fun s => if s.ID = sch.ID then { s with Paid := true } else s) }

/-- The row `sch` cannot be settled on the store `db`: its credit or the
account of its credit is missing, or the balance of that account is below the
amount of the row. -/
def Stuck (db : Store) (sch : PaymentSchedule) : Prop :=
  ∀ cr acc, db.credits.find? (fun c => c.ID = sch.CreditID) = some cr →
    db.accounts.find? (fun a => a.ID = cr.AccountID) = some acc → acc.Balance < sch.Amount

/-- The store `db1` comes after `db` in a run of the collector: the credits
are the same, no account has appeared and no balance has risen, every unpaid
row of `db1` is a row of `db`, and the rows paid in `db` are paid in `db1`. -/
def Later (db db1 : Store) : Prop :=
  db1.credits = db.credits ∧
  (∀ id a1, db1.accounts.find? (fun a => a.ID = id) = some a1 →
    ∃ a, db.accounts.find? (fun a => a.ID = id) = some a ∧ a1.Balance ≤ a.Balance) ∧
  (∀ s ∈ db1.schedules, s.Paid = false → s ∈ db.schedules) ∧
  (∀ id, (∀ s ∈ db.schedules, s.ID = id → s.Paid = true) →
    ∀ s ∈ db1.schedules, s.ID = id → s.Paid = true)

/-- The environment `env` without the due row at position `p`: the statement
labels and the fresh identifiers of the rows after it move down by one
row. -/
def Env.withoutRow (env : Env) (p : ℕ) : Env :=
  { env with
    fault := fun n => if n < 1 + 7 * p then env.fault n else env.fault (n + 7),
    newID := fun j => if j < p then env.newID j else env.newID (j + 1) }

/-- The store after the unit of work of a due row, from the outcomes `f 0`
(`Beginx`) to `f 6` (`Commit`) of its seven statements and the identifier
`trID` of its transaction: the settled store when the row can be settled and
no statement fails, the store as it was otherwise. -/
def rowStoreOf (f : ℕ → Bool) (trID : UUID) (db : Store) (sch : PaymentSchedule) : Store :=
  if f 0 || f 1 then db
  else match db.credits.find? (fun c => c.ID = sch.CreditID) with
    | none => db
    | some cr =>
      if f 2 then db
      else match db.accounts.find? (fun a => a.ID = cr.AccountID) with
        | none => db
        | some acc =>
          if acc.Balance < sch.Amount then db
          else if f 3 || f 4 || f 5 || f 6 then db
          else settled db sch acc trID

/-- The sample store with 100 on account 1 and three unpaid rows due before
2025-02-01: 40 and 30 on the credit of account 1, and 500, more than the
account ever holds. -/
def demoStoreDue : Store :=
  { demoStore with
    accounts := [⟨1, 10, "4000001234567899", 100⟩, ⟨2, 11, "4000009876543210", 0⟩],
    schedules :=
      [⟨6, 5, ⟨2025, 1, 15, 0⟩, 40, 39, 1, false⟩,
       ⟨7, 5, ⟨2025, 1, 20, 0⟩, 500, 499, 1, false⟩,
       ⟨8, 5, ⟨2025, 1, 25, 0⟩, 30, 29, 1, false⟩] }

/-! ## The checksum as the specification words it -/

/-- A doubled digit of the mod-10 check: twice the digit, less 9 when that is
above 9. -/
def luhnDouble (d : ℕ) : ℕ :=
  if 2 * d > 9 then 2 * d - 9 else 2 * d

/-- The digit sum of the mod-10 check over digits listed from the right, from
position `j` on (position 0 is the check digit): the digits at odd positions,
starting with the one next to the check digit, are doubled. -/
def luhnSumFromRight : ℕ → List ℕ → ℕ
  | _, [] => 0
  | j, d :: ds => (if j % 2 = 1 then luhnDouble d else d) + luhnSumFromRight (j + 1) ds

/-- Validity of a list of digits under the double-the-alternate-digit mod-10
(Luhn) check. -/
def luhnValid (ds : List ℕ) : Prop :=
  luhnSumFromRight 0 ds.reverse % 10 = 0

instance (ds : List ℕ) : Decidable (luhnValid ds) := by
  unfold luhnValid
  infer_instance

/-- The values of the characters of a string of decimal digits. -/
def digitsOf (s : String) : List ℕ :=
  s.data.map (fun c => c.toNat - 48)

/-- The funded sample store whose one card already has the lookup digest of
the card that `GenerateCard` issues in the sample environment. -/
def demoStoreCollide : Store :=
  { demoStoreFunded with cards := [⟨3, 2, "", "", "", "k:400000345678901102/28"⟩] }

/-! ## Two payments at the same time

`PayWithCard` reads the account through `s.accountRepo.GetByID`, that is
through `r.db` and not through the `TxContext` of its unit of work (line
198), and later writes the balance it computed from that read (line 206).
Between the read and the writes of one call, another call can commit.  The
two phases of a call are given here separately. -/

/-- The first phase of `PayWithCard` (lines 188-204): validation, card lookup,
`Beginx`, the read of the account from the committed store and the funds
check.  The result is the account as read. -/
def PayWithCard.readPhase (env : Env) (db : Store) (req : PaymentRequest) : Except Err Account :=
  if req.Amount ≤ 0 then .error .amountNotPositive
  else
    match CardRepo.GetByHMAC env 0 db (env.ComputeHMAC req.CardNumber env.HMACSecret) with
    | .error _ => .error .cardNotFound
    | .ok card =>
      if env.fault 1 then .error (.store 1)
      else
        match AccountRepo.GetByID env 2 db card.AccountID with
        | .error e => .error e
        | .ok acc => if acc.Balance < req.Amount then .error .insufficientFunds else .ok acc

/-- The second phase of `PayWithCard` (lines 205-231 and `Commit`), on the
store `db` that is committed when the writes are issued: the balance computed
from the account `acc` as read in the first phase is written, the transaction
is appended, the notification goroutine is started and the unit of work is
committed. -/
def PayWithCard.writePhase (env : Env) (db : Store) (req : PaymentRequest) (acc : Account) :
    Outcome :=
  match AccountRepo.UpdateBalanceTx env 3 db acc.ID (acc.Balance - req.Amount) with
  | .error e => ⟨some e, db, []⟩
  | .ok tx1 =>
    let tr : Transaction :=
      { ID := 0, From := some acc.ID, To := none, Amount := req.Amount,
        TransactionType := "payment", Note := "оплата " ++ req.Merchant }
    match TransactionRepo.CreateTx env 4 0 tx1 tr with
    | .error e => ⟨some e, db, []⟩
    | .ok tx2 =>
      if env.fault 5 then
        ⟨some (.store 5), db, [Effect.mail ⟨acc.UserID, "Успешная оплата", req.Merchant, req.Amount⟩]⟩
      else ⟨none, tx2, [Effect.mail ⟨acc.UserID, "Успешная оплата", req.Merchant, req.Amount⟩]⟩

/-- Two calls of `PayWithCard` interleaved so that both first phases run on
the store `db` before the second phase of the first call, which commits
before the second phase of the second call.  The result is the outcome of
each call. -/
def PayWithCard.interleaved (env1 env2 : Env) (db : Store) (req1 req2 : PaymentRequest) :
    Outcome × Outcome :=
  let r1 := PayWithCard.readPhase env1 db req1
  let r2 := PayWithCard.readPhase env2 db req2
  let o1 : Outcome :=
    match r1 with
    | .error e => ⟨some e, db, []⟩
    | .ok acc1 => PayWithCard.writePhase env1 db req1 acc1
  let o2 : Outcome :=
    match r2 with
    | .error e => ⟨some e, o1.store, []⟩
    | .ok acc2 => PayWithCard.writePhase env2 o1.store req2 acc2
  (o1, o2)

/-- The sample store with 100 on account 1. -/
def demoStoreHundred : Store :=
  { demoStore with
    accounts := [⟨1, 10, "4000001234567899", 100⟩, ⟨2, 11, "4000009876543210", 0⟩] }

/-- The sample environment with a rate source that gives the positive rate
0.00000000000000001. -/
def demoEnvTinyRate : Env :=
  { demoEnv with fetchCBRRate := fun _ => .ok (1 / 10 ^ 17) }

/-! ## Helper lemmas -/

theorem GetByID_ok {env : Env} {n : ℕ} {db : Store} {id : UUID} {a : Account}
    (h : AccountRepo.GetByID env n db id = .ok a) :
    db.accounts.find? (fun a => a.ID = id) = some a ∧ a ∈ db.accounts ∧ a.ID = id := by
  unfold AccountRepo.GetByID at h
  split at h
  · cases h
  · split at h
    · cases h
    · next b hb =>
      cases h
      refine ⟨hb, List.mem_of_find?_eq_some hb, ?_⟩
      have := List.find?_some hb
      simpa using this

theorem WithTx_store (env : Env) (nb nc : ℕ) (db : Store)
    (fn : Store → Except Err (Store × List Effect)) :
    (AccountRepo.WithTx env nb nc db fn).store = db ∨
      ∃ tx eff, fn db = .ok (tx, eff) ∧ (AccountRepo.WithTx env nb nc db fn).store = tx := by
  unfold AccountRepo.WithTx
  split
  · exact Or.inl rfl
  · split
    · exact Or.inl rfl
    · next tx eff h =>
      split
      · exact Or.inl rfl
      · exact Or.inr ⟨tx, eff, h, rfl⟩

theorem credited_append (txs : List Transaction) (t : Transaction) (id : UUID) :
    credited (txs ++ [t]) id = credited txs id + (if t.To = some id then t.Amount else 0) := by
  simp [credited]

theorem debited_append (txs : List Transaction) (t : Transaction) (id : UUID) :
    debited (txs ++ [t]) id = debited txs id + (if t.From = some id then t.Amount else 0) := by
  simp [debited]

/-- A balance rewrite that moves every account by what the appended
transaction implies keeps the ledger reconciled. -/
theorem reconciled_step (db s1 : Store) (f : Account → Account) (t : Transaction)
    (hacc : s1.accounts = db.accounts.map f)
    (htx : s1.transactions = db.transactions ++ [t])
    (hid : ∀ a, (f a).ID = a.ID)
    (hbal : ∀ a ∈ db.accounts, (f a).Balance =
      a.Balance + (if t.To = some a.ID then t.Amount else 0)
        - (if t.From = some a.ID then t.Amount else 0))
    (h : Reconciled db) : Reconciled s1 := by
  intro a ha
  rw [hacc, List.mem_map] at ha
  obtain ⟨b, hb, rfl⟩ := ha
  rw [htx]
  simp only [credited_append, debited_append, hid, hbal b hb, h b hb]
  ring

/-- A balance rewrite with non-negative results keeps the balances
non-negative. -/
theorem nonNegative_step (db s1 : Store) (f : Account → Account)
    (hacc : s1.accounts = db.accounts.map f)
    (hbal : ∀ a ∈ db.accounts, 0 ≤ (f a).Balance) : NonNegative s1 := by
  intro a ha
  rw [hacc, List.mem_map] at ha
  obtain ⟨b, hb, rfl⟩ := ha
  exact hbal b hb

theorem PayWithCard_body_ok {env : Env} {db : Store} {card : Card} {req : PaymentRequest}
    {tx : Store} {eff : List Effect}
    (h : PayWithCard.body env db card req db = .ok (tx, eff)) :
    ∃ acc, AccountRepo.GetByID env 2 db card.AccountID = .ok acc ∧ req.Amount ≤ acc.Balance ∧
      env.fault 3 = false ∧ env.fault 4 = false ∧
      tx = { db with
        accounts := db.accounts.map
          (fun a => if a.ID = acc.ID then { a with Balance := acc.Balance - req.Amount } else a),
        transactions := db.transactions ++
          [{ ID := env.newID 0, From := some acc.ID, To := none, Amount := req.Amount,
             TransactionType := "payment", Note := "оплата " ++ req.Merchant }] } := by
  unfold PayWithCard.body at h
  split at h
  · cases h
  · next acc hacc =>
    split at h
    · cases h
    · next hlt =>
      simp only [AccountRepo.UpdateBalanceTx, TransactionRepo.CreateTx] at h
      by_cases h3 : env.fault 3 = true
      · simp [h3] at h
      · by_cases h4 : env.fault 4 = true
        · simp [h3, h4] at h
        · simp only [h3, h4, Bool.false_eq_true, ↓reduceIte, Except.ok.injEq, Prod.mk.injEq] at h
          refine ⟨acc, hacc, not_lt.mp hlt, by simpa using h3, by simpa using h4, h.1.symm⟩

theorem Transfer_body_ok {env : Env} {db : Store} {req : TransferRequest}
    {tx : Store} {eff : List Effect}
    (h : Transfer.body env db req db = .ok (tx, eff)) :
    ∃ fromAcc toAcc, AccountRepo.GetByID env 1 db req.FromAccountID = .ok fromAcc ∧
      AccountRepo.GetByID env 2 db req.ToAccountID = .ok toAcc ∧
      req.Amount ≤ fromAcc.Balance ∧
      tx = { db with
        accounts := (db.accounts.map
          (fun a => if a.ID = fromAcc.ID then { a with Balance := fromAcc.Balance - req.Amount }
            else a)).map
          (fun a => if a.ID = toAcc.ID then { a with Balance := toAcc.Balance + req.Amount }
            else a),
        transactions := db.transactions ++
          [{ ID := env.newID 0, From := some fromAcc.ID, To := some toAcc.ID,
             Amount := req.Amount, TransactionType := "transfer",
             Note := "внутренний перевод" }] } := by
  unfold Transfer.body at h
  split at h
  · cases h
  · next fromAcc hfrom =>
    split at h
    · cases h
    · next toAcc hto =>
      split at h
      · cases h
      · next hlt =>
        simp only [AccountRepo.UpdateBalanceTx, TransactionRepo.CreateTx] at h
        by_cases h3 : env.fault 3 = true
        · simp [h3] at h
        · by_cases h4 : env.fault 4 = true
          · simp [h3, h4] at h
          · by_cases h5 : env.fault 5 = true
            · simp [h3, h4, h5] at h
            · simp only [h3, h4, h5, Bool.false_eq_true, ↓reduceIte, Except.ok.injEq,
                Prod.mk.injEq] at h
              exact ⟨fromAcc, toAcc, hfrom, hto, not_lt.mp hlt, h.1.symm⟩

theorem Deposit_body_ok {env : Env} {db : Store} {req : DepositRequest}
    {tx : Store} {eff : List Effect}
    (h : Deposit.body env db req db = .ok (tx, eff)) :
    ∃ acc, AccountRepo.GetByID env 1 db req.ToAccountID = .ok acc ∧
      tx = { db with
        accounts := db.accounts.map
          (fun a => if a.ID = acc.ID then { a with Balance := acc.Balance + req.Amount } else a),
        transactions := db.transactions ++
          [{ ID := env.newID 0, From := none, To := some acc.ID, Amount := req.Amount,
             TransactionType := "deposit", Note := "пополнение счёта" }] } := by
  unfold Deposit.body at h
  split at h
  · cases h
  · next acc hacc =>
    simp only [AccountRepo.UpdateBalanceTx, TransactionRepo.CreateTx] at h
    by_cases h2 : env.fault 2 = true
    · simp [h2] at h
    · by_cases h3 : env.fault 3 = true
      · simp [h2, h3] at h
      · simp only [h2, h3, Bool.false_eq_true, ↓reduceIte, Except.ok.injEq, Prod.mk.injEq] at h
        exact ⟨acc, hacc, h.1.symm⟩

theorem Collector_body_ok {env : Env} {base k : ℕ} {db : Store}
    {sch : PaymentSchedule} {tx : Store} {eff : List Effect}
    (h : ProcessScheduledPayments.body env base k db sch db = .ok (tx, eff)) :
    tx = db ∨ ∃ cr acc, CreditRepo.GetByID env (base + 1) db sch.CreditID = .ok cr ∧
      AccountRepo.GetByID env (base + 2) db cr.AccountID = .ok acc ∧
      sch.Amount ≤ acc.Balance ∧
      tx = { db with
        accounts := db.accounts.map
          (fun a => if a.ID = acc.ID then { a with Balance := acc.Balance - sch.Amount } else a),
        transactions := db.transactions ++
          [{ ID := env.newID k, From := some acc.ID, To := none, Amount := sch.Amount,
             TransactionType := "credit_payment",
             Note := "очередной платёж по кредиту " ++ toString sch.CreditID }],
        schedules := db.schedules.map
          (fun s => if s.ID = sch.ID then { s with Paid := true } else s) } := by
  unfold ProcessScheduledPayments.body at h
  split at h
  · cases h
  · next cr hcr =>
    split at h
    · cases h
    · next acc hacc =>
      split at h
      · simp only [Except.ok.injEq, Prod.mk.injEq] at h
        exact Or.inl h.1.symm
      · next hlt =>
        simp only [AccountRepo.UpdateBalanceTx, TransactionRepo.CreateTx,
          ScheduleRepo.UpdatePaidTx] at h
        by_cases h3 : env.fault (base + 3) = true
        · simp [h3] at h
        · by_cases h4 : env.fault (base + 4) = true
          · simp [h3, h4] at h
          · by_cases h5 : env.fault (base + 5) = true
            · simp [h3, h4, h5] at h
            · simp only [h3, h4, h5, Bool.false_eq_true, ↓reduceIte, Except.ok.injEq,
                Prod.mk.injEq] at h
              exact Or.inr ⟨cr, acc, hcr, hacc, not_lt.mp hlt, h.1.symm⟩

/-- Accounts with the same identifier have the same balance in a reconciled
store. -/
theorem Reconciled.balance_eq {db : Store} (h : Reconciled db) {a b : Account}
    (ha : a ∈ db.accounts) (hb : b ∈ db.accounts) (hab : a.ID = b.ID) :
    a.Balance = b.Balance := by
  rw [h a ha, h b hb, hab]

theorem PayWithCard_reconciled (env : Env) (db : Store) (req : PaymentRequest)
    (h : Reconciled db) : Reconciled (PayWithCard env db req).store := by
  unfold PayWithCard
  split
  · exact h
  · dsimp only
    split
    · exact h
    · next card _ =>
      rcases WithTx_store env 1 5 db (PayWithCard.body env db card req) with h1 | ⟨tx, eff, hb, h1⟩
      · rw [h1]; exact h
      · rw [h1]
        obtain ⟨acc, hacc, _, _, _, rfl⟩ := PayWithCard_body_ok hb
        obtain ⟨_, hmem, _⟩ := GetByID_ok hacc
        refine reconciled_step db _ _ _ rfl rfl ?_ ?_ h
        · intro a; dsimp only; split <;> rfl
        · intro a ha
          by_cases hid : a.ID = acc.ID
          · simp [hid, h.balance_eq ha hmem hid]
          · have : ¬ acc.ID = a.ID := fun e => hid e.symm
            simp [hid, this]

theorem PayWithCard_nonNegative (env : Env) (db : Store) (req : PaymentRequest)
    (h : NonNegative db) : NonNegative (PayWithCard env db req).store := by
  unfold PayWithCard
  split
  · exact h
  · dsimp only
    split
    · exact h
    · next card _ =>
      rcases WithTx_store env 1 5 db (PayWithCard.body env db card req) with h1 | ⟨tx, eff, hb, h1⟩
      · rw [h1]; exact h
      · rw [h1]
        obtain ⟨acc, hacc, hle, _, _, rfl⟩ := PayWithCard_body_ok hb
        refine nonNegative_step db _ _ rfl ?_
        intro a ha
        by_cases hid : a.ID = acc.ID
        · simpa [hid] using hle
        · simpa [hid] using h a ha

theorem Deposit_reconciled (env : Env) (db : Store) (req : DepositRequest)
    (h : Reconciled db) : Reconciled (Deposit env db req).store := by
  unfold Deposit
  split
  · exact h
  · rcases WithTx_store env 0 4 db (Deposit.body env db req) with h1 | ⟨tx, eff, hb, h1⟩
    · rw [h1]; exact h
    · rw [h1]
      obtain ⟨acc, hacc, rfl⟩ := Deposit_body_ok hb
      obtain ⟨_, hmem, _⟩ := GetByID_ok hacc
      refine reconciled_step db _ _ _ rfl rfl ?_ ?_ h
      · intro a; dsimp only; split <;> rfl
      · intro a ha
        by_cases hid : a.ID = acc.ID
        · simp [hid, h.balance_eq ha hmem hid]
        · have : ¬ acc.ID = a.ID := fun e => hid e.symm
          simp [hid, this]

theorem Deposit_nonNegative (env : Env) (db : Store) (req : DepositRequest)
    (h : NonNegative db) : NonNegative (Deposit env db req).store := by
  unfold Deposit
  split
  · exact h
  · next hpos =>
    rcases WithTx_store env 0 4 db (Deposit.body env db req) with h1 | ⟨tx, eff, hb, h1⟩
    · rw [h1]; exact h
    · rw [h1]
      obtain ⟨acc, hacc, rfl⟩ := Deposit_body_ok hb
      obtain ⟨_, hmem, _⟩ := GetByID_ok hacc
      refine nonNegative_step db _ _ rfl ?_
      intro a ha
      by_cases hid : a.ID = acc.ID
      · have h0 := h acc hmem
        have : 0 < req.Amount := not_le.mp hpos
        simp only [hid, ↓reduceIte]
        linarith
      · simpa [hid] using h a ha

theorem Transfer_reconciled (env : Env) (db : Store) (req : TransferRequest)
    (h : Reconciled db) : Reconciled (Transfer env db req).store := by
  unfold Transfer
  split
  · exact h
  · split
    · exact h
    · next hne =>
      rcases WithTx_store env 0 6 db (Transfer.body env db req) with h1 | ⟨tx, eff, hb, h1⟩
      · rw [h1]; exact h
      · rw [h1]
        obtain ⟨fromAcc, toAcc, hfrom, hto, _, rfl⟩ := Transfer_body_ok hb
        obtain ⟨_, hmemF, hidF⟩ := GetByID_ok hfrom
        obtain ⟨_, hmemT, hidT⟩ := GetByID_ok hto
        have hFT : fromAcc.ID ≠ toAcc.ID := by rw [hidF, hidT]; exact hne
        refine reconciled_step db _ _ _ (List.map_map _ _ _) rfl ?_ ?_ h
        · intro a
          simp only [Function.comp]
          split <;> split <;> rfl
        · intro a ha
          simp only [Function.comp]
          by_cases hf : a.ID = fromAcc.ID
          · have hnt : ¬ a.ID = toAcc.ID := fun e => hFT (hf.symm.trans e)
            have hnt2 : ¬ toAcc.ID = a.ID := fun e => hnt e.symm
            simp [hf, hnt, hFT, hFT.symm, h.balance_eq ha hmemF hf]
          · have hf2 : ¬ fromAcc.ID = a.ID := fun e => hf e.symm
            by_cases ht : a.ID = toAcc.ID
            · simp [hf, ht, hFT, hFT.symm, h.balance_eq ha hmemT ht]
            · have ht2 : ¬ toAcc.ID = a.ID := fun e => ht e.symm
              simp [hf, ht, hf2, ht2]

theorem Transfer_nonNegative (env : Env) (db : Store) (req : TransferRequest)
    (h : NonNegative db) : NonNegative (Transfer env db req).store := by
  unfold Transfer
  split
  · exact h
  · next hpos =>
    split
    · exact h
    · next hne =>
      rcases WithTx_store env 0 6 db (Transfer.body env db req) with h1 | ⟨tx, eff, hb, h1⟩
      · rw [h1]; exact h
      · rw [h1]
        obtain ⟨fromAcc, toAcc, hfrom, hto, hle, rfl⟩ := Transfer_body_ok hb
        obtain ⟨_, hmemT, _⟩ := GetByID_ok hto
        have hamt : 0 < req.Amount := not_le.mp hpos
        have hT := h toAcc hmemT
        refine nonNegative_step db _ _ (List.map_map _ _ _) ?_
        intro a ha
        have h0 := h a ha
        simp only [Function.comp]
        split
        · split <;> dsimp only <;> linarith
        · split
          · dsimp only; linarith
          · exact h0

theorem row_store (env : Env) (k : ℕ) (db : Store) (sch : PaymentSchedule) :
    (ProcessScheduledPayments.row env k db sch).1 =
      (AccountRepo.WithTx env (1 + 7 * k) (1 + 7 * k + 6) db
        (ProcessScheduledPayments.body env (1 + 7 * k) k db sch)).store := by
  unfold ProcessScheduledPayments.row
  dsimp only
  split <;> rfl

theorem row_reconciled (env : Env) (k : ℕ) (db : Store) (sch : PaymentSchedule)
    (h : Reconciled db) : Reconciled (ProcessScheduledPayments.row env k db sch).1 := by
  rw [row_store]
  rcases WithTx_store env (1 + 7 * k) (1 + 7 * k + 6) db
    (ProcessScheduledPayments.body env (1 + 7 * k) k db sch) with h1 | ⟨tx, eff, hb, h1⟩
  · rw [h1]; exact h
  · rw [h1]
    rcases Collector_body_ok hb with rfl | ⟨cr, acc, _, hacc, _, rfl⟩
    · exact h
    · obtain ⟨_, hmem, _⟩ := GetByID_ok hacc
      refine reconciled_step db _ _ _ rfl rfl ?_ ?_ h
      · intro a; dsimp only; split <;> rfl
      · intro a ha
        by_cases hid : a.ID = acc.ID
        · simp [hid, h.balance_eq ha hmem hid]
        · have : ¬ acc.ID = a.ID := fun e => hid e.symm
          simp [hid, this]

theorem row_nonNegative (env : Env) (k : ℕ) (db : Store) (sch : PaymentSchedule)
    (h : NonNegative db) : NonNegative (ProcessScheduledPayments.row env k db sch).1 := by
  rw [row_store]
  rcases WithTx_store env (1 + 7 * k) (1 + 7 * k + 6) db
    (ProcessScheduledPayments.body env (1 + 7 * k) k db sch) with h1 | ⟨tx, eff, hb, h1⟩
  · rw [h1]; exact h
  · rw [h1]
    rcases Collector_body_ok hb with rfl | ⟨cr, acc, _, hacc, hle, rfl⟩
    · exact h
    · refine nonNegative_step db _ _ rfl ?_
      intro a ha
      by_cases hid : a.ID = acc.ID
      · simpa [hid] using hle
      · simpa [hid] using h a ha

/-- A property of the store kept by every row is kept by the loop. -/
theorem loop_preserves (P : Store → Prop) (env : Env)
    (hrow : ∀ k db sch, P db → P (ProcessScheduledPayments.row env k db sch).1)
    (due : List PaymentSchedule) :
    ∀ (k : ℕ) (db : Store) (eff : List Effect), P db →
      P (ProcessScheduledPayments.loop env k due db eff).1 := by
  induction due with
  | nil => intro k db eff h; exact h
  | cons sch rest ih =>
    intro k db eff h
    unfold ProcessScheduledPayments.loop
    exact ih _ _ _ (hrow k db sch h)

theorem ProcessScheduledPayments_preserves (P : Store → Prop) (env : Env)
    (hrow : ∀ k db sch, P db → P (ProcessScheduledPayments.row env k db sch).1)
    (db : Store) (h : P db) : P (ProcessScheduledPayments env db).store := by
  unfold ProcessScheduledPayments
  split
  · exact h
  · exact loop_preserves P env hrow _ 0 db [] h

theorem Op.run_reconciled (db : Store) (op : Op) (h : Reconciled db) :
    Reconciled (op.run db) := by
  cases op with
  | pay env req => exact PayWithCard_reconciled env db req h
  | transfer env req => exact Transfer_reconciled env db req h
  | deposit env req => exact Deposit_reconciled env db req h
  | collect env =>
    exact ProcessScheduledPayments_preserves Reconciled env (row_reconciled env) db h

theorem Op.run_nonNegative (db : Store) (op : Op) (h : NonNegative db) :
    NonNegative (op.run db) := by
  cases op with
  | pay env req => exact PayWithCard_nonNegative env db req h
  | transfer env req => exact Transfer_nonNegative env db req h
  | deposit env req => exact Deposit_nonNegative env db req h
  | collect env =>
    exact ProcessScheduledPayments_preserves NonNegative env (row_nonNegative env) db h

theorem balanceOf_map (db s1 : Store) (f : Account → Account) (id : UUID)
    (hacc : s1.accounts = db.accounts.map f) (hid : ∀ a, (f a).ID = a.ID) :
    balanceOf s1 id = ((db.accounts.find? (fun a => a.ID = id)).map f).map (fun a => a.Balance) := by
  unfold balanceOf
  rw [hacc, List.find?_map]
  have : ((fun a : Account => decide (a.ID = id)) ∘ f) = (fun a => decide (a.ID = id)) := by
    funext a
    simp [hid]
  rw [this]

theorem balanceOf_some {db : Store} {id : UUID} {b : Decimal} (h : balanceOf db id = some b) :
    ∃ acc, db.accounts.find? (fun a => a.ID = id) = some acc ∧ acc.Balance = b := by
  unfold balanceOf at h
  cases hf : db.accounts.find? (fun a => a.ID = id) with
  | none => simp [hf] at h
  | some acc => exact ⟨acc, rfl, by simpa [hf] using h⟩

theorem GetByID_of_find {env : Env} {n : ℕ} {db : Store} {id : UUID} {acc : Account}
    (hn : env.fault n = false) (h : db.accounts.find? (fun a => a.ID = id) = some acc) :
    AccountRepo.GetByID env n db id = .ok acc := by
  simp [AccountRepo.GetByID, hn, h]

theorem find_id {db : Store} {id : UUID} {acc : Account}
    (h : db.accounts.find? (fun a => a.ID = id) = some acc) : acc.ID = id := by
  simpa using List.find?_some h

/-- The committed store of a transfer whose statements all succeed. -/
theorem Transfer_ok (env : Env) (db : Store) (req : TransferRequest) (fromAcc toAcc : Account)
    (hnf : env.NoFault) (hne : req.FromAccountID ≠ req.ToAccountID)
    (hfrom : db.accounts.find? (fun a => a.ID = req.FromAccountID) = some fromAcc)
    (hto : db.accounts.find? (fun a => a.ID = req.ToAccountID) = some toAcc)
    (hpos : 0 < req.Amount) (hle : req.Amount ≤ fromAcc.Balance) :
    Transfer env db req =
      ⟨none,
        { db with
          accounts := (db.accounts.map
            (fun a => if a.ID = fromAcc.ID then { a with Balance := fromAcc.Balance - req.Amount }
              else a)).map
            (fun a => if a.ID = toAcc.ID then { a with Balance := toAcc.Balance + req.Amount }
              else a),
          transactions := db.transactions ++
            [{ ID := env.newID 0, From := some fromAcc.ID, To := some toAcc.ID,
               Amount := req.Amount, TransactionType := "transfer",
               Note := "внутренний перевод" }] },
        []⟩ := by
  simp [Transfer, AccountRepo.WithTx, Transfer.body, AccountRepo.UpdateBalanceTx,
    TransactionRepo.CreateTx, hnf _, not_le.mpr hpos, hne, GetByID_of_find (hnf _) hfrom,
    GetByID_of_find (hnf _) hto, not_lt.mpr hle]

/-! ## The ledger invariants -/

/-- C1 (ledger reconciliation).  From a store in which every account balance
equals the sum of the amounts of the transactions into the account minus the
sum of the amounts of the transactions out of it, every sequence of
`PayWithCard`, `Transfer`, `Deposit` and `ProcessScheduledPayments` calls run
one after another, in any environments (so with any of their store statements
failing), ends in a store in which that equality holds for every account. -/
theorem ledger_reconciled (db : Store) (ops : List Op) (h : Reconciled db) :
    Reconciled (runAll db ops) := by
  unfold runAll
  induction ops generalizing db with
  | nil => exact h
  | cons op rest ih => exact ih (op.run db) (Op.run_reconciled db op h)

/-- Witness of C1: the sample store, whose accounts are fresh (balance 0, no
transactions), is reconciled, the sample sequence takes the balances to 10
and 20 over four logged transactions, and the result is reconciled. -/
theorem ledger_reconciled_witness :
    Reconciled demoStore ∧
    (runAll demoStore demoOps).accounts.map (fun a => a.Balance) = [10, 20] ∧
    (runAll demoStore demoOps).transactions.length = 4 ∧
    Reconciled (runAll demoStore demoOps) :=
  ⟨by decide!, by decide!, by decide!, ledger_reconciled demoStore demoOps (by decide!)⟩

/-- C2 (non-negative balances).  From a store in which no account balance is
negative, every sequence of `PayWithCard`, `Transfer`, `Deposit` and
`ProcessScheduledPayments` calls run one after another, in any environments,
ends in a store in which no account balance is negative. -/
theorem balances_nonNegative (db : Store) (ops : List Op) (h : NonNegative db) :
    NonNegative (runAll db ops) := by
  unfold runAll
  induction ops generalizing db with
  | nil => exact h
  | cons op rest ih => exact ih (op.run db) (Op.run_nonNegative db op h)

/-- Witness of C2: the sample store has no negative balance, and after the
sample sequence, which contains a payment of 500 against a balance of 10, no
balance is negative. -/
theorem balances_nonNegative_witness :
    NonNegative demoStore ∧ NonNegative (runAll demoStore demoOps) :=
  ⟨by decide!, balances_nonNegative demoStore demoOps (by decide!)⟩

/-! ## Transfer -/

/-- C3 (transfer postcondition).  When no store statement fails, a transfer
between two distinct existing accounts of an amount that is positive and at
most the balance of the source returns no error; afterwards the balance of
the source is lower by exactly the amount, the balance of the destination is
higher by exactly the amount, every other account has the balance it had,
the accounts are the same, exactly one transaction has been appended, of type
"transfer", from the source to the destination and of that amount, and no
other table has changed. -/
theorem transfer_postcondition (env : Env) (db : Store) (req : TransferRequest)
    (bFrom bTo : Decimal) (hnf : env.NoFault)
    (hne : req.FromAccountID ≠ req.ToAccountID)
    (hfrom : balanceOf db req.FromAccountID = some bFrom)
    (hto : balanceOf db req.ToAccountID = some bTo)
    (hpos : 0 < req.Amount) (hle : req.Amount ≤ bFrom) :
    (Transfer env db req).err = none ∧
    balanceOf (Transfer env db req).store req.FromAccountID = some (bFrom - req.Amount) ∧
    balanceOf (Transfer env db req).store req.ToAccountID = some (bTo + req.Amount) ∧
    (∀ id, id ≠ req.FromAccountID → id ≠ req.ToAccountID →
      balanceOf (Transfer env db req).store id = balanceOf db id) ∧
    (Transfer env db req).store.accounts.map (fun a => a.ID) = db.accounts.map (fun a => a.ID) ∧
    (Transfer env db req).store.transactions = db.transactions ++
      [{ ID := env.newID 0, From := some req.FromAccountID, To := some req.ToAccountID,
         Amount := req.Amount, TransactionType := "transfer", Note := "внутренний перевод" }] ∧
    (Transfer env db req).store.cards = db.cards ∧
    (Transfer env db req).store.credits = db.credits ∧
    (Transfer env db req).store.schedules = db.schedules := by
  obtain ⟨fromAcc, hF, rfl⟩ := balanceOf_some hfrom
  obtain ⟨toAcc, hT, rfl⟩ := balanceOf_some hto
  have hidF := find_id hF
  have hidT := find_id hT
  rw [Transfer_ok env db req fromAcc toAcc hnf hne hF hT hpos hle]
  have hidf : ∀ a : Account,
      (((fun a : Account =>
          if a.ID = toAcc.ID then { a with Balance := toAcc.Balance + req.Amount } else a) ∘
        (fun a : Account =>
          if a.ID = fromAcc.ID then { a with Balance := fromAcc.Balance - req.Amount } else a))
        a).ID = a.ID := by
    intro a
    simp only [Function.comp]
    split <;> split <;> rfl
  have hbal : ∀ (s1 : Store) (id : UUID),
      s1.accounts = (db.accounts.map (fun a : Account =>
          if a.ID = fromAcc.ID then { a with Balance := fromAcc.Balance - req.Amount } else a)).map
        (fun a : Account =>
          if a.ID = toAcc.ID then { a with Balance := toAcc.Balance + req.Amount } else a) →
      balanceOf s1 id = ((db.accounts.find? (fun a => a.ID = id)).map
        ((fun a : Account =>
          if a.ID = toAcc.ID then { a with Balance := toAcc.Balance + req.Amount } else a) ∘
        (fun a : Account =>
          if a.ID = fromAcc.ID then { a with Balance := fromAcc.Balance - req.Amount } else a))).map
        (fun a => a.Balance) :=
    fun s1 id h => balanceOf_map db s1 _ id (h.trans (List.map_map _ _ db.accounts)) hidf
  refine ⟨rfl, ?_, ?_, ?_, ?_, ?_, rfl, rfl, rfl⟩
  · rw [hbal _ _ rfl, hF]
    simp [hidF, hidT, hne]
  · rw [hbal _ _ rfl, hT]
    simp [hidF, hidT, hne, Ne.symm hne]
  · intro id h1 h2
    rw [hbal _ _ rfl]
    unfold balanceOf
    cases hf : db.accounts.find? (fun a => a.ID = id) with
    | none => rfl
    | some a =>
      have := find_id hf
      simp [hidF, hidT, this, h1, h2, hf]
  · simp only [List.map_map]
    apply List.map_congr_left
    intro a _
    exact hidf a
  · simp [hidF, hidT]

/-- Witness of C3: in the sample store with 50 on account 1, a transfer of 20
from account 1 to account 2. -/
theorem transfer_postcondition_witness :
    (Transfer demoEnv demoStoreFunded ⟨1, 2, 20⟩).err = none ∧
    balanceOf (Transfer demoEnv demoStoreFunded ⟨1, 2, 20⟩).store 1 = some (50 - 20) ∧
    balanceOf (Transfer demoEnv demoStoreFunded ⟨1, 2, 20⟩).store 2 = some (0 + 20) :=
  have h := transfer_postcondition demoEnv demoStoreFunded ⟨1, 2, 20⟩ 50 0 (fun _ => rfl)
    (by decide) (by decide!) (by decide!) (by norm_num) (by norm_num)
  ⟨h.1, h.2.1, h.2.2.1⟩

/-! ## Rejected calls -/

theorem GetByHMAC_of_find {env : Env} {n : ℕ} {db : Store} {h : String} {card : Card}
    (hn : env.fault n = false) (hc : db.cards.find? (fun c => c.HMAC = h) = some card) :
    CardRepo.GetByHMAC env n db h = .ok card := by
  simp [CardRepo.GetByHMAC, hn, hc]

/-- Counterexample to C4 as stated: in the sample store, account 1 has
balance 0 and the amount 5 is positive and above it, yet a transfer from
account 1 to account 1 returns the same-account error, and a transfer from
account 1 to the missing account 9 returns `sql.ErrNoRows`; neither returns
the insufficient-funds error. -/
theorem insufficient_funds_counterexample :
    balanceOf demoStore 1 = some 0 ∧ (0 : Decimal) < 5 ∧
    (Transfer demoEnv demoStore ⟨1, 1, 5⟩).err = some Err.sameAccount ∧
    (Transfer demoEnv demoStore ⟨1, 9, 5⟩).err = some Err.noRows ∧
    (Transfer demoEnv demoStore ⟨1, 1, 5⟩).err ≠ some Err.insufficientFunds ∧
    (Transfer demoEnv demoStore ⟨1, 9, 5⟩).err ≠ some Err.insufficientFunds := by
  refine ⟨by decide!, by norm_num, by decide!, by decide!, by decide!, by decide!⟩

/-- C4, amended (insufficient funds is a hard failure without effect).  For
every store and every positive amount: `PayWithCard` with a card number whose
digest is that of a stored card whose account has a balance below the amount,
and `Transfer` between two distinct existing accounts whose source has a
balance below the amount, return the insufficient-funds error when the store
statements up to the balance check succeed, and the store (balances and
transaction log included) is the store before the call. -/
theorem insufficient_funds_no_effect (env : Env) (db : Store) :
    (∀ (req : PaymentRequest) (card : Card) (b : Decimal),
      0 < req.Amount → env.fault 0 = false → env.fault 1 = false → env.fault 2 = false →
      db.cards.find? (fun c => c.HMAC = env.ComputeHMAC req.CardNumber env.HMACSecret)
        = some card →
      balanceOf db card.AccountID = some b → b < req.Amount →
      PayWithCard env db req = ⟨some Err.insufficientFunds, db, []⟩) ∧
    (∀ (req : TransferRequest) (bFrom bTo : Decimal),
      0 < req.Amount → env.fault 0 = false → env.fault 1 = false → env.fault 2 = false →
      req.FromAccountID ≠ req.ToAccountID →
      balanceOf db req.FromAccountID = some bFrom → balanceOf db req.ToAccountID = some bTo →
      bFrom < req.Amount →
      Transfer env db req = ⟨some Err.insufficientFunds, db, []⟩) := by
  constructor
  · intro req card b hpos h0 h1 h2 hcard hbal hlt
    obtain ⟨acc, hacc, rfl⟩ := balanceOf_some hbal
    simp [PayWithCard, AccountRepo.WithTx, PayWithCard.body, not_le.mpr hpos,
      GetByHMAC_of_find h0 hcard, h1, GetByID_of_find h2 hacc, hlt]
  · intro req bFrom bTo hpos h0 h1 h2 hne hfrom hto hlt
    obtain ⟨fromAcc, hF, rfl⟩ := balanceOf_some hfrom
    obtain ⟨toAcc, hT, rfl⟩ := balanceOf_some hto
    simp [Transfer, AccountRepo.WithTx, Transfer.body, not_le.mpr hpos, hne, h0,
      GetByID_of_find h1 hF, GetByID_of_find h2 hT, hlt]

/-- Witness of C4 amended: in the sample store (balances 0 and 0), a payment
of 30 with the stored card and a transfer of 5 from account 1 to account 2
both return the insufficient-funds error and leave the store as it was. -/
theorem insufficient_funds_no_effect_witness :
    PayWithCard demoEnv demoStore ⟨"4000001111111111", 30, "shop"⟩
      = ⟨some Err.insufficientFunds, demoStore, []⟩ ∧
    Transfer demoEnv demoStore ⟨1, 2, 5⟩ = ⟨some Err.insufficientFunds, demoStore, []⟩ :=
  ⟨(insufficient_funds_no_effect demoEnv demoStore).1 ⟨"4000001111111111", 30, "shop"⟩
      ⟨3, 1, "", "", "", "k:4000001111111111"⟩ 0 (by norm_num) rfl rfl rfl (by decide!)
      (by decide!) (by norm_num),
   (insufficient_funds_no_effect demoEnv demoStore).2 ⟨1, 2, 5⟩ 0 0 (by norm_num) rfl rfl rfl
      (by decide) (by decide!) (by decide!) (by norm_num)⟩

/-- C5 (validation rejects without side effects).  For every store and
environment: a transfer whose source and destination are the same account
returns an error whatever the amount, a payment or a transfer of an amount
that is not positive returns the amount error, and in each case the whole
store is the store before the call (no balance changed, no transaction row
created) and nothing is dispatched. -/
theorem validation_rejects (env : Env) (db : Store) :
    (∀ req : TransferRequest, req.FromAccountID = req.ToAccountID →
      Transfer env db req =
        ⟨some (if req.Amount ≤ 0 then Err.amountNotPositive else Err.sameAccount), db, []⟩) ∧
    (∀ req : PaymentRequest, req.Amount ≤ 0 →
      PayWithCard env db req = ⟨some Err.amountNotPositive, db, []⟩) ∧
    (∀ req : TransferRequest, req.Amount ≤ 0 →
      Transfer env db req = ⟨some Err.amountNotPositive, db, []⟩) := by
  refine ⟨?_, ?_, ?_⟩
  · intro req h
    by_cases hamt : req.Amount ≤ 0
    · simp [Transfer, hamt]
    · simp [Transfer, hamt, h]
  · intro req h
    unfold PayWithCard
    rw [if_pos h]
  · intro req h
    unfold Transfer
    rw [if_pos h]

/-- Witness of C5: on the funded sample store, a transfer of 20 from account
1 to itself, a payment of 0 and a transfer of -5 are rejected and leave the
store as it was. -/
theorem validation_rejects_witness :
    Transfer demoEnv demoStoreFunded ⟨1, 1, 20⟩ = ⟨some Err.sameAccount, demoStoreFunded, []⟩ ∧
    PayWithCard demoEnv demoStoreFunded ⟨"4000001111111111", 0, "shop"⟩
      = ⟨some Err.amountNotPositive, demoStoreFunded, []⟩ ∧
    Transfer demoEnv demoStoreFunded ⟨1, 2, -5⟩
      = ⟨some Err.amountNotPositive, demoStoreFunded, []⟩ :=
  ⟨((validation_rejects demoEnv demoStoreFunded).1 ⟨1, 1, 20⟩ rfl).trans (by norm_num),
   (validation_rejects demoEnv demoStoreFunded).2.1 ⟨"4000001111111111", 0, "shop"⟩ (by norm_num),
   (validation_rejects demoEnv demoStoreFunded).2.2 ⟨1, 2, -5⟩ (by norm_num)⟩

/-! ## Unit of work -/

/-- A unit of work that returns an error leaves the committed store as it
was. -/
theorem WithTx_err (env : Env) (nb nc : ℕ) (db : Store)
    (fn : Store → Except Err (Store × List Effect))
    (h : (AccountRepo.WithTx env nb nc db fn).err ≠ none) :
    (AccountRepo.WithTx env nb nc db fn).store = db := by
  unfold AccountRepo.WithTx at h ⊢
  by_cases hb : env.fault nb = true
  · simp [hb]
  · cases hfn : fn db with
    | error e => simp [hb, hfn]
    | ok r =>
      by_cases hc : env.fault nc = true
      · simp [hb, hfn, hc]
      · simp [hb, hfn, hc] at h

/-- A unit of work whose body returns an error returns that error and the
store as it was. -/
theorem WithTx_body_error (env : Env) (nb nc : ℕ) (db : Store)
    (fn : Store → Except Err (Store × List Effect)) (e : Err)
    (hb : env.fault nb = false) (h : fn db = .error e) :
    AccountRepo.WithTx env nb nc db fn = ⟨some e, db, []⟩ := by
  simp [AccountRepo.WithTx, hb, h]

/-- C7 (unit-of-work atomicity).  For `PayWithCard`, `Transfer` and
`Deposit`, on every store and in every environment: when a step inside the
unit of work returns an error `e` (an account lookup; the funds check; a
balance write on the working copy; the append to the transaction log after
the balance writes were issued) while the steps before it succeeded, the call
returns exactly `e`, the committed store is the store before the call and no
effect is produced.  The same in terms of the statements: when the accounts
exist, the funds suffice and statement `k` of the unit of work is the first
to fail, the call returns the driver error of statement `k` and the store of
before.  And whenever one of the three calls returns any error at all (a
failed `Beginx` or `Commit` included), the committed store is the store
before the call. -/
theorem unit_of_work_atomic (env : Env) (db : Store) :
    (∀ (req : PaymentRequest) (card : Card) (e : Err), 0 < req.Amount →
      CardRepo.GetByHMAC env 0 db (env.ComputeHMAC req.CardNumber env.HMACSecret) = .ok card →
      env.fault 1 = false →
      (AccountRepo.GetByID env 2 db card.AccountID = .error e ∨
        ∃ acc, AccountRepo.GetByID env 2 db card.AccountID = .ok acc ∧
          (acc.Balance < req.Amount ∧ e = Err.insufficientFunds ∨
            req.Amount ≤ acc.Balance ∧
              (AccountRepo.UpdateBalanceTx env 3 db acc.ID (acc.Balance - req.Amount) = .error e ∨
                ∃ tx1, AccountRepo.UpdateBalanceTx env 3 db acc.ID (acc.Balance - req.Amount)
                    = .ok tx1 ∧
                  TransactionRepo.CreateTx env 4 0 tx1
                    ⟨0, some acc.ID, none, req.Amount, "payment", "оплата " ++ req.Merchant⟩
                    = .error e))) →
      PayWithCard env db req = ⟨some e, db, []⟩) ∧
    (∀ (req : TransferRequest) (e : Err), 0 < req.Amount →
      req.FromAccountID ≠ req.ToAccountID → env.fault 0 = false →
      (AccountRepo.GetByID env 1 db req.FromAccountID = .error e ∨
        ∃ fromAcc, AccountRepo.GetByID env 1 db req.FromAccountID = .ok fromAcc ∧
          (AccountRepo.GetByID env 2 db req.ToAccountID = .error e ∨
            ∃ toAcc, AccountRepo.GetByID env 2 db req.ToAccountID = .ok toAcc ∧
              (fromAcc.Balance < req.Amount ∧ e = Err.insufficientFunds ∨
                req.Amount ≤ fromAcc.Balance ∧
                  (AccountRepo.UpdateBalanceTx env 3 db fromAcc.ID
                      (fromAcc.Balance - req.Amount) = .error e ∨
                    ∃ tx1, AccountRepo.UpdateBalanceTx env 3 db fromAcc.ID
                        (fromAcc.Balance - req.Amount) = .ok tx1 ∧
                      (AccountRepo.UpdateBalanceTx env 4 tx1 toAcc.ID
                          (toAcc.Balance + req.Amount) = .error e ∨
                        ∃ tx2, AccountRepo.UpdateBalanceTx env 4 tx1 toAcc.ID
                            (toAcc.Balance + req.Amount) = .ok tx2 ∧
                          TransactionRepo.CreateTx env 5 0 tx2
                            ⟨0, some fromAcc.ID, some toAcc.ID, req.Amount, "transfer",
                              "внутренний перевод"⟩ = .error e))))) →
      Transfer env db req = ⟨some e, db, []⟩) ∧
    (∀ (req : DepositRequest) (e : Err), 0 < req.Amount → env.fault 0 = false →
      (AccountRepo.GetByID env 1 db req.ToAccountID = .error e ∨
        ∃ acc, AccountRepo.GetByID env 1 db req.ToAccountID = .ok acc ∧
          (AccountRepo.UpdateBalanceTx env 2 db acc.ID (acc.Balance + req.Amount) = .error e ∨
            ∃ tx1, AccountRepo.UpdateBalanceTx env 2 db acc.ID (acc.Balance + req.Amount)
                = .ok tx1 ∧
              TransactionRepo.CreateTx env 3 0 tx1
                ⟨0, none, some acc.ID, req.Amount, "deposit", "пополнение счёта"⟩ = .error e)) →
      Deposit env db req = ⟨some e, db, []⟩) ∧
    (∀ (req : PaymentRequest) (card : Card) (acc : Account) (k : ℕ), 0 < req.Amount →
      CardRepo.GetByHMAC env 0 db (env.ComputeHMAC req.CardNumber env.HMACSecret) = .ok card →
      db.accounts.find? (fun a => a.ID = card.AccountID) = some acc →
      req.Amount ≤ acc.Balance → 2 ≤ k → k ≤ 4 →
      (∀ j, 1 ≤ j → j < k → env.fault j = false) → env.fault k = true →
      PayWithCard env db req = ⟨some (Err.store k), db, []⟩) ∧
    (∀ (req : TransferRequest) (fromAcc toAcc : Account) (k : ℕ), 0 < req.Amount →
      req.FromAccountID ≠ req.ToAccountID →
      db.accounts.find? (fun a => a.ID = req.FromAccountID) = some fromAcc →
      db.accounts.find? (fun a => a.ID = req.ToAccountID) = some toAcc →
      req.Amount ≤ fromAcc.Balance → 1 ≤ k → k ≤ 5 →
      (∀ j, j < k → env.fault j = false) → env.fault k = true →
      Transfer env db req = ⟨some (Err.store k), db, []⟩) ∧
    (∀ (req : DepositRequest) (acc : Account) (k : ℕ), 0 < req.Amount →
      db.accounts.find? (fun a => a.ID = req.ToAccountID) = some acc →
      1 ≤ k → k ≤ 3 →
      (∀ j, j < k → env.fault j = false) → env.fault k = true →
      Deposit env db req = ⟨some (Err.store k), db, []⟩) ∧
    (∀ req : PaymentRequest, (PayWithCard env db req).err ≠ none →
      (PayWithCard env db req).store = db) ∧
    (∀ req : TransferRequest, (Transfer env db req).err ≠ none →
      (Transfer env db req).store = db) ∧
    (∀ req : DepositRequest, (Deposit env db req).err ≠ none →
      (Deposit env db req).store = db) := by
  refine ⟨?_, ?_, ?_, ?_, ?_, ?_, ?_, ?_, ?_⟩
  · intro req card e hpos hcard hb h
    unfold PayWithCard
    rw [if_neg (not_le.mpr hpos)]
    simp only [hcard]
    apply WithTx_body_error env 1 5 db _ e hb
    unfold PayWithCard.body
    rcases h with h | ⟨acc, hacc, ⟨hlt, rfl⟩ | ⟨hle, h | ⟨tx1, h1, h2⟩⟩⟩
    · simp only [h]
    · simp only [hacc, hlt, ↓reduceIte]
    · simp only [hacc, not_lt.mpr hle, ↓reduceIte, h]
    · simp only [hacc, not_lt.mpr hle, ↓reduceIte, h1, h2]
  · intro req e hpos hne hb h
    unfold Transfer
    rw [if_neg (not_le.mpr hpos), if_neg hne]
    apply WithTx_body_error env 0 6 db _ e hb
    unfold Transfer.body
    rcases h with h | ⟨fromAcc, hF, h | ⟨toAcc, hT, ⟨hlt, rfl⟩ |
      ⟨hle, h | ⟨tx1, h1, h | ⟨tx2, h2, h3⟩⟩⟩⟩⟩
    · simp only [h]
    · simp only [hF, h]
    · simp only [hF, hT, hlt, ↓reduceIte]
    · simp only [hF, hT, not_lt.mpr hle, ↓reduceIte, h]
    · simp only [hF, hT, not_lt.mpr hle, ↓reduceIte, h1, h]
    · simp only [hF, hT, not_lt.mpr hle, ↓reduceIte, h1, h2, h3]
  · intro req e hpos hb h
    unfold Deposit
    rw [if_neg (not_le.mpr hpos)]
    apply WithTx_body_error env 0 4 db _ e hb
    unfold Deposit.body
    rcases h with h | ⟨acc, hacc, h | ⟨tx1, h1, h2⟩⟩
    · simp only [h]
    · simp only [hacc, h]
    · simp only [hacc, h1, h2]
  · intro req card acc k hpos hcard hA hle hk2 hk4 hlow hk
    have h1 := hlow 1 (by omega) (by omega)
    have hk' : k = 2 ∨ k = 3 ∨ k = 4 := by omega
    rcases hk' with rfl | rfl | rfl
    · simp [PayWithCard, hcard, AccountRepo.WithTx, PayWithCard.body, AccountRepo.GetByID,
        not_le.mpr hpos, h1, hk]
    · simp [PayWithCard, hcard, AccountRepo.WithTx, PayWithCard.body,
        AccountRepo.UpdateBalanceTx, not_le.mpr hpos, h1,
        GetByID_of_find (hlow 2 (by omega) (by omega)) hA, not_lt.mpr hle, hk]
    · simp [PayWithCard, hcard, AccountRepo.WithTx, PayWithCard.body,
        AccountRepo.UpdateBalanceTx, TransactionRepo.CreateTx, not_le.mpr hpos, h1,
        GetByID_of_find (hlow 2 (by omega) (by omega)) hA, not_lt.mpr hle,
        hlow 3 (by omega) (by omega), hk]
  · intro req fromAcc toAcc k hpos hne hF hT hle hk1 hk5 hlow hk
    have h0 := hlow 0 (by omega)
    have hk' : k = 1 ∨ k = 2 ∨ k = 3 ∨ k = 4 ∨ k = 5 := by omega
    rcases hk' with rfl | rfl | rfl | rfl | rfl
    · simp [Transfer, AccountRepo.WithTx, Transfer.body, AccountRepo.GetByID,
        not_le.mpr hpos, hne, h0, hk]
    · simp [Transfer, AccountRepo.WithTx, Transfer.body, not_le.mpr hpos, hne, h0,
        AccountRepo.GetByID, hlow 1 (by omega), hF, hk]
    · simp [Transfer, AccountRepo.WithTx, Transfer.body, AccountRepo.UpdateBalanceTx,
        not_le.mpr hpos, hne, h0, GetByID_of_find (hlow 1 (by omega)) hF,
        GetByID_of_find (hlow 2 (by omega)) hT, not_lt.mpr hle, hk]
    · simp [Transfer, AccountRepo.WithTx, Transfer.body, AccountRepo.UpdateBalanceTx,
        not_le.mpr hpos, hne, h0, GetByID_of_find (hlow 1 (by omega)) hF,
        GetByID_of_find (hlow 2 (by omega)) hT, not_lt.mpr hle, hlow 3 (by omega), hk]
    · simp [Transfer, AccountRepo.WithTx, Transfer.body, AccountRepo.UpdateBalanceTx,
        TransactionRepo.CreateTx, not_le.mpr hpos, hne, h0,
        GetByID_of_find (hlow 1 (by omega)) hF, GetByID_of_find (hlow 2 (by omega)) hT,
        not_lt.mpr hle, hlow 3 (by omega), hlow 4 (by omega), hk]
  · intro req acc k hpos hA hk1 hk3 hlow hk
    have h0 := hlow 0 (by omega)
    have hk' : k = 1 ∨ k = 2 ∨ k = 3 := by omega
    rcases hk' with rfl | rfl | rfl
    · simp [Deposit, AccountRepo.WithTx, Deposit.body, AccountRepo.GetByID,
        not_le.mpr hpos, h0, hk]
    · simp [Deposit, AccountRepo.WithTx, Deposit.body, AccountRepo.UpdateBalanceTx,
        not_le.mpr hpos, h0, GetByID_of_find (hlow 1 (by omega)) hA, hk]
    · simp [Deposit, AccountRepo.WithTx, Deposit.body, AccountRepo.UpdateBalanceTx,
        TransactionRepo.CreateTx, not_le.mpr hpos, h0, GetByID_of_find (hlow 1 (by omega)) hA,
        hlow 2 (by omega), hk]
  · intro req h
    unfold PayWithCard at h ⊢
    by_cases hamt : req.Amount ≤ 0
    · rw [if_pos hamt]
    · rw [if_neg hamt] at h ⊢
      dsimp only at h ⊢
      cases hcard : CardRepo.GetByHMAC env 0 db (env.ComputeHMAC req.CardNumber env.HMACSecret) with
      | error e => rfl
      | ok card =>
        rw [hcard] at h
        exact WithTx_err env 1 5 db _ h
  · intro req h
    unfold Transfer at h ⊢
    split
    · rfl
    · split
      · rfl
      · next hamt hne =>
        rw [if_neg hamt, if_neg hne] at h
        exact WithTx_err env 0 6 db _ h
  · intro req h
    unfold Deposit at h ⊢
    split
    · rfl
    · next hamt =>
      rw [if_neg hamt] at h
      exact WithTx_err env 0 4 db _ h

/-- Witness of C7 on the funded sample store: a transfer of 20 whose log
append (statement 5) fails after both balance writes, a payment of 30 whose
log append (statement 4) fails after the balance write, a deposit whose
balance write (statement 2) fails and a deposit to an account that does not
exist each return the error of that step and leave the store as it was; a
payment whose commit fails leaves the store as it was. -/
theorem unit_of_work_atomic_witness :
    Transfer { demoEnv with fault := fun n => n == 5 } demoStoreFunded ⟨1, 2, 20⟩
      = ⟨some (Err.store 5), demoStoreFunded, []⟩ ∧
    PayWithCard { demoEnv with fault := fun n => n == 4 } demoStoreFunded
      ⟨"4000001111111111", 30, "shop"⟩ = ⟨some (Err.store 4), demoStoreFunded, []⟩ ∧
    Deposit { demoEnv with fault := fun n => n == 2 } demoStoreFunded ⟨1, 100⟩
      = ⟨some (Err.store 2), demoStoreFunded, []⟩ ∧
    Deposit demoEnv demoStoreFunded ⟨9, 100⟩ = ⟨some Err.noRows, demoStoreFunded, []⟩ ∧
    (PayWithCard { demoEnv with fault := fun n => n == 5 } demoStoreFunded
      ⟨"4000001111111111", 30, "shop"⟩).store = demoStoreFunded :=
  ⟨(unit_of_work_atomic { demoEnv with fault := fun n => n == 5 } demoStoreFunded).2.1
     ⟨1, 2, 20⟩ (Err.store 5) (by norm_num) (by decide) rfl
     (Or.inr ⟨⟨1, 10, "4000001234567899", 50⟩, by decide!,
       Or.inr ⟨⟨2, 11, "4000009876543210", 0⟩, by decide!,
         Or.inr ⟨by norm_num,
           Or.inr ⟨_, rfl, Or.inr ⟨_, rfl, by decide!⟩⟩⟩⟩⟩),
   (unit_of_work_atomic { demoEnv with fault := fun n => n == 4 } demoStoreFunded).2.2.2.1
     ⟨"4000001111111111", 30, "shop"⟩ ⟨3, 1, "", "", "", "k:4000001111111111"⟩
     ⟨1, 10, "4000001234567899", 50⟩ 4 (by norm_num) (by decide!) (by decide!) (by norm_num)
     (by omega) (by omega) (by intro j h1 h2; interval_cases j <;> rfl) rfl,
   (unit_of_work_atomic { demoEnv with fault := fun n => n == 2 } demoStoreFunded).2.2.2.2.2.1
     ⟨1, 100⟩ ⟨1, 10, "4000001234567899", 50⟩ 2 (by norm_num) (by decide!)
     (by omega) (by omega) (by intro j h1; interval_cases j <;> rfl) rfl,
   (unit_of_work_atomic demoEnv demoStoreFunded).2.2.1 ⟨9, 100⟩ Err.noRows (by norm_num) rfl
     (Or.inl (by decide!)),
   (unit_of_work_atomic { demoEnv with fault := fun n => n == 5 } demoStoreFunded).2.2.2.2.2.2.1
     ⟨"4000001111111111", 30, "shop"⟩ (by decide!)⟩

/-! ## Card lookup -/

/-- A successful `CardRepo.Create`: the stored card is the given card with its
fresh identifier, it is appended to the stored cards, and under a uniqueness
constraint no stored card had its digest. -/
theorem Create_ok {env : Env} {n k : ℕ} {db db1 : Store} {c c1 : Card}
    (h : CardRepo.Create env n k db c = .ok (db1, c1)) :
    c1 = { c with ID := env.newID k } ∧ db1 = { db with cards := db.cards ++ [c1] } ∧
    (env.cardsHMACUnique = true → ∀ x ∈ db.cards, x.HMAC ≠ c.HMAC) := by
  unfold CardRepo.Create at h
  split at h
  · cases h
  · split at h
    · cases h
    · next hno =>
      simp only [Except.ok.injEq, Prod.mk.injEq] at h
      obtain ⟨rfl, rfl⟩ := h
      refine ⟨rfl, rfl, ?_⟩
      intro hu x hx heq
      apply hno
      simp only [hu, Bool.true_and, List.any_eq_true, decide_eq_true_eq]
      exact ⟨x, hx, heq⟩

/-- The digest `GenerateCard` stores on the card it issues, and the row it
inserts. -/
theorem GenerateCard_ok {env : Env} {db db1 : Store} {accountID : UUID} {card : Card}
    (h : GenerateCard env db accountID = (.ok card, db1)) :
    card.HMAC = env.ComputeHMAC
      (generateCardNumber env.rand ++
        (fmt02d (generateExpiryDate env.now).1 ++ "/" ++
          fmt02d ((generateExpiryDate env.now).2 % 100)))
      env.HMACSecret ∧
    ∃ cvvHash, db1 = { db with cards := db.cards ++ [{ card with CVVHash := cvvHash }] } := by
  unfold GenerateCard at h
  split at h
  · cases h
  · dsimp only at h
    split at h
    · cases h
    · split at h
      · cases h
      · split at h
        · cases h
        · next cvvHash _ =>
          split at h
          · cases h
          · next dbc c1 hC =>
            obtain ⟨rfl, rfl, _⟩ := Create_ok hC
            simp only [Prod.mk.injEq, Except.ok.injEq] at h
            obtain ⟨rfl, rfl⟩ := h
            exact ⟨rfl, cvvHash, rfl⟩

/-- C6, what the code does: when `GenerateCard` has issued a card, the digest
on the card is the digest of the card number followed by the formatted
expiry, while `PayWithCard` looks up the digest of the submitted card number
alone; unless a stored card has that second digest (a collision of the keyed
digest), a payment that submits the issued card number finds no card and
returns the card-not-found error. -/
theorem issued_card_not_found (env : Env) (db db1 : Store) (accountID : UUID) (card : Card)
    (amount : Decimal) (merchant : String)
    (hgen : GenerateCard env db accountID = (.ok card, db1))
    (hfree : ∀ c ∈ db1.cards,
      c.HMAC ≠ env.ComputeHMAC (generateCardNumber env.rand) env.HMACSecret)
    (hpos : 0 < amount) :
    card.HMAC = env.ComputeHMAC
      (generateCardNumber env.rand ++
        (fmt02d (generateExpiryDate env.now).1 ++ "/" ++
          fmt02d ((generateExpiryDate env.now).2 % 100)))
      env.HMACSecret ∧
    PayWithCard env db1 ⟨generateCardNumber env.rand, amount, merchant⟩
      = ⟨some Err.cardNotFound, db1, []⟩ := by
  refine ⟨(GenerateCard_ok hgen).1, ?_⟩
  have hnone : db1.cards.find?
      (fun c => c.HMAC = env.ComputeHMAC (generateCardNumber env.rand) env.HMACSecret) = none := by
    rw [List.find?_eq_none]
    intro c hc
    simpa using hfree c hc
  unfold PayWithCard
  rw [if_neg (not_le.mpr hpos)]
  dsimp only
  unfold CardRepo.GetByHMAC
  rw [hnone]
  by_cases h0 : env.fault 0 = true
  · simp [h0]
  · simp [h0]

/-- Evaluation of C6 on sample data: the card issued for account 1 has the
number 4000003456789011 and the expiry 02/28 and is stored under the digest
of "400000345678901102/28"; a payment that submits 4000003456789011 looks up
the digest of "4000003456789011" and returns the card-not-found error. -/
theorem issued_card_not_found_witness :
    generateCardNumber demoEnv.rand = "4000003456789011" ∧
    (GenerateCard demoEnv demoStoreFunded 1).1 =
      .ok ⟨1000, 1, "pgp:4000003456789011", "pgp:02/28", "***", "k:400000345678901102/28"⟩ ∧
    PayWithCard demoEnv (GenerateCard demoEnv demoStoreFunded 1).2
      ⟨"4000003456789011", 30, "shop"⟩
      = ⟨some Err.cardNotFound, (GenerateCard demoEnv demoStoreFunded 1).2, []⟩ :=
  ⟨by decide!, by decide!,
   (issued_card_not_found demoEnv demoStoreFunded (GenerateCard demoEnv demoStoreFunded 1).2 1
      ⟨1000, 1, "pgp:4000003456789011", "pgp:02/28", "***", "k:400000345678901102/28"⟩
      30 "shop" (by decide!) (by decide!) (by norm_num)).2⟩

/-! ## Credit origination -/

theorem AddDate_month (t : Time) (h : t.Valid) :
    (t.AddDate 0 1).Valid ∧ t.Before (t.AddDate 0 1) := by
  obtain ⟨y, m, d, ns⟩ := t
  obtain ⟨h1, h2, h3, h4⟩ := h
  simp only at h1 h2 h3 h4
  have hd : d ≤ 31 := by
    unfold daysIn at h4
    split_ifs at h4 <;> omega
  unfold Time.AddDate Time.Valid Time.Before
  simp only [Nat.add_zero]
  interval_cases m <;> simp [daysIn] <;> split_ifs <;> simp_all [daysIn] <;> omega

theorem scheduleRows_succ (env : Env) (cid : UUID) (P A r : ℚ) (i count : ℕ) :
    (List.range (count + 1)).map (fun j => scheduleRow env cid P A r (i + j)) =
      scheduleRow env cid P A r i ::
        (List.range count).map (fun j => scheduleRow env cid P A r (i + 1 + j)) := by
  rw [List.range_succ_eq_map, List.map_cons, List.map_map]
  congr 1
  apply List.map_congr_left
  intro j _
  simp only [Function.comp, Nat.succ_eq_add_one]
  congr 1
  omega

/-- The loop of `ApplyCredit` produces the rows of the specification when
none of its inserts fails. -/
theorem ApplyCredit_loop_ok (env : Env) (cid : UUID) (P A r : ℚ) :
    ∀ (count i : ℕ) (tx : Store) (acc : List PaymentSchedule),
      (∀ j, j < count → env.fault (2 + i + j) = false) →
      ApplyCredit.loop env cid A r count i (remainingAfter P A r i) (dueAt env.now (i + 1)) tx acc
        = .ok ({ tx with schedules := tx.schedules ++
                  (List.range count).map (fun j => scheduleRow env cid P A r (i + j)) },
               acc ++ (List.range count).map (fun j => scheduleRow env cid P A r (i + j))) := by
  intro count
  induction count with
  | zero =>
    intro i tx acc _
    simp [ApplyCredit.loop]
  | succ count ih =>
    intro i tx acc hf
    have h0 : env.fault (2 + i) = false := by simpa using hf 0 (Nat.succ_pos count)
    have hrest : ∀ j, j < count → env.fault (2 + (i + 1) + j) = false := by
      intro j hj
      have := hf (j + 1) (Nat.succ_lt_succ hj)
      rw [← this]
      congr 1
      omega
    unfold ApplyCredit.loop
    simp only [ScheduleRepo.CreateTx, h0, Bool.false_eq_true, ↓reduceIte]
    have := ih (i + 1) { tx with schedules := tx.schedules ++ [scheduleRow env cid P A r i] }
      (acc ++ [scheduleRow env cid P A r i]) hrest
    rw [scheduleRows_succ]
    simp only [List.append_assoc, List.singleton_append] at this
    exact this

/-- A loop of `ApplyCredit` that returns rows had no failing insert. -/
theorem ApplyCredit_loop_faults (env : Env) (cid : UUID) (A r : ℚ) :
    ∀ (count i : ℕ) (rem : ℚ) (due : Time) (tx : Store) (acc : List PaymentSchedule)
      (x : Store × List PaymentSchedule),
      ApplyCredit.loop env cid A r count i rem due tx acc = .ok x →
      ∀ j, j < count → env.fault (2 + i + j) = false := by
  intro count
  induction count with
  | zero => intro i rem due tx acc x _ j hj; omega
  | succ count ih =>
    intro i rem due tx acc x h j hj
    unfold ApplyCredit.loop at h
    simp only [ScheduleRepo.CreateTx] at h
    by_cases h0 : env.fault (2 + i) = true
    · simp [h0] at h
    · simp only [h0, Bool.false_eq_true, ↓reduceIte] at h
      cases j with
      | zero => simpa using h0
      | succ j =>
        have := ih _ _ _ _ _ _ h j (Nat.lt_of_succ_lt_succ hj)
        rw [← this]
        congr 1
        omega

/-- The result of `ApplyCredit` when the request is valid, the installment is
defined and no store statement of the call fails. -/
theorem ApplyCredit_ok (env : Env) (db : Store) (userID : UUID) (req : ApplyCreditRequest)
    (r A : ℚ) (hP : 0 < req.Principal) (hn : 0 < req.TermMonths)
    (hr : Decimal.Div (annualRate env) 12 = some r)
    (hA : annuityOf req.Principal r req.TermMonths = some A)
    (hf : ∀ j, j ≤ 2 + req.TermMonths.toNat → env.fault j = false) :
    ApplyCredit env db userID req =
      (.ok (⟨env.newID 0, userID, req.AccountID, req.Principal, annualRate env, req.TermMonths,
              req.Principal⟩,
            (List.range req.TermMonths.toNat).map
              (fun j => scheduleRow env (env.newID 0) req.Principal A r j)),
       { db with
         credits := db.credits ++
           [⟨env.newID 0, userID, req.AccountID, req.Principal, annualRate env, req.TermMonths,
             req.Principal⟩],
         schedules := db.schedules ++ (List.range req.TermMonths.toNat).map
           (fun j => scheduleRow env (env.newID 0) req.Principal A r j) }) := by
  have hloop := ApplyCredit_loop_ok env (env.newID 0) req.Principal A r req.TermMonths.toNat 0
    { db with credits := db.credits ++
        [⟨env.newID 0, userID, req.AccountID, req.Principal, annualRate env, req.TermMonths,
          req.Principal⟩] } []
    (fun j hj => hf _ (by omega))
  simp only [Nat.zero_add, List.nil_append, remainingAfter, dueAt] at hloop
  unfold ApplyCredit
  rw [if_neg (not_le.mpr hP), if_neg (not_le.mpr hn)]
  simp only [hr, hA, CreditRepo.WithTx, ApplyCredit.body, CreditRepo.CreateTx,
    hf 0 (by omega), hf 1 (by omega), hf (2 + req.TermMonths.toNat) (le_refl _),
    Bool.false_eq_true, ↓reduceIte, hloop]

/-- A successful `ApplyCredit` had a valid request, a defined installment and
no failing store statement. -/
theorem ApplyCredit_of_ok {env : Env} {db db1 : Store} {userID : UUID}
    {req : ApplyCreditRequest} {credit : Credit} {schedules : List PaymentSchedule}
    (h : ApplyCredit env db userID req = (.ok (credit, schedules), db1)) :
    0 < req.Principal ∧ 0 < req.TermMonths ∧
    ∃ r A, Decimal.Div (annualRate env) 12 = some r ∧
      annuityOf req.Principal r req.TermMonths = some A ∧
      ∀ j, j ≤ 2 + req.TermMonths.toNat → env.fault j = false := by
  unfold ApplyCredit at h
  by_cases hP : req.Principal ≤ 0
  · simp [hP] at h
  by_cases hn : req.TermMonths ≤ 0
  · simp [hP, hn] at h
  rw [if_neg hP, if_neg hn] at h
  refine ⟨not_le.mp hP, not_le.mp hn, ?_⟩
  cases hr : Decimal.Div (annualRate env) 12 with
  | none => simp [hr] at h
  | some r =>
    cases hA : annuityOf req.Principal r req.TermMonths with
    | none => simp [hr, hA] at h
    | some A =>
      refine ⟨r, A, rfl, hA, ?_⟩
      simp only [hr, hA, CreditRepo.WithTx, ApplyCredit.body, CreditRepo.CreateTx] at h
      by_cases h0 : env.fault 0 = true
      · simp [h0] at h
      by_cases h1 : env.fault 1 = true
      · simp [h0, h1] at h
      simp only [h0, h1, Bool.false_eq_true, ↓reduceIte] at h
      split at h
      · cases h
      · next tx c s heq =>
        split at heq
        · cases heq
        · next tx2 s2 hl =>
          by_cases hc : env.fault (2 + req.TermMonths.toNat) = true
          · simp [hc] at h
          · have hfl := ApplyCredit_loop_faults env _ _ _ _ _ _ _ _ _ _ hl
            intro j hj
            rcases Nat.lt_or_ge j 2 with hj2 | hj2
            · interval_cases j
              · simpa using h0
              · simpa using h1
            · rcases Nat.eq_or_lt_of_le hj with hje | hjl
              · rw [hje]; simpa using hc
              · have := hfl (j - 2) (by omega)
                rw [← this]
                congr 1
                omega

theorem annualRate_ok {env : Env} {a : ℚ} (h : env.fetchCBRRate env.now = .ok a) (ha : 0 < a) :
    annualRate env = a := by
  simp [annualRate, h, not_le.mpr ha]

theorem Decimal.Round_nonneg {x : ℚ} (hx : 0 ≤ x) (k : ℕ) : 0 ≤ Decimal.Round x k := by
  unfold Decimal.Round
  have hs : 0 ≤ x * (10 : ℚ) ^ k := mul_nonneg hx (by positivity)
  have hfl : (0 : ℤ) ≤ ⌊x * (10 : ℚ) ^ k + 1 / 2⌋ := Int.floor_nonneg.mpr (by linarith)
  simp only [hs, ↓reduceIte]
  exact div_nonneg (by exact_mod_cast hfl) (by positivity)

theorem annuity_den_ne {r : ℚ} {n : ℤ} (hr : 0 < r) (hn : 0 < n) :
    Decimal.Pow (r + 1) n - 1 ≠ 0 := by
  unfold Decimal.Pow
  have h1 : (1 : ℚ) < r + 1 := by linarith
  have hn0 : n.toNat ≠ 0 := by omega
  have := one_lt_pow₀ h1 hn0
  linarith

/-- Counterexample to C8 as stated: with the rate 0.1, the principal 3 and
the term 1, `ApplyCredit` succeeds and the one row of the schedule has the
amount 3.02, while `P * r * (1+r)^n / ((1+r)^n - 1)` with `r = a / 12`,
rounded to 2 decimal places, is 3.03 (the exact value is 3.025; the code
divides with the monthly rate 0.0083333333333333 and gets
3.0249999999999999). -/
theorem installment_counterexample :
    (0 : ℚ) < 3 ∧ (0 : ℤ) < 1 ∧ (0 : ℚ) < 0.1 ∧
    annualRate demoEnvTenPercent = 0.1 ∧
    ((ApplyCredit demoEnvTenPercent demoStore 10 ⟨1, 3, 1⟩).1.map
      (fun r => r.2.map (fun row => row.Amount))) = .ok [3.02] ∧
    installmentSpec 3 0.1 1 = 3.03 ∧
    (3.02 : ℚ) ≠ 3.03 := by
  refine ⟨by norm_num, by norm_num, by norm_num, by decide!, by decide!, by decide!, by norm_num⟩

/-- C8, amended (annuity installment).  For every principal `P > 0`, term
`n > 0` and annual rate `a > 0` of the rate source whose monthly rate
`r = a / 12` rounded to 16 decimal places is not zero, when no store
statement fails `ApplyCredit` succeeds with `n` schedule rows, and the amount
of every row is `P * r * (1+r)^n / ((1+r)^n - 1)` rounded first to 16 decimal
places and then to 2, halves away from zero both times. -/
theorem installment_amended (env : Env) (db : Store) (userID : UUID)
    (req : ApplyCreditRequest) (a : ℚ) (hnf : env.NoFault)
    (hP : 0 < req.Principal) (hn : 0 < req.TermMonths) (ha : 0 < a)
    (hrate : env.fetchCBRRate env.now = .ok a)
    (hr : Decimal.Round (a / 12) 16 ≠ 0) :
    ∃ credit schedules db1,
      ApplyCredit env db userID req = (.ok (credit, schedules), db1) ∧
      schedules.length = req.TermMonths.toNat ∧
      ∀ row ∈ schedules, row.Amount =
        Decimal.Round (Decimal.Round
          (req.Principal * Decimal.Round (a / 12) 16
              * (1 + Decimal.Round (a / 12) 16) ^ req.TermMonths.toNat
            / ((1 + Decimal.Round (a / 12) 16) ^ req.TermMonths.toNat - 1)) 16) 2 := by
  have hdiv : Decimal.Div (annualRate env) 12 = some (Decimal.Round (a / 12) 16) := by
    simp [Decimal.Div, annualRate_ok hrate ha, DivisionPrecision]
  have hrpos : 0 < Decimal.Round (a / 12) 16 :=
    lt_of_le_of_ne (Decimal.Round_nonneg (by positivity) 16) (Ne.symm hr)
  have hden := annuity_den_ne hrpos hn
  have hA : annuityOf req.Principal (Decimal.Round (a / 12) 16) req.TermMonths =
      some (Decimal.Round (Decimal.Round
          (req.Principal * Decimal.Round (a / 12) 16
              * (1 + Decimal.Round (a / 12) 16) ^ req.TermMonths.toNat
            / ((1 + Decimal.Round (a / 12) 16) ^ req.TermMonths.toNat - 1)) 16) 2) := by
    unfold annuityOf Decimal.Div
    simp only [hden, ↓reduceIte, DivisionPrecision]
    simp only [Decimal.Pow, add_comm (Decimal.Round (a / 12) 16) 1]
  refine ⟨_, _, _, ApplyCredit_ok env db userID req _ _ hP hn hdiv hA (fun j _ => hnf j), ?_, ?_⟩
  · simp
  · intro row hrow
    simp only [List.mem_map] at hrow
    obtain ⟨j, _, rfl⟩ := hrow
    rfl

/-- Witness of C8 amended: with the principal 120000, the rate 0.12 and the
term 12, on the sample store, the amount of every row is 10661.85. -/
theorem installment_amended_witness :
    (∃ credit schedules db1,
      ApplyCredit demoEnv demoStore 10 ⟨1, 120000, 12⟩ = (.ok (credit, schedules), db1) ∧
      schedules.length = 12 ∧
      ∀ row ∈ schedules, row.Amount =
        Decimal.Round (Decimal.Round
          ((120000 : ℚ) * Decimal.Round (0.12 / 12) 16 * (1 + Decimal.Round (0.12 / 12) 16) ^ 12
            / ((1 + Decimal.Round (0.12 / 12) 16) ^ 12 - 1)) 16) 2) ∧
    Decimal.Round (Decimal.Round
      ((120000 : ℚ) * Decimal.Round (0.12 / 12) 16 * (1 + Decimal.Round (0.12 / 12) 16) ^ 12
        / ((1 + Decimal.Round (0.12 / 12) 16) ^ 12 - 1)) 16) 2 = 10661.85 :=
  ⟨installment_amended demoEnv demoStore 10 ⟨1, 120000, 12⟩ 0.12 (fun _ => rfl) (by norm_num)
      (by decide) (by norm_num) rfl (by decide!),
   by decide!⟩

theorem Time.Before_trans {a b c : Time} (hab : a.Before b) (hbc : b.Before c) : a.Before c := by
  unfold Time.Before at *
  omega

theorem dueAt_valid (t : Time) (h : t.Valid) : ∀ k, (dueAt t k).Valid
  | 0 => h
  | k + 1 => (AddDate_month _ (dueAt_valid t h k)).1

theorem dueAt_before (t : Time) (h : t.Valid) :
    ∀ i j, i < j → (dueAt t i).Before (dueAt t j) := by
  intro i j hij
  induction j with
  | zero => omega
  | succ j ih =>
    have hstep : (dueAt t j).Before (dueAt t (j + 1)) :=
      (AddDate_month _ (dueAt_valid t h j)).2
    rcases Nat.eq_or_lt_of_le (Nat.lt_succ_iff.mp hij) with rfl | hlt
    · exact hstep
    · exact Time.Before_trans (ih hlt) hstep

/-- C9 (the schedule is the amortization recurrence).  A successful
`ApplyCredit` for the principal `P` and the term `n` returns exactly `n` rows,
in order, all with the identifier of the created credit, and inserts the
credit and these rows.  With `rem_0 = P`, the monthly rate `r` and the
installment `A` of the call, the row after `i` rows has the interest
`round2(rem_i * r)`, the principal part `round2(A - Interest)`, the amount
`A`, `Paid = false` and the due date `i + 1` single calendar months after the
time of the call, and `rem_(i+1) = round2(rem_i - Principal)`.  When the time
of the call is a calendar date, each due date is strictly after the time of
the call and after every earlier due date. -/
theorem schedule_recurrence (env : Env) (db : Store) (userID : UUID)
    (req : ApplyCreditRequest) (credit : Credit) (schedules : List PaymentSchedule)
    (h : (ApplyCredit env db userID req).1 = .ok (credit, schedules))
    (hvalid : env.now.Valid) :
    0 < req.Principal ∧ 0 < req.TermMonths ∧
    schedules.length = req.TermMonths.toNat ∧
    (ApplyCredit env db userID req).2 =
      { db with credits := db.credits ++ [credit], schedules := db.schedules ++ schedules } ∧
    (∃ r A, Decimal.Div (annualRate env) 12 = some r ∧
      annuityOf req.Principal r req.TermMonths = some A ∧
      ∀ i, i < req.TermMonths.toNat → schedules[i]? = some
        { ID := env.newID (1 + i), CreditID := credit.ID, DueDate := dueAt env.now (i + 1),
          Amount := A, Principal := principalOf req.Principal A r i,
          Interest := interestOf req.Principal A r i, Paid := false }) ∧
    (∀ i j, i < j → (dueAt env.now i).Before (dueAt env.now j)) := by
  have hpair : ApplyCredit env db userID req =
      (.ok (credit, schedules), (ApplyCredit env db userID req).2) := Prod.ext h rfl
  obtain ⟨hP, hn, r, A, hr, hA, hf⟩ := ApplyCredit_of_ok hpair
  rw [ApplyCredit_ok env db userID req r A hP hn hr hA hf] at h ⊢
  simp only [Prod.mk.injEq, Except.ok.injEq] at h
  obtain ⟨rfl, rfl⟩ := h
  refine ⟨hP, hn, by simp, rfl, ⟨r, A, hr, hA, ?_⟩, dueAt_before env.now hvalid⟩
  intro i hi
  simp [List.getElem?_map, List.getElem?_range hi, scheduleRow]

/-- Witness of C9: on the sample store, the credit of 1000 over 2 months at
12% has the installment 507.51 and the rows (497.51, 10.00) due 2025-03-01
and (502.49, 5.02) due 2025-04-01. -/
theorem schedule_recurrence_witness :
    ApplyCredit demoEnv demoStore 10 ⟨1, 1000, 2⟩ =
      (.ok (⟨1000, 10, 1, 1000, 0.12, 2, 1000⟩,
            [⟨1001, 1000, ⟨2025, 3, 1, 0⟩, 507.51, 497.51, 10, false⟩,
             ⟨1002, 1000, ⟨2025, 4, 1, 0⟩, 507.51, 502.49, 5.02, false⟩]),
       { demoStore with
         credits := demoStore.credits ++ [⟨1000, 10, 1, 1000, 0.12, 2, 1000⟩],
         schedules := demoStore.schedules ++
           [⟨1001, 1000, ⟨2025, 3, 1, 0⟩, 507.51, 497.51, 10, false⟩,
            ⟨1002, 1000, ⟨2025, 4, 1, 0⟩, 507.51, 502.49, 5.02, false⟩] }) ∧
    (∃ r A, Decimal.Div (annualRate demoEnv) 12 = some r ∧
      annuityOf 1000 r 2 = some A ∧
      ∀ i, i < 2 →
        [(⟨1001, 1000, ⟨2025, 3, 1, 0⟩, 507.51, 497.51, 10, false⟩ : PaymentSchedule),
         ⟨1002, 1000, ⟨2025, 4, 1, 0⟩, 507.51, 502.49, 5.02, false⟩][i]? = some
        { ID := demoEnv.newID (1 + i), CreditID := 1000, DueDate := dueAt demoEnv.now (i + 1),
          Amount := A, Principal := principalOf 1000 A r i,
          Interest := interestOf 1000 A r i, Paid := false }) :=
  ⟨by decide!,
   (schedule_recurrence demoEnv demoStore 10 ⟨1, 1000, 2⟩ ⟨1000, 10, 1, 1000, 0.12, 2, 1000⟩
      [⟨1001, 1000, ⟨2025, 3, 1, 0⟩, 507.51, 497.51, 10, false⟩,
       ⟨1002, 1000, ⟨2025, 4, 1, 0⟩, 507.51, 502.49, 5.02, false⟩]
      (by decide!) (by decide)).2.2.2.2.1⟩

/-- C10 (the principal is repaid to within a few cents).  For the principal
120000, the term 12 and the annual rate 0.12 (given by the rate source or
taken as the default), when no store statement fails `ApplyCredit` succeeds
with exactly 12 rows, whose principal parts sum to 119999.94: the sum differs
from 120000 by less than 0.10. -/
theorem principal_repaid (env : Env) (db : Store) (userID accountID : UUID)
    (hnf : env.NoFault) (hrate : annualRate env = 0.12) :
    ∃ credit schedules db1,
      ApplyCredit env db userID ⟨accountID, 120000, 12⟩ = (.ok (credit, schedules), db1) ∧
      schedules.length = 12 ∧
      (schedules.map (fun row => row.Principal)).sum = 119999.94 ∧
      |(schedules.map (fun row => row.Principal)).sum - 120000| < 0.10 := by
  have hr : Decimal.Div (annualRate env) 12 = some 0.01 := by
    rw [hrate]
    decide!
  have hA : annuityOf 120000 0.01 12 = some 10661.85 := by decide!
  have hsum : ((List.range 12).map (fun j => principalOf 120000 10661.85 0.01 j)).sum
      = 119999.94 := by decide!
  have hok := ApplyCredit_ok env db userID ⟨accountID, 120000, 12⟩ 0.01 10661.85
    (by norm_num) (by norm_num) hr hA (fun j _ => hnf j)
  have hmap : ((List.range 12).map
      (fun j => scheduleRow env (env.newID 0) 120000 10661.85 0.01 j)).map
        (fun row => row.Principal)
      = (List.range 12).map (fun j => principalOf 120000 10661.85 0.01 j) := by
    rw [List.map_map]
    rfl
  refine ⟨_, _, _, hok, by simp, ?_, ?_⟩
  · rw [show ((12 : ℤ).toNat) = 12 from rfl, hmap, hsum]
  · rw [show ((12 : ℤ).toNat) = 12 from rfl, hmap, hsum]
    norm_num [abs_lt]

/-- Witness of C10: the sample environment has no failing statement and its
rate source gives 0.12. -/
theorem principal_repaid_witness :
    ∃ credit schedules db1,
      ApplyCredit demoEnv demoStore 10 ⟨1, 120000, 12⟩ = (.ok (credit, schedules), db1) ∧
      schedules.length = 12 ∧
      (schedules.map (fun row => row.Principal)).sum = 119999.94 ∧
      |(schedules.map (fun row => row.Principal)).sum - 120000| < 0.10 :=
  principal_repaid demoEnv demoStore 10 1 (fun _ => rfl) (by decide!)

/-! ## Validation of credit requests -/

/-- An error of the loop of `ApplyCredit` is the driver error of one of its
inserts. -/
theorem ApplyCredit_loop_error (env : Env) (cid : UUID) (A r : ℚ) :
    ∀ (count i : ℕ) (rem : ℚ) (due : Time) (tx : Store) (acc : List PaymentSchedule) (e : Err),
      ApplyCredit.loop env cid A r count i rem due tx acc = .error e → ∃ n, e = Err.store n := by
  intro count
  induction count with
  | zero =>
    intro i rem due tx acc e h
    simp [ApplyCredit.loop] at h
  | succ count ih =>
    intro i rem due tx acc e h
    unfold ApplyCredit.loop at h
    simp only [ScheduleRepo.CreateTx] at h
    by_cases h0 : env.fault (2 + i) = true
    · simp only [h0, ↓reduceIte, Except.error.injEq] at h
      exact ⟨_, h.symm⟩
    · simp only [h0, Bool.false_eq_true, ↓reduceIte] at h
      exact ih _ _ _ _ _ _ h

/-- After the two validation guards, an error of `ApplyCredit` is the
division panic or the driver error of a store statement. -/
theorem ApplyCredit_error_kind {env : Env} {db : Store} {userID : UUID}
    {req : ApplyCreditRequest} {e : Err} (hP : 0 < req.Principal) (hn : 0 < req.TermMonths)
    (h : (ApplyCredit env db userID req).1 = .error e) :
    e = Err.divisionByZero ∨ ∃ n, e = Err.store n := by
  unfold ApplyCredit at h
  rw [if_neg (not_le.mpr hP), if_neg (not_le.mpr hn)] at h
  dsimp only at h
  cases hr : Decimal.Div (annualRate env) 12 with
  | none =>
    simp only [hr, Except.error.injEq] at h
    exact Or.inl h.symm
  | some r =>
    cases hA : annuityOf req.Principal r req.TermMonths with
    | none =>
      simp only [hr, hA, Except.error.injEq] at h
      exact Or.inl h.symm
    | some A =>
      simp only [hr, hA, CreditRepo.WithTx, ApplyCredit.body, CreditRepo.CreateTx] at h
      right
      by_cases h0 : env.fault 0 = true
      · simp only [h0, ↓reduceIte, Except.error.injEq] at h
        exact ⟨_, h.symm⟩
      by_cases h1 : env.fault 1 = true
      · simp only [h0, h1, Bool.false_eq_true, ↓reduceIte, Except.error.injEq] at h
        exact ⟨_, h.symm⟩
      simp only [h0, h1, Bool.false_eq_true, ↓reduceIte] at h
      split at h
      · next e1 heq =>
        split at heq
        · next e2 hl =>
          simp only [Except.error.injEq] at heq h
          obtain ⟨n, hn2⟩ := ApplyCredit_loop_error env _ _ _ _ _ _ _ _ _ _ hl
          exact ⟨n, by rw [← h, ← heq, hn2]⟩
        · cases heq
      · next tx c s heq =>
        by_cases hc : env.fault (2 + req.TermMonths.toNat) = true
        · simp only [hc, ↓reduceIte, Except.error.injEq] at h
          exact ⟨_, h.symm⟩
        · simp [hc] at h

/-- C11 (validation of `ApplyCredit`).  For every store, environment and
request: when the principal is not positive or the term is not positive,
`ApplyCredit` returns a validation error with no credit and no schedule and
the store is the store before the call (no credit row, no schedule row
inserted); when the principal and the term are positive, neither validation
error is returned. -/
theorem applyCredit_validation (env : Env) (db : Store) (userID : UUID)
    (req : ApplyCreditRequest) :
    (req.Principal ≤ 0 →
      ApplyCredit env db userID req = (.error Err.principalNotPositive, db)) ∧
    (0 < req.Principal → req.TermMonths ≤ 0 →
      ApplyCredit env db userID req = (.error Err.termNotPositive, db)) ∧
    (0 < req.Principal → 0 < req.TermMonths →
      (ApplyCredit env db userID req).1 ≠ .error Err.principalNotPositive ∧
      (ApplyCredit env db userID req).1 ≠ .error Err.termNotPositive) := by
  refine ⟨?_, ?_, ?_⟩
  · intro h
    unfold ApplyCredit
    rw [if_pos h]
  · intro hP h
    unfold ApplyCredit
    rw [if_neg (not_le.mpr hP), if_pos h]
  · intro hP hn
    constructor
    · intro h
      rcases ApplyCredit_error_kind hP hn h with h1 | ⟨n, h1⟩ <;> cases h1
    · intro h
      rcases ApplyCredit_error_kind hP hn h with h1 | ⟨n, h1⟩ <;> cases h1

/-- Witness of C11: on the sample store, requests with the principal 0, with
the principal -5 and with the term 0 are rejected and leave the store as it
was, and the request for 1000 over 2 months returns a credit. -/
theorem applyCredit_validation_witness :
    ApplyCredit demoEnv demoStore 10 ⟨1, 0, 12⟩ = (.error Err.principalNotPositive, demoStore) ∧
    ApplyCredit demoEnv demoStore 10 ⟨1, -5, 0⟩ = (.error Err.principalNotPositive, demoStore) ∧
    ApplyCredit demoEnv demoStore 10 ⟨1, 1000, 0⟩ = (.error Err.termNotPositive, demoStore) ∧
    (ApplyCredit demoEnv demoStore 10 ⟨1, 1000, 2⟩).1 ≠ .error Err.principalNotPositive ∧
    (ApplyCredit demoEnv demoStore 10 ⟨1, 1000, 2⟩).1 ≠ .error Err.termNotPositive :=
  ⟨(applyCredit_validation demoEnv demoStore 10 ⟨1, 0, 12⟩).1 (by norm_num),
   (applyCredit_validation demoEnv demoStore 10 ⟨1, -5, 0⟩).1 (by norm_num),
   (applyCredit_validation demoEnv demoStore 10 ⟨1, 1000, 0⟩).2.1 (by norm_num) (by norm_num),
   (applyCredit_validation demoEnv demoStore 10 ⟨1, 1000, 2⟩).2.2 (by norm_num) (by norm_num)⟩

/-! ## Collector -/

/-- The store after the unit of work of a due row none of whose statements
fails. -/
theorem row_noFault (env : Env) (k : ℕ) (db : Store) (sch : PaymentSchedule)
    (hf : ∀ i, i ≤ 6 → env.fault (1 + 7 * k + i) = false) :
    (ProcessScheduledPayments.row env k db sch).1 =
      match db.credits.find? (fun c => c.ID = sch.CreditID) with
      | none => db
      | some cr =>
        match db.accounts.find? (fun a => a.ID = cr.AccountID) with
        | none => db
        | some acc => if acc.Balance < sch.Amount then db else settled db sch acc (env.newID k) := by
  have h0 := hf 0 (by omega)
  have h1 := hf 1 (by omega)
  have h2 := hf 2 (by omega)
  have h3 := hf 3 (by omega)
  have h4 := hf 4 (by omega)
  have h5 := hf 5 (by omega)
  have h6 := hf 6 (by omega)
  simp only [Nat.add_zero] at h0
  rw [row_store]
  unfold AccountRepo.WithTx ProcessScheduledPayments.body CreditRepo.GetByID AccountRepo.GetByID
  simp only [h0, h1, h2, Bool.false_eq_true, ↓reduceIte]
  cases hcr : db.credits.find? (fun c => c.ID = sch.CreditID) with
  | none => simp
  | some cr =>
    cases hacc : db.accounts.find? (fun a => a.ID = cr.AccountID) with
    | none => simp [hacc]
    | some acc =>
      by_cases hlt : acc.Balance < sch.Amount
      · simp [hacc, hlt, h6]
      · simp [hacc, hlt, h3, h4, h5, h6, AccountRepo.UpdateBalanceTx, TransactionRepo.CreateTx,
          ScheduleRepo.UpdatePaidTx, settled]

theorem GetDueSchedules_ok {env : Env} {db : Store} (h0 : env.fault 0 = false) :
    ScheduleRepo.GetDueSchedules env 0 db env.now = .ok (dueRows env.now db) := by
  simp [ScheduleRepo.GetDueSchedules, h0, dueRows]

/-- The store after a collector run does not depend on the effects collected
before. -/
theorem loop_store_effects (env : Env) (due : List PaymentSchedule) :
    ∀ (k : ℕ) (db : Store) (eff eff1 : List Effect),
      (ProcessScheduledPayments.loop env k due db eff).1 =
        (ProcessScheduledPayments.loop env k due db eff1).1 := by
  induction due with
  | nil => intro k db eff eff1; rfl
  | cons sch rest ih =>
    intro k db eff eff1
    unfold ProcessScheduledPayments.loop
    exact ih _ _ _ _

/-- C12 (the collector settles a due row).  When no store statement fails and
the store has exactly one due, unpaid schedule row, whose identifier is that
of no other row, whose credit exists and whose credit's account exists with a
balance of at least the amount of the row, `ProcessScheduledPayments` returns
no error, marks that row paid and leaves the other rows as they were, appends
exactly one transaction, of type "credit_payment", from that account, without
destination and of the amount of the row, lowers the balance of that account
by exactly the amount, and leaves every other balance, the other columns of
the accounts, the cards and the credits as they were. -/
theorem collector_settles (env : Env) (db : Store) (sch : PaymentSchedule) (cr : Credit)
    (b : Decimal) (hnf : env.NoFault)
    (hdue : dueRows env.now db = [sch])
    (hkey : ∀ s ∈ db.schedules, s.ID = sch.ID → s = sch)
    (hcr : db.credits.find? (fun c => c.ID = sch.CreditID) = some cr)
    (hacc : balanceOf db cr.AccountID = some b)
    (hbal : sch.Amount ≤ b) :
    (ProcessScheduledPayments env db).err = none ∧
    (ProcessScheduledPayments env db).store.schedules =
      db.schedules.map (fun s => if s = sch then { s with Paid := true } else s) ∧
    (ProcessScheduledPayments env db).store.transactions = db.transactions ++
      [{ ID := env.newID 0, From := some cr.AccountID, To := none, Amount := sch.Amount,
         TransactionType := "credit_payment",
         Note := "очередной платёж по кредиту " ++ toString sch.CreditID }] ∧
    balanceOf (ProcessScheduledPayments env db).store cr.AccountID = some (b - sch.Amount) ∧
    (∀ id, id ≠ cr.AccountID →
      balanceOf (ProcessScheduledPayments env db).store id = balanceOf db id) ∧
    (ProcessScheduledPayments env db).store.accounts.map (fun a => (a.ID, a.UserID, a.Number))
      = db.accounts.map (fun a => (a.ID, a.UserID, a.Number)) ∧
    (ProcessScheduledPayments env db).store.cards = db.cards ∧
    (ProcessScheduledPayments env db).store.credits = db.credits := by
  obtain ⟨acc, hA, rfl⟩ := balanceOf_some hacc
  have hid := find_id hA
  have hrow : (ProcessScheduledPayments.row env 0 db sch).1 = settled db sch acc (env.newID 0) := by
    rw [row_noFault env 0 db sch (fun i _ => hnf _), hcr]
    simp only [hA, not_lt.mpr hbal, ↓reduceIte]
  have hrun : ProcessScheduledPayments env db =
      ⟨none, settled db sch acc (env.newID 0),
        (ProcessScheduledPayments.loop env 0 [sch] db []).2⟩ := by
    unfold ProcessScheduledPayments
    rw [GetDueSchedules_ok (hnf 0), hdue]
    simp only [ProcessScheduledPayments.loop, hrow]
  rw [hrun]
  have hidf : ∀ a : Account,
      ((fun a : Account =>
          if a.ID = acc.ID then { a with Balance := acc.Balance - sch.Amount } else a) a).ID
        = a.ID := by
    intro a
    dsimp only
    split <;> rfl
  have hbalmap := fun id => balanceOf_map db (settled db sch acc (env.newID 0)) _ id rfl hidf
  refine ⟨rfl, ?_, ?_, ?_, ?_, ?_, rfl, rfl⟩
  · simp only [settled]
    apply List.map_congr_left
    intro s hs
    by_cases h1 : s.ID = sch.ID
    · have := hkey s hs h1
      simp [this]
    · have : s ≠ sch := fun e => h1 (by rw [e])
      simp [h1, this]
  · simp [settled, hid]
  · rw [hbalmap, hA]
    simp [hid]
  · intro id hne
    rw [hbalmap]
    unfold balanceOf
    cases hf : db.accounts.find? (fun a => a.ID = id) with
    | none => rfl
    | some a =>
      have := find_id hf
      simp [hid, this, hne, hf]
  · simp only [settled, List.map_map]
    apply List.map_congr_left
    intro a _
    simp only [Function.comp]
    split <;> rfl

/-- Witness of C12: on the funded sample store (50 on account 1, one unpaid
row of 40 due on 2025-01-15) at 2025-02-01, the collector marks the row paid,
logs one payment of 40 and leaves 10 on account 1. -/
theorem collector_settles_witness :
    ProcessScheduledPayments demoEnv demoStoreFunded =
      ⟨none,
       { demoStoreFunded with
         accounts := [⟨1, 10, "4000001234567899", 10⟩, ⟨2, 11, "4000009876543210", 0⟩],
         transactions := [⟨1000, some 1, none, 40, "credit_payment",
           "очередной платёж по кредиту 5"⟩],
         schedules := [⟨6, 5, ⟨2025, 1, 15, 0⟩, 40, 39, 1, true⟩] },
       []⟩ ∧
    balanceOf (ProcessScheduledPayments demoEnv demoStoreFunded).store 1 = some (50 - 40) :=
  ⟨by decide!,
   (collector_settles demoEnv demoStoreFunded ⟨6, 5, ⟨2025, 1, 15, 0⟩, 40, 39, 1, false⟩
      ⟨5, 10, 1, 100, 0.12, 1, 100⟩ 50 (fun _ => rfl) (by decide!) (by decide!) (by decide!)
      (by decide!) (by norm_num)).2.2.2.1⟩

/-- The loop over a list of due rows in two parts: the rows of the second
part are processed from the store the first part leaves, with the positions
that follow. -/
theorem loop_append (env : Env) (pre post : List PaymentSchedule) :
    ∀ (k : ℕ) (db : Store) (eff : List Effect),
      ProcessScheduledPayments.loop env k (pre ++ post) db eff =
        ProcessScheduledPayments.loop env (k + pre.length) post
          (ProcessScheduledPayments.loop env k pre db eff).1
          (ProcessScheduledPayments.loop env k pre db eff).2 := by
  induction pre with
  | nil => intro k db eff; rfl
  | cons sch rest ih =>
    intro k db eff
    have h := ih (k + 1) (ProcessScheduledPayments.row env k db sch).1
      (eff ++ (ProcessScheduledPayments.row env k db sch).2)
    have hk : k + (rest.length + 1) = k + 1 + rest.length := by omega
    rw [List.cons_append, List.length_cons, hk]
    exact h

/-- The collector returns no error when its query succeeds. -/
theorem collector_no_error (env : Env) (db : Store) (h0 : env.fault 0 = false) :
    (ProcessScheduledPayments env db).err = none := by
  unfold ProcessScheduledPayments
  rw [GetDueSchedules_ok h0]

/-- The store after a collector run whose due rows are `pre`, `sch` and
`post`, when the processing of `sch` leaves the store as it finds it: the rows
of `post` are processed from the store that `pre` leaves. -/
theorem collector_skip (env : Env) (db : Store) (pre post : List PaymentSchedule)
    (sch : PaymentSchedule)
    (hq : ScheduleRepo.GetDueSchedules env 0 db env.now = .ok (pre ++ sch :: post))
    (hrow : (ProcessScheduledPayments.row env pre.length
        (ProcessScheduledPayments.loop env 0 pre db []).1 sch).1
      = (ProcessScheduledPayments.loop env 0 pre db []).1) :
    (ProcessScheduledPayments env db).store =
      (ProcessScheduledPayments.loop env (pre.length + 1) post
        (ProcessScheduledPayments.loop env 0 pre db []).1 []).1 := by
  unfold ProcessScheduledPayments
  rw [hq]
  simp only [loop_append, ProcessScheduledPayments.loop, Nat.zero_add, hrow]
  exact loop_store_effects env post _ _ _ _

/-- C14 (the collector defers on insufficient funds).  In every run of the
collector whose query succeeds, for every due row `sch` (after the due rows
`pre`, before the due rows `post`) whose credit's account has, in the store
the earlier rows leave, a balance below the amount of the row: the run
returns no error; the processing of the row leaves that store exactly as it
was (the row is still unpaid, no transaction is appended, the balance is
unchanged), whatever statements fail; when the statements of the row succeed
its only effect is the warning in the log; and the later rows are processed
from that same store. -/
theorem collector_defers (env : Env) (db : Store) (pre post : List PaymentSchedule)
    (sch : PaymentSchedule) (cr : Credit) (b : Decimal)
    (hq : ScheduleRepo.GetDueSchedules env 0 db env.now = .ok (pre ++ sch :: post))
    (hcr : (ProcessScheduledPayments.loop env 0 pre db []).1.credits.find?
      (fun c => c.ID = sch.CreditID) = some cr)
    (hacc : balanceOf (ProcessScheduledPayments.loop env 0 pre db []).1 cr.AccountID = some b)
    (hlt : b < sch.Amount) :
    (ProcessScheduledPayments env db).err = none ∧
    (ProcessScheduledPayments.row env pre.length
        (ProcessScheduledPayments.loop env 0 pre db []).1 sch).1
      = (ProcessScheduledPayments.loop env 0 pre db []).1 ∧
    ((∀ i, i ≤ 6 → env.fault (1 + 7 * pre.length + i) = false) →
      ProcessScheduledPayments.row env pre.length
          (ProcessScheduledPayments.loop env 0 pre db []).1 sch
        = ((ProcessScheduledPayments.loop env 0 pre db []).1,
            [Effect.warnInsufficient sch.ID])) ∧
    (ProcessScheduledPayments env db).store =
      (ProcessScheduledPayments.loop env (pre.length + 1) post
        (ProcessScheduledPayments.loop env 0 pre db []).1 []).1 := by
  obtain ⟨acc, hA, rfl⟩ := balanceOf_some hacc
  have herr : (ProcessScheduledPayments env db).err = none := by
    unfold ProcessScheduledPayments
    rw [hq]
  have hbody : ∀ tx, ProcessScheduledPayments.body env (1 + 7 * pre.length) pre.length
      (ProcessScheduledPayments.loop env 0 pre db []).1 sch tx = .ok (tx, [Effect.warnInsufficient sch.ID])
      ∨ ∃ e, ProcessScheduledPayments.body env (1 + 7 * pre.length) pre.length
      (ProcessScheduledPayments.loop env 0 pre db []).1 sch tx = .error e := by
    intro tx
    unfold ProcessScheduledPayments.body CreditRepo.GetByID AccountRepo.GetByID
    by_cases h1 : env.fault (1 + 7 * pre.length + 1) = true
    · right; simp [h1]
    · by_cases h2 : env.fault (1 + 7 * pre.length + 2) = true
      · right; simp [h1, h2, hcr]
      · left; simp [h1, h2, hcr, hA, hlt]
  have hstore : (ProcessScheduledPayments.row env pre.length
        (ProcessScheduledPayments.loop env 0 pre db []).1 sch).1
      = (ProcessScheduledPayments.loop env 0 pre db []).1 := by
    rw [row_store]
    unfold AccountRepo.WithTx
    by_cases h0 : env.fault (1 + 7 * pre.length) = true
    · simp [h0]
    · rcases hbody (ProcessScheduledPayments.loop env 0 pre db []).1 with hb | ⟨e, hb⟩
      · by_cases h6 : env.fault (1 + 7 * pre.length + 6) = true
        · simp [h0, hb, h6]
        · simp [h0, hb, h6]
      · simp [h0, hb]
  refine ⟨herr, hstore, ?_, collector_skip env db pre post sch hq hstore⟩
  intro hf
  have h0 := hf 0 (by omega)
  have h1 := hf 1 (by omega)
  have h2 := hf 2 (by omega)
  have h6 := hf 6 (by omega)
  simp only [Nat.add_zero] at h0
  simp [ProcessScheduledPayments.row, AccountRepo.WithTx, ProcessScheduledPayments.body,
    CreditRepo.GetByID, AccountRepo.GetByID, h0, h1, h2, h6, hcr, hA, hlt]

/-- Witness of C14: on the sample store (balance 0 on account 1, one unpaid
row of 40 due on 2025-01-15) the collector returns no error, leaves the store
as it was and logs the warning. -/
theorem collector_defers_witness :
    ProcessScheduledPayments demoEnv demoStore
      = ⟨none, demoStore, [Effect.warnInsufficient 6]⟩ ∧
    ProcessScheduledPayments.row demoEnv 0 demoStore ⟨6, 5, ⟨2025, 1, 15, 0⟩, 40, 39, 1, false⟩
      = (demoStore, [Effect.warnInsufficient 6]) :=
  ⟨by decide!,
   (collector_defers demoEnv demoStore [] [] ⟨6, 5, ⟨2025, 1, 15, 0⟩, 40, 39, 1, false⟩
      ⟨5, 10, 1, 100, 0.12, 1, 100⟩ 0 (by decide!) (by decide!) (by decide!)
      (by norm_num)).2.2.1 (fun _ _ => rfl)⟩

/-- The store after the unit of work of a due row, whatever statements
fail. -/
theorem row_rowStoreOf (env : Env) (k : ℕ) (db : Store) (sch : PaymentSchedule) :
    (ProcessScheduledPayments.row env k db sch).1 =
      rowStoreOf (fun i => env.fault (1 + 7 * k + i)) (env.newID k) db sch := by
  rw [row_store]
  unfold rowStoreOf AccountRepo.WithTx ProcessScheduledPayments.body CreditRepo.GetByID
    AccountRepo.GetByID
  simp only [Nat.add_zero]
  by_cases h0 : env.fault (1 + 7 * k) = true
  · simp [h0]
  by_cases h1 : env.fault (1 + 7 * k + 1) = true
  · simp [h0, h1]
  cases hcr : db.credits.find? (fun c => c.ID = sch.CreditID) with
  | none => simp [h0, h1, hcr]
  | some cr =>
    by_cases h2 : env.fault (1 + 7 * k + 2) = true
    · simp [h0, h1, hcr, h2]
    cases hacc : db.accounts.find? (fun a => a.ID = cr.AccountID) with
    | none => simp [h0, h1, hcr, h2, hacc]
    | some acc =>
      by_cases hlt : acc.Balance < sch.Amount
      · by_cases h6 : env.fault (1 + 7 * k + 6) = true
        · simp [h0, h1, hcr, h2, hacc, hlt, h6]
        · simp [h0, h1, hcr, h2, hacc, hlt, h6]
      by_cases h3 : env.fault (1 + 7 * k + 3) = true
      · simp [h0, h1, hcr, h2, hacc, hlt, h3, AccountRepo.UpdateBalanceTx]
      by_cases h4 : env.fault (1 + 7 * k + 4) = true
      · simp [h0, h1, hcr, h2, hacc, hlt, h3, h4, AccountRepo.UpdateBalanceTx,
          TransactionRepo.CreateTx]
      by_cases h5 : env.fault (1 + 7 * k + 5) = true
      · simp [h0, h1, hcr, h2, hacc, hlt, h3, h4, h5, AccountRepo.UpdateBalanceTx,
          TransactionRepo.CreateTx, ScheduleRepo.UpdatePaidTx]
      by_cases h6 : env.fault (1 + 7 * k + 6) = true
      · simp [h0, h1, hcr, h2, hacc, hlt, h3, h4, h5, h6, AccountRepo.UpdateBalanceTx,
          TransactionRepo.CreateTx, ScheduleRepo.UpdatePaidTx]
      · simp [h0, h1, hcr, h2, hacc, hlt, h3, h4, h5, h6, AccountRepo.UpdateBalanceTx,
          TransactionRepo.CreateTx, ScheduleRepo.UpdatePaidTx, settled]

theorem rowStoreOf_congr (f g : ℕ → Bool) (trID : UUID) (db : Store) (sch : PaymentSchedule)
    (h : ∀ i, i ≤ 6 → f i = g i) : rowStoreOf f trID db sch = rowStoreOf g trID db sch := by
  unfold rowStoreOf
  rw [h 0 (by omega), h 1 (by omega), h 2 (by omega), h 3 (by omega), h 4 (by omega),
    h 5 (by omega), h 6 (by omega)]

/-- Two environments that agree on the statements and on the identifiers of
the rows of a list process the list to the same store. -/
theorem loop_congr (env env1 : Env) (due : List PaymentSchedule) :
    ∀ (k k1 : ℕ) (db : Store) (eff eff1 : List Effect),
      (∀ j, j < due.length → ∀ i, i ≤ 6 →
        env.fault (1 + 7 * (k + j) + i) = env1.fault (1 + 7 * (k1 + j) + i)) →
      (∀ j, j < due.length → env.newID (k + j) = env1.newID (k1 + j)) →
      (ProcessScheduledPayments.loop env k due db eff).1 =
        (ProcessScheduledPayments.loop env1 k1 due db eff1).1 := by
  induction due with
  | nil => intro k k1 db eff eff1 _ _; rfl
  | cons sch rest ih =>
    intro k k1 db eff eff1 hf hid
    have hrow : (ProcessScheduledPayments.row env k db sch).1 =
        (ProcessScheduledPayments.row env1 k1 db sch).1 := by
      rw [row_rowStoreOf, row_rowStoreOf]
      have := hid 0 (by simp)
      simp only [Nat.add_zero] at this
      rw [this]
      apply rowStoreOf_congr
      intro i hi
      have := hf 0 (by simp) i hi
      simpa using this
    unfold ProcessScheduledPayments.loop
    dsimp only
    rw [hrow]
    apply ih
    · intro j hj i hi
      have := hf (j + 1) (by simp; omega) i hi
      rw [show k + 1 + j = k + (j + 1) by omega, show k1 + 1 + j = k1 + (j + 1) by omega]
      exact this
    · intro j hj
      have := hid (j + 1) (by simp; omega)
      rw [show k + 1 + j = k + (j + 1) by omega, show k1 + 1 + j = k1 + (j + 1) by omega]
      exact this

/-- The unit of work of a due row in which a step returns an error: the error
is the result, the store is as it was and there is no effect. -/
theorem row_step_error (env : Env) (k : ℕ) (db1 : Store) (sch : PaymentSchedule) (e : Err)
    (b : ℕ) (hb : b = 1 + 7 * k)
    (h : env.fault b = true ∧ e = Err.store b ∨
      env.fault b = false ∧
        (CreditRepo.GetByID env (b + 1) db1 sch.CreditID = .error e ∨
          ∃ cr, CreditRepo.GetByID env (b + 1) db1 sch.CreditID = .ok cr ∧
            (AccountRepo.GetByID env (b + 2) db1 cr.AccountID = .error e ∨
              ∃ acc, AccountRepo.GetByID env (b + 2) db1 cr.AccountID = .ok acc ∧
                sch.Amount ≤ acc.Balance ∧
                (AccountRepo.UpdateBalanceTx env (b + 3) db1 acc.ID
                    (acc.Balance - sch.Amount) = .error e ∨
                  ∃ tx1, AccountRepo.UpdateBalanceTx env (b + 3) db1 acc.ID
                      (acc.Balance - sch.Amount) = .ok tx1 ∧
                    (TransactionRepo.CreateTx env (b + 4) k tx1
                        ⟨0, some acc.ID, none, sch.Amount, "credit_payment",
                          "очередной платёж по кредиту " ++ toString sch.CreditID⟩ = .error e ∨
                      ∃ tx2, TransactionRepo.CreateTx env (b + 4) k tx1
                          ⟨0, some acc.ID, none, sch.Amount, "credit_payment",
                            "очередной платёж по кредиту " ++ toString sch.CreditID⟩ = .ok tx2 ∧
                        (ScheduleRepo.UpdatePaidTx env (b + 5) tx2 sch.ID true = .error e ∨
                          ∃ tx3, ScheduleRepo.UpdatePaidTx env (b + 5) tx2 sch.ID true = .ok tx3 ∧
                            env.fault (b + 6) = true ∧ e = Err.store (b + 6))))))) :
    AccountRepo.WithTx env (1 + 7 * k) (1 + 7 * k + 6) db1
      (ProcessScheduledPayments.body env (1 + 7 * k) k db1 sch) = ⟨some e, db1, []⟩ := by
  subst hb
  unfold AccountRepo.WithTx ProcessScheduledPayments.body
  rcases h with ⟨h0, rfl⟩ | ⟨h0, h⟩
  · simp only [h0, ↓reduceIte]
  simp only [h0, Bool.false_eq_true, ↓reduceIte]
  rcases h with h | ⟨cr, hcr, h | ⟨acc, hacc, hle, h | ⟨tx1, h1, h | ⟨tx2, h2, h |
    ⟨tx3, h3, h6, rfl⟩⟩⟩⟩⟩
  · simp only [h]
  · simp only [hcr, h]
  · simp only [hcr, hacc, not_lt.mpr hle, ↓reduceIte, h]
  · simp only [hcr, hacc, not_lt.mpr hle, ↓reduceIte, h1, h]
  · simp only [hcr, hacc, not_lt.mpr hle, ↓reduceIte, h1, h2, h]
  · simp only [hcr, hacc, not_lt.mpr hle, ↓reduceIte, h1, h2, h3, h6]

/-- A run of the collector in which the unit of work of the due row `sch`
returns an error: the row leaves the store as the earlier rows left it and
logs the error, and the store after the run is that of the run over the other
rows alone. -/
theorem collector_row_error (env : Env) (db : Store) (pre post : List PaymentSchedule)
    (sch : PaymentSchedule) (e : Err)
    (hq : ScheduleRepo.GetDueSchedules env 0 db env.now = .ok (pre ++ sch :: post))
    (hfail : (AccountRepo.WithTx env (1 + 7 * pre.length) (1 + 7 * pre.length + 6)
        (ProcessScheduledPayments.loop env 0 pre db []).1
        (ProcessScheduledPayments.body env (1 + 7 * pre.length) pre.length
          (ProcessScheduledPayments.loop env 0 pre db []).1 sch)).err = some e) :
    (ProcessScheduledPayments env db).err = none ∧
    ProcessScheduledPayments.row env pre.length
        (ProcessScheduledPayments.loop env 0 pre db []).1 sch
      = ((ProcessScheduledPayments.loop env 0 pre db []).1,
          (AccountRepo.WithTx env (1 + 7 * pre.length) (1 + 7 * pre.length + 6)
            (ProcessScheduledPayments.loop env 0 pre db []).1
            (ProcessScheduledPayments.body env (1 + 7 * pre.length) pre.length
              (ProcessScheduledPayments.loop env 0 pre db []).1 sch)).effects
            ++ [Effect.logError e]) ∧
    (ProcessScheduledPayments env db).store =
      (ProcessScheduledPayments.loop env (pre.length + 1) post
        (ProcessScheduledPayments.loop env 0 pre db []).1 []).1 ∧
    (ProcessScheduledPayments env db).store =
      (ProcessScheduledPayments.loop (env.withoutRow pre.length) 0 (pre ++ post) db []).1 := by
  have herr : (ProcessScheduledPayments env db).err = none := by
    unfold ProcessScheduledPayments
    rw [hq]
  have hstore := WithTx_err env _ _ _ _ (by rw [hfail]; exact Option.some_ne_none e)
  have hrow : ProcessScheduledPayments.row env pre.length
        (ProcessScheduledPayments.loop env 0 pre db []).1 sch
      = ((ProcessScheduledPayments.loop env 0 pre db []).1,
          (AccountRepo.WithTx env (1 + 7 * pre.length) (1 + 7 * pre.length + 6)
            (ProcessScheduledPayments.loop env 0 pre db []).1
            (ProcessScheduledPayments.body env (1 + 7 * pre.length) pre.length
              (ProcessScheduledPayments.loop env 0 pre db []).1 sch)).effects
            ++ [Effect.logError e]) := by
    unfold ProcessScheduledPayments.row
    simp only [hfail, hstore]
  have hskip := collector_skip env db pre post sch hq (by rw [hrow])
  refine ⟨herr, hrow, hskip, ?_⟩
  rw [hskip, loop_append]
  have hpre : (ProcessScheduledPayments.loop (env.withoutRow pre.length) 0 pre db []).1 =
      (ProcessScheduledPayments.loop env 0 pre db []).1 := by
    apply loop_congr
    · intro j hj i hi
      have : 1 + 7 * (0 + j) + i < 1 + 7 * pre.length := by omega
      simp only [Env.withoutRow, this, ↓reduceIte]
    · intro j hj
      have : 0 + j < pre.length := by omega
      simp only [Env.withoutRow, this, ↓reduceIte]
  rw [hpre]
  apply loop_congr
  · intro j hj i hi
    have : ¬ 1 + 7 * (0 + pre.length + j) + i < 1 + 7 * pre.length := by omega
    simp only [Env.withoutRow, this, ↓reduceIte]
    congr 1
    omega
  · intro j hj
    have : ¬ 0 + pre.length + j < pre.length := by omega
    simp only [Env.withoutRow, this, ↓reduceIte]
    congr 1
    omega

/-- C15 (per-row failure isolation of the collector).  Whenever the query for
the due rows succeeds, `ProcessScheduledPayments` returns no error.  In every
run whose due rows are `pre`, `sch` and `post`, with `db1` the store the rows
of `pre` leave and `b` the label of the `Beginx` of `sch`: when a step of the
unit of work of `sch` returns an error `e` while the steps before it
succeeded (the `Beginx`, the credit lookup, the account lookup, the balance
write, the log append, the paid-flag update or the `Commit`), the run returns
no error, the processing of `sch` leaves `db1` exactly as it was (no balance
written, no transaction appended, the row not marked paid) and its only
effect is the log line of `e`, the rows of `post` are processed from `db1`,
and the store after the run is the store after the run over `pre` and `post`
alone, with the same outcomes of their statements and the same fresh
identifiers.  The same holds, with the effects of the unit of work before the
log line, whenever the unit of work of `sch` returns an error at all. -/
theorem collector_isolation (env : Env) (db : Store) :
    (env.fault 0 = false → (ProcessScheduledPayments env db).err = none) ∧
    (∀ (pre post : List PaymentSchedule) (sch : PaymentSchedule) (e : Err) (db1 : Store) (b : ℕ),
      ScheduleRepo.GetDueSchedules env 0 db env.now = .ok (pre ++ sch :: post) →
      db1 = (ProcessScheduledPayments.loop env 0 pre db []).1 → b = 1 + 7 * pre.length →
      (env.fault b = true ∧ e = Err.store b ∨
        env.fault b = false ∧
          (CreditRepo.GetByID env (b + 1) db1 sch.CreditID = .error e ∨
            ∃ cr, CreditRepo.GetByID env (b + 1) db1 sch.CreditID = .ok cr ∧
              (AccountRepo.GetByID env (b + 2) db1 cr.AccountID = .error e ∨
                ∃ acc, AccountRepo.GetByID env (b + 2) db1 cr.AccountID = .ok acc ∧
                  sch.Amount ≤ acc.Balance ∧
                  (AccountRepo.UpdateBalanceTx env (b + 3) db1 acc.ID
                      (acc.Balance - sch.Amount) = .error e ∨
                    ∃ tx1, AccountRepo.UpdateBalanceTx env (b + 3) db1 acc.ID
                        (acc.Balance - sch.Amount) = .ok tx1 ∧
                      (TransactionRepo.CreateTx env (b + 4) pre.length tx1
                          ⟨0, some acc.ID, none, sch.Amount, "credit_payment",
                            "очередной платёж по кредиту " ++ toString sch.CreditID⟩
                          = .error e ∨
                        ∃ tx2, TransactionRepo.CreateTx env (b + 4) pre.length tx1
                            ⟨0, some acc.ID, none, sch.Amount, "credit_payment",
                              "очередной платёж по кредиту " ++ toString sch.CreditID⟩
                            = .ok tx2 ∧
                          (ScheduleRepo.UpdatePaidTx env (b + 5) tx2 sch.ID true = .error e ∨
                            ∃ tx3, ScheduleRepo.UpdatePaidTx env (b + 5) tx2 sch.ID true
                                = .ok tx3 ∧
                              env.fault (b + 6) = true ∧ e = Err.store (b + 6))))))) →
      (ProcessScheduledPayments env db).err = none ∧
      ProcessScheduledPayments.row env pre.length db1 sch = (db1, [Effect.logError e]) ∧
      (ProcessScheduledPayments env db).store =
        (ProcessScheduledPayments.loop env (pre.length + 1) post db1 []).1 ∧
      (ProcessScheduledPayments env db).store =
        (ProcessScheduledPayments.loop (env.withoutRow pre.length) 0 (pre ++ post) db []).1) ∧
    (∀ (pre post : List PaymentSchedule) (sch : PaymentSchedule) (e : Err),
      ScheduleRepo.GetDueSchedules env 0 db env.now = .ok (pre ++ sch :: post) →
      (AccountRepo.WithTx env (1 + 7 * pre.length) (1 + 7 * pre.length + 6)
          (ProcessScheduledPayments.loop env 0 pre db []).1
          (ProcessScheduledPayments.body env (1 + 7 * pre.length) pre.length
            (ProcessScheduledPayments.loop env 0 pre db []).1 sch)).err = some e →
      (ProcessScheduledPayments env db).err = none ∧
      (∃ eff, ProcessScheduledPayments.row env pre.length
            (ProcessScheduledPayments.loop env 0 pre db []).1 sch
          = ((ProcessScheduledPayments.loop env 0 pre db []).1, eff ++ [Effect.logError e])) ∧
      (ProcessScheduledPayments env db).store =
        (ProcessScheduledPayments.loop env (pre.length + 1) post
          (ProcessScheduledPayments.loop env 0 pre db []).1 []).1 ∧
      (ProcessScheduledPayments env db).store =
        (ProcessScheduledPayments.loop (env.withoutRow pre.length) 0 (pre ++ post) db []).1) := by
  refine ⟨collector_no_error env db, ?_, ?_⟩
  · intro pre post sch e db1 b hq hdb hb h
    have hw := row_step_error env pre.length db1 sch e b hb h
    subst hdb
    have hfail := congrArg Outcome.err hw
    have heff := congrArg Outcome.effects hw
    obtain ⟨h1, h2, h3, h4⟩ := collector_row_error env db pre post sch e hq hfail
    refine ⟨h1, ?_, h3, h4⟩
    rw [h2, heff]
    rfl
  · intro pre post sch e hq hfail
    obtain ⟨h1, h2, h3, h4⟩ := collector_row_error env db pre post sch e hq hfail
    exact ⟨h1, ⟨_, h2⟩, h3, h4⟩

/-- Witness of C15 on the sample store with three due rows (40, 500, 30) and
a balance of 100.  When the paid-flag update of the first row (statement 6)
fails after its balance write and log append, the run returns no error, the
first row stays unpaid with its balance write and transaction discarded, the
row of 500 is deferred and the row of 30 is settled (balance 70, one
transaction), as in the run over the last two rows alone.  When the credit
lookup of the third row (statement 16) fails, the first row is settled and the
store is that of the run over the first two rows alone. -/
theorem collector_isolation_witness :
    (ProcessScheduledPayments { demoEnv with fault := fun n => n == 6 } demoStoreDue).err = none ∧
    (ProcessScheduledPayments { demoEnv with fault := fun n => n == 6 } demoStoreDue).effects
      = [Effect.logError (Err.store 6), Effect.warnInsufficient 7] ∧
    (ProcessScheduledPayments { demoEnv with fault := fun n => n == 6 }
      demoStoreDue).store.accounts.map (fun a => a.Balance) = [70, 0] ∧
    (ProcessScheduledPayments { demoEnv with fault := fun n => n == 6 }
      demoStoreDue).store.transactions.map (fun t => t.Amount) = [30] ∧
    (ProcessScheduledPayments { demoEnv with fault := fun n => n == 6 }
      demoStoreDue).store.schedules.map (fun s => s.Paid) = [false, false, true] ∧
    ProcessScheduledPayments.row { demoEnv with fault := fun n => n == 6 } 0 demoStoreDue
        ⟨6, 5, ⟨2025, 1, 15, 0⟩, 40, 39, 1, false⟩
      = (demoStoreDue, [Effect.logError (Err.store 6)]) ∧
    (ProcessScheduledPayments { demoEnv with fault := fun n => n == 6 } demoStoreDue).store =
      (ProcessScheduledPayments.loop
        (Env.withoutRow { demoEnv with fault := fun n => n == 6 } 0) 0
        [⟨7, 5, ⟨2025, 1, 20, 0⟩, 500, 499, 1, false⟩, ⟨8, 5, ⟨2025, 1, 25, 0⟩, 30, 29, 1, false⟩]
        demoStoreDue []).1 ∧
    (ProcessScheduledPayments { demoEnv with fault := fun n => n == 16 }
      demoStoreDue).store.schedules.map (fun s => s.Paid) = [true, false, false] ∧
    (ProcessScheduledPayments { demoEnv with fault := fun n => n == 16 } demoStoreDue).store =
      (ProcessScheduledPayments.loop
        (Env.withoutRow { demoEnv with fault := fun n => n == 16 } 2) 0
        [⟨6, 5, ⟨2025, 1, 15, 0⟩, 40, 39, 1, false⟩, ⟨7, 5, ⟨2025, 1, 20, 0⟩, 500, 499, 1, false⟩]
        demoStoreDue []).1 :=
  have h6 := (collector_isolation { demoEnv with fault := fun n => n == 6 } demoStoreDue).2.1 []
    [⟨7, 5, ⟨2025, 1, 20, 0⟩, 500, 499, 1, false⟩, ⟨8, 5, ⟨2025, 1, 25, 0⟩, 30, 29, 1, false⟩]
    ⟨6, 5, ⟨2025, 1, 15, 0⟩, 40, 39, 1, false⟩ (Err.store 6) demoStoreDue 1 (by decide!) rfl rfl
    (Or.inr ⟨rfl, Or.inr ⟨⟨5, 10, 1, 100, 0.12, 1, 100⟩, by decide!,
      Or.inr ⟨⟨1, 10, "4000001234567899", 100⟩, by decide!, by norm_num,
        Or.inr ⟨_, rfl, Or.inr ⟨_, rfl, Or.inl (by decide!)⟩⟩⟩⟩⟩)
  have h16 := (collector_isolation { demoEnv with fault := fun n => n == 16 } demoStoreDue).2.1
    [⟨6, 5, ⟨2025, 1, 15, 0⟩, 40, 39, 1, false⟩, ⟨7, 5, ⟨2025, 1, 20, 0⟩, 500, 499, 1, false⟩] []
    ⟨8, 5, ⟨2025, 1, 25, 0⟩, 30, 29, 1, false⟩ (Err.store 16) _ 15 (by decide!) rfl rfl
    (Or.inr ⟨rfl, Or.inl (by decide!)⟩)
  ⟨(collector_isolation { demoEnv with fault := fun n => n == 6 } demoStoreDue).1 rfl,
   by decide!, by decide!, by decide!, by decide!, h6.2.1, h6.2.2.2, by decide!, h16.2.2.2⟩

theorem Later.refl (db : Store) : Later db db :=
  ⟨rfl, fun _ a1 h => ⟨a1, h, le_refl _⟩, fun _ hs _ => hs, fun _ h => h⟩

theorem Later.trans {a b c : Store} (hab : Later a b) (hbc : Later b c) : Later a c := by
  obtain ⟨h1, h2, h3, h4⟩ := hab
  obtain ⟨k1, k2, k3, k4⟩ := hbc
  refine ⟨k1.trans h1, ?_, ?_, ?_⟩
  · intro id a1 ha1
    obtain ⟨a2, ha2, hle2⟩ := k2 id a1 ha1
    obtain ⟨a3, ha3, hle3⟩ := h2 id a2 ha2
    exact ⟨a3, ha3, hle2.trans hle3⟩
  · intro s hs hp
    exact h3 s (k3 s hs hp) hp
  · intro id hall
    exact k4 id (h4 id hall)

/-- A row that cannot be settled cannot be settled later in the run. -/
theorem Stuck.later {db db1 : Store} {sch : PaymentSchedule} (h : Stuck db sch)
    (hl : Later db db1) : Stuck db1 sch := by
  intro cr acc1 hcr hacc1
  obtain ⟨h1, h2, _, _⟩ := hl
  rw [h1] at hcr
  obtain ⟨acc, hacc, hle⟩ := h2 _ _ hacc1
  exact lt_of_le_of_lt hle (h cr acc hcr hacc)

/-- Settling a row of non-negative amount takes the store to a later one. -/
theorem settled_later (db : Store) (sch : PaymentSchedule) (cr : Credit) (acc : Account)
    (trID : UUID) (hacc : db.accounts.find? (fun a => a.ID = cr.AccountID) = some acc)
    (hamt : 0 ≤ sch.Amount) : Later db (settled db sch acc trID) := by
  have hid := find_id hacc
  refine ⟨rfl, ?_, ?_, ?_⟩
  · intro id a1 ha1
    simp only [settled, List.find?_map] at ha1
    have hcomp : ((fun a : Account => decide (a.ID = id)) ∘
        (fun a : Account =>
          if a.ID = acc.ID then { a with Balance := acc.Balance - sch.Amount } else a))
        = (fun a => decide (a.ID = id)) := by
      funext a
      simp only [Function.comp]
      split <;> rfl
    rw [hcomp] at ha1
    cases hf : db.accounts.find? (fun a => a.ID = id) with
    | none => simp [hf] at ha1
    | some a =>
      refine ⟨a, rfl, ?_⟩
      simp only [hf, Option.map_some', Option.some.injEq] at ha1
      subst ha1
      by_cases h : a.ID = acc.ID
      · have hida := find_id hf
        have : id = cr.AccountID := by rw [← hida, h, hid]
        subst this
        rw [hacc] at hf
        cases hf
        simp only [↓reduceIte]
        linarith
      · simp [h]
  · intro s hs hp
    simp only [settled, List.mem_map] at hs
    obtain ⟨s0, hs0, rfl⟩ := hs
    by_cases h : s0.ID = sch.ID
    · simp [h] at hp
    · simpa [h] using hs0
  · intro id hall s hs hsid
    simp only [settled, List.mem_map] at hs
    obtain ⟨s0, hs0, rfl⟩ := hs
    by_cases h : s0.ID = sch.ID
    · simp [h]
    · simp only [h, ↓reduceIte] at hsid ⊢
      exact hall s0 hs0 hsid

/-- After a row has been settled, every row with its identifier is paid. -/
theorem settled_paid (db : Store) (sch : PaymentSchedule) (acc : Account) (trID : UUID) :
    ∀ s ∈ (settled db sch acc trID).schedules, s.ID = sch.ID → s.Paid = true := by
  intro s hs hsid
  simp only [settled, List.mem_map] at hs
  obtain ⟨s0, hs0, rfl⟩ := hs
  by_cases h : s0.ID = sch.ID
  · simp [h]
  · simp [h] at hsid

/-- The unit of work of a row without failing statement either leaves the
store as it was, the row being one that cannot be settled, or settles it. -/
theorem row_noFault_cases (env : Env) (k : ℕ) (db : Store) (sch : PaymentSchedule)
    (hnf : env.NoFault) :
    ((ProcessScheduledPayments.row env k db sch).1 = db ∧ Stuck db sch) ∨
    ∃ (cr : Credit) (acc : Account),
      db.accounts.find? (fun a => a.ID = cr.AccountID) = some acc ∧
      (ProcessScheduledPayments.row env k db sch).1 = settled db sch acc (env.newID k) := by
  rw [row_noFault env k db sch (fun i _ => hnf _)]
  cases hcr : db.credits.find? (fun c => c.ID = sch.CreditID) with
  | none =>
    left
    refine ⟨rfl, ?_⟩
    intro cr acc h1 _
    rw [hcr] at h1
    cases h1
  | some cr =>
    cases hacc : db.accounts.find? (fun a => a.ID = cr.AccountID) with
    | none =>
      left
      refine ⟨by simp [hacc], ?_⟩
      intro cr1 acc h1 h2
      rw [hcr] at h1
      cases h1
      rw [hacc] at h2
      cases h2
    | some acc =>
      by_cases hlt : acc.Balance < sch.Amount
      · left
        refine ⟨by simp [hacc, hlt], ?_⟩
        intro cr1 acc1 h1 h2
        rw [hcr] at h1
        cases h1
        rw [hacc] at h2
        cases h2
        exact hlt
      · right
        exact ⟨cr, acc, hacc, by simp [hacc, hlt]⟩

/-- The unit of work of a row that cannot be settled leaves the store as it
was when none of its statements fails. -/
theorem row_stuck (env : Env) (k : ℕ) (db : Store) (sch : PaymentSchedule)
    (hnf : env.NoFault) (hst : Stuck db sch) :
    (ProcessScheduledPayments.row env k db sch).1 = db := by
  rw [row_noFault env k db sch (fun i _ => hnf _)]
  cases hcr : db.credits.find? (fun c => c.ID = sch.CreditID) with
  | none => rfl
  | some cr =>
    cases hacc : db.accounts.find? (fun a => a.ID = cr.AccountID) with
    | none => simp [hacc]
    | some acc => simp [hacc, hst cr acc hcr hacc]

theorem row_later (env : Env) (k : ℕ) (db : Store) (sch : PaymentSchedule)
    (hnf : env.NoFault) (hamt : 0 ≤ sch.Amount) :
    Later db (ProcessScheduledPayments.row env k db sch).1 := by
  rcases row_noFault_cases env k db sch hnf with ⟨h, _⟩ | ⟨cr, acc, hacc, h⟩
  · rw [h]; exact Later.refl db
  · rw [h]; exact settled_later db sch cr acc _ hacc hamt

theorem loop_later (env : Env) (hnf : env.NoFault) (due : List PaymentSchedule) :
    ∀ (k : ℕ) (db : Store) (eff : List Effect), (∀ s ∈ due, 0 ≤ s.Amount) →
      Later db (ProcessScheduledPayments.loop env k due db eff).1 := by
  induction due with
  | nil => intro k db eff _; exact Later.refl db
  | cons sch rest ih =>
    intro k db eff hamt
    unfold ProcessScheduledPayments.loop
    exact (row_later env k db sch hnf (hamt sch (List.mem_cons_self _ _))).trans
      (ih _ _ _ (fun s hs => hamt s (List.mem_cons_of_mem _ hs)))

/-- After a run without failing statement over rows of non-negative amounts,
every row of the run is paid or cannot be settled. -/
theorem loop_done (env : Env) (hnf : env.NoFault) (due : List PaymentSchedule) :
    ∀ (k : ℕ) (db : Store) (eff : List Effect), (∀ s ∈ due, 0 ≤ s.Amount) →
      ∀ s ∈ due,
        (∀ t ∈ (ProcessScheduledPayments.loop env k due db eff).1.schedules,
          t.ID = s.ID → t.Paid = true) ∨
        Stuck (ProcessScheduledPayments.loop env k due db eff).1 s := by
  induction due with
  | nil => intro k db eff _ s hs; cases hs
  | cons sch rest ih =>
    intro k db eff hamt s hs
    have hrest : ∀ s ∈ rest, 0 ≤ s.Amount := fun s hs => hamt s (List.mem_cons_of_mem _ hs)
    unfold ProcessScheduledPayments.loop
    dsimp only
    rcases List.mem_cons.mp hs with rfl | hs
    · have hl := loop_later env hnf rest (k + 1) (ProcessScheduledPayments.row env k db s).1
        (eff ++ (ProcessScheduledPayments.row env k db s).2) hrest
      rcases row_noFault_cases env k db s hnf with ⟨h, hstuck⟩ | ⟨cr, acc, hacc, h⟩
      · right
        rw [h] at hl ⊢
        exact hstuck.later hl
      · left
        rw [h] at hl ⊢
        exact hl.2.2.2 s.ID (settled_paid db s acc _)
    · exact ih _ _ _ hrest s hs

/-- A run without failing statement over rows that cannot be settled leaves
the store as it was. -/
theorem loop_stuck (env : Env) (hnf : env.NoFault) (due : List PaymentSchedule) :
    ∀ (k : ℕ) (db : Store) (eff : List Effect), (∀ s ∈ due, Stuck db s) →
      (ProcessScheduledPayments.loop env k due db eff).1 = db := by
  induction due with
  | nil => intro k db eff _; rfl
  | cons sch rest ih =>
    intro k db eff hst
    unfold ProcessScheduledPayments.loop
    have hrow : (ProcessScheduledPayments.row env k db sch).1 = db :=
      row_stuck env k db sch hnf (hst sch (List.mem_cons_self _ _))
    dsimp only
    rw [hrow]
    exact ih _ _ _ (fun s hs => hst s (List.mem_cons_of_mem _ hs))

theorem mem_dueRows {now : Time} {db : Store} {s : PaymentSchedule} :
    s ∈ dueRows now db ↔ s ∈ db.schedules ∧ ¬ now.Before s.DueDate ∧ s.Paid = false := by
  simp [dueRows, List.mem_filter]

/-- C13 (idempotence of the collector).  For every store whose schedule rows
have non-negative amounts, with any number of due rows and any balances, and
every time `now`: when no store statement fails, a second run of
`ProcessScheduledPayments` at the same `now`, right after the first, returns
no error and leaves exactly the store the first run left (balances,
transaction log and paid flags included). -/
theorem collector_idempotent (env env2 : Env) (db : Store) (hnf : env.NoFault)
    (hnf2 : env2.NoFault) (hnow : env2.now = env.now)
    (hamt : ∀ s ∈ db.schedules, 0 ≤ s.Amount) :
    (ProcessScheduledPayments env2 (ProcessScheduledPayments env db).store).err = none ∧
    (ProcessScheduledPayments env2 (ProcessScheduledPayments env db).store).store
      = (ProcessScheduledPayments env db).store := by
  refine ⟨collector_no_error env2 _ (hnf2 0), ?_⟩
  have hdueamt : ∀ s ∈ dueRows env.now db, 0 ≤ s.Amount :=
    fun s hs => hamt s (mem_dueRows.mp hs).1
  have h1 : (ProcessScheduledPayments env db).store =
      (ProcessScheduledPayments.loop env 0 (dueRows env.now db) db []).1 := by
    unfold ProcessScheduledPayments
    rw [GetDueSchedules_ok (hnf 0)]
  rw [h1]
  unfold ProcessScheduledPayments
  rw [GetDueSchedules_ok (hnf2 0), hnow]
  apply loop_stuck env2 hnf2
  intro s hs
  obtain ⟨hmem, hdue, hunpaid⟩ := mem_dueRows.mp hs
  have hl := loop_later env hnf (dueRows env.now db) 0 db [] hdueamt
  have hs0 : s ∈ dueRows env.now db := mem_dueRows.mpr ⟨hl.2.2.1 s hmem hunpaid, hdue, hunpaid⟩
  rcases loop_done env hnf (dueRows env.now db) 0 db [] hdueamt s hs0 with hp | hst
  · have := hp s hmem rfl
    rw [hunpaid] at this
    cases this
  · exact hst

/-- Witness of C13: on the sample store with three due rows of 40, 500 and 30
and a balance of 100, the first run settles the rows of 40 and 30 and skips
the row of 500, and a second run at the same time leaves that store as it
is. -/
theorem collector_idempotent_witness :
    (ProcessScheduledPayments demoEnv demoStoreDue).store.accounts.map (fun a => a.Balance)
      = [30, 0] ∧
    (ProcessScheduledPayments demoEnv demoStoreDue).store.schedules.map (fun s => s.Paid)
      = [true, false, true] ∧
    (ProcessScheduledPayments (demoEnvAt 1) (ProcessScheduledPayments demoEnv demoStoreDue).store).store
      = (ProcessScheduledPayments demoEnv demoStoreDue).store :=
  ⟨by decide!, by decide!,
   (collector_idempotent demoEnv (demoEnvAt 1) demoStoreDue (fun _ => rfl) (fun _ => rfl) rfl
      (by decide!)).2⟩

/-! ## Card numbers -/

theorem digitChar_digit (d : ℕ) (h : d < 10) :
    (Nat.digitChar d).isDigit = true ∧ (Nat.digitChar d).toNat - 48 = d := by
  interval_cases d <;> exact ⟨by decide, by decide⟩

/-- The sixteen digits of a generated card number. -/
theorem cardDigits_eq (rand : ℕ → ℕ) :
    (accountDigits rand).take 16 =
      [4, 0, 0, 0, 0, 0, rand 0 % 10, rand 1 % 10, rand 2 % 10, rand 3 % 10, rand 4 % 10,
        rand 5 % 10, rand 6 % 10, rand 7 % 10, rand 8 % 10,
        (10 - checksumFrom 0 (accountBase rand) % 10) % 10] := by
  simp [accountDigits, accountBase, List.range_succ]

/-- The slice `[:16]` of `generateCardNumber` is the whole account number,
which has 16 digits. -/
theorem cardNumber_eq_accountNumber (rand : ℕ → ℕ) :
    generateCardNumber rand = generateAccountNumber rand := by
  unfold generateCardNumber generateAccountNumber
  rw [List.take_of_length_le]
  simp [accountDigits, accountBase]

theorem cardDigits_lt (rand : ℕ → ℕ) : ∀ d ∈ (accountDigits rand).take 16, d < 10 := by
  rw [cardDigits_eq]
  intro d hd
  simp only [List.mem_cons, List.mem_singleton, List.not_mem_nil, or_false] at hd
  omega

theorem cardDigits_luhn (rand : ℕ → ℕ) : luhnValid ((accountDigits rand).take 16) := by
  rw [cardDigits_eq]
  have hsum : checksumFrom 0 (accountBase rand) =
      luhnDouble 4 + 0 + luhnDouble 0 + 0 + luhnDouble 0 + 0 + luhnDouble (rand 0 % 10)
        + rand 1 % 10 + luhnDouble (rand 2 % 10) + rand 3 % 10 + luhnDouble (rand 4 % 10)
        + rand 5 % 10 + luhnDouble (rand 6 % 10) + rand 7 % 10 + luhnDouble (rand 8 % 10) := by
    simp [accountBase, List.range_succ, checksumFrom, luhnDouble]
    ring
  rw [hsum]
  simp only [luhnValid, List.reverse_cons, List.reverse_nil, List.nil_append, List.cons_append,
    luhnSumFromRight]
  norm_num
  generalize luhnDouble (rand 0 % 10) = a0
  generalize luhnDouble (rand 2 % 10) = a2
  generalize luhnDouble (rand 4 % 10) = a4
  generalize luhnDouble (rand 6 % 10) = a6
  generalize luhnDouble (rand 8 % 10) = a8
  generalize luhnDouble 4 = b4
  generalize luhnDouble 0 = b0
  omega

theorem digitsOf_render (ds : List ℕ) (h : ∀ d ∈ ds, d < 10) :
    digitsOf (renderDigits ds) = ds := by
  unfold digitsOf renderDigits
  simp only [List.map_map]
  conv_rhs => rw [← List.map_id ds]
  apply List.map_congr_left
  intro d hd
  simp only [Function.comp, id]
  exact (digitChar_digit d (h d hd)).2

/-- C16 (issued card numbers pass the checksum).  For every outcome of the
random digit source, `generateCardNumber` returns a string of exactly 16
characters, all decimal digits, that begins with "400000" and whose digits
are valid under the double-the-alternate-digit mod-10 (Luhn) check: with
every second digit counted from the right doubled, starting with the digit
next to the check digit, and 9 subtracted from the results above 9, the sum
of the digits is divisible by 10. -/
theorem card_number_checksum (rand : ℕ → ℕ) :
    (generateCardNumber rand).length = 16 ∧
    (∀ c ∈ (generateCardNumber rand).data, c.isDigit = true) ∧
    (generateCardNumber rand).data.take 6 = ['4', '0', '0', '0', '0', '0'] ∧
    luhnValid (digitsOf (generateCardNumber rand)) := by
  refine ⟨?_, ?_, ?_, ?_⟩
  · unfold generateCardNumber renderDigits
    rw [String.length_mk, List.length_map, cardDigits_eq]
    rfl
  · intro c hc
    unfold generateCardNumber renderDigits at hc
    simp only [List.mem_map] at hc
    obtain ⟨d, hd, rfl⟩ := hc
    exact (digitChar_digit d (cardDigits_lt rand d hd)).1
  · unfold generateCardNumber renderDigits
    rw [cardDigits_eq]
    rfl
  · unfold generateCardNumber
    rw [digitsOf_render _ (cardDigits_lt rand)]
    exact cardDigits_luhn rand

/-- Evaluation of C16 on sample data: with the draws 3, 4, ..., 11, taken
modulo 10, the card number is 4000003456789011, whose doubled-digit sum 8+0+0+0+0+0+6+4+1+6+5+8+
9+0+2+1 is 50. -/
theorem card_number_checksum_witness :
    generateCardNumber demoEnv.rand = "4000003456789011" ∧
    luhnSumFromRight 0 (digitsOf "4000003456789011").reverse = 50 ∧
    luhnValid (digitsOf (generateCardNumber demoEnv.rand)) :=
  ⟨by decide!, by decide!, (card_number_checksum demoEnv.rand).2.2.2⟩

/-! ## Digest collisions -/

/-- On a store that already holds the digest, issuance that meets no
uniqueness constraint stores a second card with the same digest. -/
theorem digest_collision_unconstrained :
    (GenerateCard { demoEnv with cardsHMACUnique := false } demoStoreCollide 1).1 =
      .ok ⟨1000, 1, "pgp:4000003456789011", "pgp:02/28", "***", "k:400000345678901102/28"⟩ ∧
    (GenerateCard { demoEnv with cardsHMACUnique := false }
        demoStoreCollide 1).2.cards.map (fun c => (c.ID, c.AccountID, c.HMAC)) =
      [(3, 2, "k:400000345678901102/28"), (1000, 1, "k:400000345678901102/28")] := by
  refine ⟨by decide!, by decide!⟩

/-- A call of `PayWithCard` is its first phase followed at once by its second
phase. -/
theorem PayWithCard_phases (env : Env) (db : Store) (req : PaymentRequest) :
    PayWithCard env db req =
      match PayWithCard.readPhase env db req with
      | .error e => ⟨some e, db, []⟩
      | .ok acc => PayWithCard.writePhase env db req acc := by
  unfold PayWithCard PayWithCard.readPhase PayWithCard.writePhase
  by_cases hamt : req.Amount ≤ 0
  · simp [hamt]
  · simp only [hamt, ↓reduceIte]
    cases hcard : CardRepo.GetByHMAC env 0 db (env.ComputeHMAC req.CardNumber env.HMACSecret) with
    | error e => simp
    | ok card =>
      simp only [AccountRepo.WithTx, PayWithCard.body]
      by_cases h1 : env.fault 1 = true
      · simp [h1]
      · simp only [h1, Bool.false_eq_true, ↓reduceIte]
        cases hacc : AccountRepo.GetByID env 2 db card.AccountID with
        | error e => simp
        | ok acc =>
          by_cases hlt : acc.Balance < req.Amount
          · simp [hlt]
          · simp only [hlt, ↓reduceIte]
            cases h3 : AccountRepo.UpdateBalanceTx env 3 db acc.ID (acc.Balance - req.Amount) with
            | error e => simp
            | ok tx1 =>
              simp only []
              cases h4 : TransactionRepo.CreateTx env 4 0 tx1
                  { ID := 0, From := some acc.ID, To := none, Amount := req.Amount,
                    TransactionType := "payment", Note := "оплата " ++ req.Merchant } with
              | error e => simp
              | ok tx2 =>
                by_cases h5 : env.fault 5 = true
                · simp [h5]
                · simp [h5]

/-- C18, what the code does: two payments against one account, each of a
positive amount that the balance covers on its own, interleaved so that both
read the account before either writes.  With no failing statement both calls
return no error; both payments are appended to the transaction log; and the
balance ends at the balance read less the amount of the second payment
alone, the write of the first being overwritten. -/
theorem lost_update (env1 env2 : Env) (db : Store) (req1 req2 : PaymentRequest)
    (card1 card2 : Card) (acc : Account) (hnf1 : env1.NoFault) (hnf2 : env2.NoFault)
    (hc1 : db.cards.find? (fun c => c.HMAC = env1.ComputeHMAC req1.CardNumber env1.HMACSecret)
      = some card1)
    (hc2 : db.cards.find? (fun c => c.HMAC = env2.ComputeHMAC req2.CardNumber env2.HMACSecret)
      = some card2)
    (hsame : card2.AccountID = card1.AccountID)
    (hacc : db.accounts.find? (fun a => a.ID = card1.AccountID) = some acc)
    (hp1 : 0 < req1.Amount) (hp2 : 0 < req2.Amount)
    (hle1 : req1.Amount ≤ acc.Balance) (hle2 : req2.Amount ≤ acc.Balance) :
    (PayWithCard.interleaved env1 env2 db req1 req2).1.err = none ∧
    (PayWithCard.interleaved env1 env2 db req1 req2).2.err = none ∧
    (PayWithCard.interleaved env1 env2 db req1 req2).2.store.transactions =
      db.transactions ++
        [{ ID := env1.newID 0, From := some card1.AccountID, To := none, Amount := req1.Amount,
           TransactionType := "payment", Note := "оплата " ++ req1.Merchant },
         { ID := env2.newID 0, From := some card1.AccountID, To := none, Amount := req2.Amount,
           TransactionType := "payment", Note := "оплата " ++ req2.Merchant }] ∧
    balanceOf (PayWithCard.interleaved env1 env2 db req1 req2).2.store card1.AccountID =
      some (acc.Balance - req2.Amount) := by
  have hid := find_id hacc
  have hr1 : PayWithCard.readPhase env1 db req1 = .ok acc := by
    simp [PayWithCard.readPhase, not_le.mpr hp1, GetByHMAC_of_find (hnf1 0) hc1, hnf1 1,
      GetByID_of_find (hnf1 2) hacc, not_lt.mpr hle1]
  have hr2 : PayWithCard.readPhase env2 db req2 = .ok acc := by
    simp [PayWithCard.readPhase, not_le.mpr hp2, GetByHMAC_of_find (hnf2 0) hc2, hnf2 1, hsame,
      GetByID_of_find (hnf2 2) hacc, not_lt.mpr hle2]
  have hidf : ∀ a : Account,
      (((fun a : Account =>
          if a.ID = acc.ID then { a with Balance := acc.Balance - req2.Amount } else a) ∘
        (fun a : Account =>
          if a.ID = acc.ID then { a with Balance := acc.Balance - req1.Amount } else a))
        a).ID = a.ID := by
    intro a
    by_cases h : a.ID = acc.ID <;> simp [h]
  simp only [PayWithCard.interleaved, hr1, hr2, PayWithCard.writePhase,
    AccountRepo.UpdateBalanceTx, TransactionRepo.CreateTx, hnf1 3, hnf1 4, hnf1 5, hnf2 3,
    hnf2 4, hnf2 5, Bool.false_eq_true, ↓reduceIte, List.map_map]
  refine ⟨trivial, trivial, ?_, ?_⟩
  · simp [hid]
  · rw [balanceOf_map db _ _ card1.AccountID rfl hidf, hacc]
    simp [hid]

/-- Evaluation of C18 on sample data: account 1 holds 100; two payments of
80 with its card, both reading before either writes, both return no error;
the balance ends at 20 and the log holds two payments, 160 in all. -/
theorem lost_update_witness :
    balanceOf demoStoreHundred 1 = some 100 ∧
    (PayWithCard.interleaved (demoEnvAt 0) (demoEnvAt 1) demoStoreHundred
      ⟨"4000001111111111", 80, "shop"⟩ ⟨"4000001111111111", 80, "market"⟩).1.err = none ∧
    (PayWithCard.interleaved (demoEnvAt 0) (demoEnvAt 1) demoStoreHundred
      ⟨"4000001111111111", 80, "shop"⟩ ⟨"4000001111111111", 80, "market"⟩).2.err = none ∧
    (PayWithCard.interleaved (demoEnvAt 0) (demoEnvAt 1) demoStoreHundred
      ⟨"4000001111111111", 80, "shop"⟩ ⟨"4000001111111111", 80, "market"⟩).2.store.transactions.map
        (fun t => t.Amount) = [80, 80] ∧
    balanceOf (PayWithCard.interleaved (demoEnvAt 0) (demoEnvAt 1) demoStoreHundred
      ⟨"4000001111111111", 80, "shop"⟩ ⟨"4000001111111111", 80, "market"⟩).2.store 1
      = some (100 - 80) ∧
    ¬ Reconciled (PayWithCard.interleaved (demoEnvAt 0) (demoEnvAt 1) demoStoreHundred
      ⟨"4000001111111111", 80, "shop"⟩ ⟨"4000001111111111", 80, "market"⟩).2.store :=
  ⟨by decide!,
   (lost_update (demoEnvAt 0) (demoEnvAt 1) demoStoreHundred ⟨"4000001111111111", 80, "shop"⟩
      ⟨"4000001111111111", 80, "market"⟩ ⟨3, 1, "", "", "", "k:4000001111111111"⟩
      ⟨3, 1, "", "", "", "k:4000001111111111"⟩ ⟨1, 10, "4000001234567899", 100⟩
      (fun _ => rfl) (fun _ => rfl) (by decide!) (by decide!) rfl (by decide!)
      (by norm_num) (by norm_num) (by norm_num) (by norm_num)).1,
   by decide!, by decide!,
   (lost_update (demoEnvAt 0) (demoEnvAt 1) demoStoreHundred ⟨"4000001111111111", 80, "shop"⟩
      ⟨"4000001111111111", 80, "market"⟩ ⟨3, 1, "", "", "", "k:4000001111111111"⟩
      ⟨3, 1, "", "", "", "k:4000001111111111"⟩ ⟨1, 10, "4000001234567899", 100⟩
      (fun _ => rfl) (fun _ => rfl) (by decide!) (by decide!) rfl (by decide!)
      (by norm_num) (by norm_num) (by norm_num) (by norm_num)).2.2.2,
   by decide!⟩

/-! ## Notification -/

/-- C19, what the code does: the notification goroutine is started inside the
body of the unit of work, before `Commit`.  For a payment with a positive
amount that the balance covers, when every statement up to the log append
succeeds and `Commit` (statement 5) fails, `PayWithCard` returns the error of
the commit and the store is the store before the call, yet the
payment-success notification has been dispatched. -/
theorem notification_before_commit (env : Env) (db : Store) (req : PaymentRequest)
    (card : Card) (acc : Account)
    (hpos : 0 < req.Amount)
    (hlow : ∀ n, n < 5 → env.fault n = false) (hcommit : env.fault 5 = true)
    (hcard : db.cards.find? (fun c => c.HMAC = env.ComputeHMAC req.CardNumber env.HMACSecret)
      = some card)
    (hacc : db.accounts.find? (fun a => a.ID = card.AccountID) = some acc)
    (hle : req.Amount ≤ acc.Balance) :
    PayWithCard env db req =
      ⟨some (Err.store 5), db,
        [Effect.mail ⟨acc.UserID, "Успешная оплата", req.Merchant, req.Amount⟩]⟩ := by
  simp [PayWithCard, AccountRepo.WithTx, PayWithCard.body, AccountRepo.UpdateBalanceTx,
    TransactionRepo.CreateTx, not_le.mpr hpos, GetByHMAC_of_find (hlow 0 (by omega)) hcard,
    hlow 1 (by omega), GetByID_of_find (hlow 2 (by omega)) hacc, not_lt.mpr hle,
    hlow 3 (by omega), hlow 4 (by omega), hcommit]

/-- Evaluation of C19 on sample data: on the funded sample store, a payment
of 30 whose commit fails returns the error, leaves the store as it was and
has dispatched the notification to user 10. -/
theorem notification_before_commit_witness :
    PayWithCard { demoEnv with fault := fun n => n == 5 } demoStoreFunded
      ⟨"4000001111111111", 30, "shop"⟩ =
      ⟨some (Err.store 5), demoStoreFunded,
        [Effect.mail ⟨10, "Успешная оплата", "shop", 30⟩]⟩ :=
  notification_before_commit { demoEnv with fault := fun n => n == 5 } demoStoreFunded
    ⟨"4000001111111111", 30, "shop"⟩ ⟨3, 1, "", "", "", "k:4000001111111111"⟩
    ⟨1, 10, "4000001234567899", 50⟩ (by norm_num) (by decide) rfl (by decide!) (by decide!)
    (by norm_num)

/-! ## Division by zero -/

theorem Decimal.Round_small {x : ℚ} (k : ℕ) (h0 : 0 ≤ x) (h1 : x * (10 : ℚ) ^ k < 1 / 2) :
    Decimal.Round x k = 0 := by
  unfold Decimal.Round
  have hs : 0 ≤ x * (10 : ℚ) ^ k := mul_nonneg h0 (by positivity)
  have hfl : ⌊x * (10 : ℚ) ^ k + 1 / 2⌋ = 0 := by
    rw [Int.floor_eq_iff]
    constructor
    · simp only [Int.cast_zero]; linarith
    · simp only [Int.cast_zero]; linarith
  simp only [hs, ↓reduceIte, hfl, Int.cast_zero, zero_div]

/-- C20, what the code does: for every request with a positive principal and
a positive term, when the rate source gives a positive rate below
0.0000000000000006, the monthly rate `rate / 12`, rounded to 16 decimal
places by `Div`, is zero, the denominator `(1 + monthlyRate)^termMonths - 1`
is zero and `ApplyCredit` ends in the division-by-zero panic, with the store
as it was. -/
theorem tiny_rate_division_by_zero (env : Env) (db : Store) (userID : UUID)
    (req : ApplyCreditRequest) (a : ℚ) (hP : 0 < req.Principal) (hn : 0 < req.TermMonths)
    (hrate : env.fetchCBRRate env.now = .ok a) (ha : 0 < a) (hsmall : a < 6 / 10 ^ 16) :
    annualRate env = a ∧
    Decimal.Div (annualRate env) 12 = some 0 ∧
    Decimal.Pow (0 + 1) req.TermMonths - 1 = 0 ∧
    ApplyCredit env db userID req = (.error Err.divisionByZero, db) := by
  have hann := annualRate_ok hrate ha
  have hround : Decimal.Round (a / 12) 16 = 0 := by
    apply Decimal.Round_small 16 (by positivity)
    have : a / 12 * (10 : ℚ) ^ 16 < 6 / 10 ^ 16 / 12 * (10 : ℚ) ^ 16 := by
      apply mul_lt_mul_of_pos_right _ (by positivity)
      exact div_lt_div_of_pos_right hsmall (by norm_num)
    calc a / 12 * (10 : ℚ) ^ 16 < 6 / 10 ^ 16 / 12 * (10 : ℚ) ^ 16 := this
      _ = 1 / 2 := by norm_num
  have hdiv : Decimal.Div (annualRate env) 12 = some 0 := by
    simp [Decimal.Div, hann, DivisionPrecision, hround]
  have hden : Decimal.Pow (0 + 1) req.TermMonths - 1 = 0 := by
    simp [Decimal.Pow]
  refine ⟨hann, hdiv, hden, ?_⟩
  have hA : annuityOf req.Principal 0 req.TermMonths = none := by
    simp only [annuityOf, Decimal.Div, hden, ↓reduceIte]
  unfold ApplyCredit
  rw [if_neg (not_le.mpr hP), if_neg (not_le.mpr hn)]
  dsimp only
  rw [hdiv]
  dsimp only
  rw [hA]

/-- Evaluation of C20 on sample data: with the rate 0.00000000000000001, the
principal 1000 and the term 12, the monthly rate is 0 and `ApplyCredit` ends
in the division-by-zero panic. -/
theorem tiny_rate_division_by_zero_witness :
    annualRate demoEnvTinyRate = 1 / 10 ^ 17 ∧
    Decimal.Div (annualRate demoEnvTinyRate) 12 = some 0 ∧
    ApplyCredit demoEnvTinyRate demoStore 10 ⟨1, 1000, 12⟩
      = (.error Err.divisionByZero, demoStore) :=
  have h := tiny_rate_division_by_zero demoEnvTinyRate demoStore 10 ⟨1, 1000, 12⟩ (1 / 10 ^ 17)
    (by norm_num) (by decide) rfl (by norm_num) (by norm_num)
  ⟨h.1, h.2.1, h.2.2.2⟩

end BankApp
